import Mathlib

/-!
# Asteroid Dodger: the simulation core of `script.js`

A shallow embedding of the game's simulation core and the properties the
specification states about it.

Modelling conventions.

* JavaScript numbers that hold coordinates, velocities and sizes are exact
  rationals (`ℚ`) in the passes of the simulation step.  The collision test
  and the asteroid factory are embedded a second time in double arithmetic
  (`checkCollisionD`, `createAsteroidD`, over `Binary64`), where every
  operation returns the nearest double: the properties stated of these two
  functions on their own depend on the rounding.
* `score`, `destroyed`, `combo`, `maxCombo` and `level` are counters the
  source initialises to `0` (or `1`) and only ever increases or resets to
  `0`; they are natural numbers.  `lives`, `health`, `life` and the clock
  are decremented or subtracted and are integers.
* `Math.random()` is an explicit stream of draws in `[0, 1)`; `Date.now()`
  is an explicit clock argument.
* Arrays are lists; `splice(i, 1)` is `List.eraseIdx`, `push` appends at
  the end, and in-place mutation of the `i`-th object is `List.set`.
* Drawing, DOM updates, sound and frame scheduling are left out: they do
  not write the simulation state.
-/

namespace AsteroidDodger

/-! ## Configuration (`class GameConfig`) -/

namespace GameConfig

def CANVAS_WIDTH : ℚ := 800
def CANVAS_HEIGHT : ℚ := 600
def PLAYER_SPEED : ℚ := 5
def LASER_SPEED : ℚ := 8
def LASER_COOLDOWN : Int := 150
def PARTICLE_COUNT : Nat := 15
def STAR_COUNT : Nat := 100
def MAX_LEADERBOARD : Nat := 10
def ASTEROID_SPAWN_RATE : ℚ := 2 / 100

end GameConfig

/-! ## Environment: canvas, random draws -/

/-- The `canvas` element the controller reads `width` and `height` from. -/
structure Canvas where
  width : ℚ
  height : ℚ
deriving DecidableEq

/-- One result of `Math.random()`: a number in `[0, 1)`. -/
structure Unit01 where
  val : ℚ
  nonneg : 0 ≤ val
  lt_one : val < 1

/-- The stream of future results of `Math.random()`. -/
abbrev Rng := Nat → Unit01

/-- The `k`-th upcoming draw. -/
def Rng.random (r : Rng) (k : Nat) : ℚ := (r k).val

/-- The stream after `k` draws have been consumed. -/
def Rng.drop (r : Rng) (k : Nat) : Rng := fun n => r (n + k)

/-! ## Entities -/

structure Point where
  x : ℚ
  y : ℚ
deriving DecidableEq

/-- What `checkCollision` reads of an object: centre and radius. -/
structure Body where
  x : ℚ
  y : ℚ
  size : ℚ
deriving DecidableEq

structure Player where
  x : ℚ
  y : ℚ
  size : ℚ
  speed : ℚ
deriving DecidableEq

structure Laser where
  x : ℚ
  y : ℚ
  speed : ℚ
  size : ℚ
  trail : List Point
deriving DecidableEq

inductive AsteroidType where
  | normal
  | fast
  | large
  | splitting
deriving DecidableEq

structure Asteroid where
  x : ℚ
  y : ℚ
  vx : ℚ
  vy : ℚ
  size : ℚ
  rotation : ℚ
  rotSpeed : ℚ
  health : Int
  type : AsteroidType
  id : ℚ
deriving DecidableEq

structure Particle where
  x : ℚ
  y : ℚ
  vx : ℚ
  vy : ℚ
  life : Int
  maxLife : Int
  color : String
  size : ℚ
  gravity : ℚ
deriving DecidableEq

inductive PowerUpType where
  | shield
  | multishot
  | speedboost
deriving DecidableEq

structure PowerUp where
  x : ℚ
  y : ℚ
  type : PowerUpType
  size : ℚ
  life : Int
  pulse : ℚ
deriving DecidableEq

def Player.body (p : Player) : Body := ⟨p.x, p.y, p.size⟩
def Laser.body (l : Laser) : Body := ⟨l.x, l.y, l.size⟩
def Asteroid.body (a : Asteroid) : Body := ⟨a.x, a.y, a.size⟩
def PowerUp.body (p : PowerUp) : Body := ⟨p.x, p.y, p.size⟩

/-! ## Simulation state (`class GameState`) -/

/-- The `gameState` object.  `keys` is the key dictionary: the first pair
with a given name is the current value, a name without a pair is
`undefined`. -/
structure GameState where
  player : Player
  asteroids : List Asteroid
  lasers : List Laser
  particles : List Particle
  powerUps : List PowerUp
  score : Nat
  lives : Int
  destroyed : Nat
  gameRunning : Bool
  paused : Bool
  keys : List (String × Bool)
  lastShot : Int
  level : Nat
  combo : Nat
  maxCombo : Nat
deriving DecidableEq

/-- The state `reset()` assigns, field by field (script.js 18-34). -/
def GameState.fresh : GameState :=
  { player := { x := 400, y := 300, size := 15, speed := GameConfig.PLAYER_SPEED }
    asteroids := []
    lasers := []
    particles := []
    powerUps := []
    score := 0
    lives := 3
    destroyed := 0
    gameRunning := true
    paused := false
    keys := []
    lastShot := 0
    level := 1
    combo := 0
    maxCombo := 0 }

/-- The method `GameState.reset` (script.js 18-34): every field is overwritten. -/
def GameState.reset (_g : GameState) : GameState := GameState.fresh

/-- Truthiness of `keys[name]`. -/
def keyDown (keys : List (String × Bool)) (name : String) : Bool :=
  (keys.lookup name).getD false

/-- The assignment `keys[name] = v`. -/
def setKey (keys : List (String × Bool)) (name : String) (v : Bool) : List (String × Bool) :=
  (name, v) :: keys

/-! ## Entity factories -/

/-- The method `createParticle(x, y, color, velocity)` (script.js 337-348).
Without a velocity it draws `vx`, `vy` and `size`, in this order; with one
it draws `size` only. -/
def createParticle (x y : ℚ) (color : String) (velocity : Option Point) (r : Rng) : Particle :=
  match velocity with
  | some v =>
    { x := x, y := y, vx := v.x, vy := v.y, life := 30, maxLife := 30, color := color
      size := r.random 0 * 3 + 1, gravity := 1 / 10 }
  | none =>
    { x := x, y := y
      vx := (r.random 0 - 1 / 2) * 10
      vy := (r.random 1 - 1 / 2) * 10
      life := 30, maxLife := 30, color := color
      size := r.random 2 * 3 + 1, gravity := 1 / 10 }

/-- The index `Math.floor(Math.random() * n)` for the draw `u`. -/
def floorIndex (u : ℚ) (n : Nat) : Nat := (Int.floor (u * n)).toNat

/-- The method `createPowerUp(x, y)` (script.js 351-362): one draw picks the type. -/
def createPowerUp (x y : ℚ) (r : Rng) : PowerUp :=
  let type :=
    match floorIndex (r.random 0) 3 with
    | 0 => PowerUpType.shield
    | 1 => PowerUpType.multishot
    | _ => PowerUpType.speedboost
  { x := x, y := y, type := type, size := 12, life := 300, pulse := 0 }

/-- The method `createAsteroid()` (script.js 271-334).  Draws, in order:
side, the free coordinate, `vx`, `vy`, type, size, rotSpeed and the id
fraction.  The last branch of each `match` is index 3, the only value left
for a draw in `[0, 1)`. -/
def createAsteroid (canvas : Canvas) (now : Int) (r : Rng) : Asteroid :=
  let side := floorIndex (r.random 0) 4
  let pos : ℚ × ℚ × ℚ × ℚ :=
    match side with
    | 0 => (r.random 1 * canvas.width, -50, (r.random 2 - 1 / 2) * 4, r.random 3 * 3 + 1)
    | 1 => (canvas.width + 50, r.random 1 * canvas.height, -(r.random 2 * 3 + 1),
            (r.random 3 - 1 / 2) * 4)
    | 2 => (r.random 1 * canvas.width, canvas.height + 50, (r.random 2 - 1 / 2) * 4,
            -(r.random 3 * 3 + 1))
    | _ => (-50, r.random 1 * canvas.height, r.random 2 * 3 + 1, (r.random 3 - 1 / 2) * 4)
  let type :=
    match floorIndex (r.random 4) 4 with
    | 0 => AsteroidType.normal
    | 1 => AsteroidType.fast
    | 2 => AsteroidType.large
    | _ => AsteroidType.splitting
  let asteroid : Asteroid :=
    { x := pos.1, y := pos.2.1, vx := pos.2.2.1, vy := pos.2.2.2
      size := r.random 5 * 20 + 15
      rotation := 0
      rotSpeed := (r.random 6 - 1 / 2) * (2 / 10)
      health := 1
      type := type
      id := now + r.random 7 }
  match type with
  | AsteroidType.fast =>
    { asteroid with vx := asteroid.vx * (3 / 2), vy := asteroid.vy * (3 / 2)
                    size := asteroid.size * (8 / 10) }
  | AsteroidType.large => { asteroid with size := asteroid.size * (3 / 2), health := 2 }
  | AsteroidType.splitting => { asteroid with size := asteroid.size * (9 / 10) }
  | AsteroidType.normal => asteroid

/-! ## Collision detector -/

/-- The method `checkCollision(obj1, obj2)` (script.js 483-488):
`sqrt(dx*dx + dy*dy) < obj1.size + obj2.size`.  For a real square root this
holds exactly when the sum of the sizes is positive and
`dx*dx + dy*dy` is below its square, which is what is computed here. -/
def checkCollision (obj1 obj2 : Body) : Bool :=
  let dx := obj1.x - obj2.x
  let dy := obj1.y - obj2.y
  decide (0 < obj1.size + obj2.size ∧
    dx * dx + dy * dy < (obj1.size + obj2.size) * (obj1.size + obj2.size))

/-- The method `isOffScreen(obj, margin = 100)` (script.js 490-493). -/
def isOffScreen (canvas : Canvas) (obj : Body) (margin : ℚ) : Bool :=
  decide (obj.x < -margin) || decide (obj.x > canvas.width + margin) ||
  decide (obj.y < -margin) || decide (obj.y > canvas.height + margin)

/-! ## Event handlers of the simulation step -/

/-- The method `createSplitAsteroids(parentAsteroid)` (script.js 548-560):
two copies of the parent are pushed, each drawing `vx`, `vy` and the id
fraction. -/
def createSplitAsteroids (now : Int) (g : GameState) (parentAsteroid : Asteroid) (r : Rng) :
    GameState :=
  { g with
    asteroids := g.asteroids ++ (List.range 2).map fun i =>
      { parentAsteroid with
        size := parentAsteroid.size * (6 / 10)
        vx := parentAsteroid.vx + (r.random (3 * i) - 1 / 2) * 4
        vy := parentAsteroid.vy + (r.random (3 * i + 1) - 1 / 2) * 4
        type := AsteroidType.normal
        id := now + r.random (3 * i + 2) + i } }

/-- The method `gameOver()` (script.js 781-802), its writes to the state. -/
def gameOver (g : GameState) : GameState :=
  { g with gameRunning := false, paused := false }

/-- The method `handleAsteroidHit(asteroid, index, hitX, hitY)`
(script.js 496-527).  Returns the new state and the remaining draws. -/
def handleAsteroidHit (now : Int) (g : GameState) (asteroid : Asteroid) (index : Nat)
    (_hitX _hitY : ℚ) (r : Rng) : GameState × Rng :=
  -- explosion particles: PARTICLE_COUNT particles, three draws each
  let g1 : GameState :=
    { g with
      particles := g.particles ++ (List.range GameConfig.PARTICLE_COUNT).map fun k =>
        createParticle asteroid.x asteroid.y "orange" none (r.drop (3 * k)) }
  let r1 := r.drop (3 * GameConfig.PARTICLE_COUNT)
  -- splitting asteroids
  let split : Bool := decide (asteroid.type = AsteroidType.splitting) && decide (asteroid.size > 20)
  let g2 := if split then createSplitAsteroids now g1 asteroid r1 else g1
  let r2 := if split then r1.drop 6 else r1
  -- random power-up spawn
  let spawn : Bool := decide (r2.random 0 < 1 / 10)
  let g3 :=
    if spawn then { g2 with powerUps := g2.powerUps ++ [createPowerUp asteroid.x asteroid.y (r2.drop 1)] }
    else g2
  let r3 := if spawn then r2.drop 2 else r2.drop 1
  -- scoring with the combo system
  let combo := g3.combo + 1
  let points : Nat := if combo > 1 then 50 * min combo 5 else 50
  ({ g3 with
     combo := combo
     maxCombo := max g3.maxCombo combo
     score := g3.score + points
     destroyed := g3.destroyed + 1
     asteroids := g3.asteroids.eraseIdx index }, r3)

/-- The method `handlePlayerHit(asteroid, asteroidIndex)` (script.js 529-546). -/
def handlePlayerHit (g : GameState) (_asteroid : Asteroid) (asteroidIndex : Nat) (r : Rng) :
    GameState × Rng :=
  let g1 : GameState :=
    { g with
      particles := g.particles ++ (List.range 10).map fun j =>
        createParticle g.player.x g.player.y "cyan" none (r.drop (3 * j))
      lives := g.lives - 1
      combo := 0
      asteroids := g.asteroids.eraseIdx asteroidIndex }
  (if g1.lives ≤ 0 then gameOver g1 else g1, r.drop 30)

/-- The method `applyPowerUp(type)` (script.js 562-574). -/
def applyPowerUp (g : GameState) (type : PowerUpType) : GameState :=
  match type with
  | PowerUpType.shield => { g with lives := g.lives + 1 }
  | PowerUpType.multishot => g
  | PowerUpType.speedboost => { g with player := { g.player with speed := min 8 (g.player.speed + 1) } }

/-! ## The update passes -/

/-- The loop `for (let i = n - 1; i >= 0; i--) body(i)` over a state. -/
def forDown {σ : Type} (body : Nat → σ → σ) : Nat → σ → σ
  | 0, s => s
  | i + 1, s => forDown body i (body i s)

/-- The method `updatePlayer()` (script.js 365-384). -/
def updatePlayer (canvas : Canvas) (g : GameState) : GameState :=
  if !g.gameRunning || g.paused then g
  else
    let speed := g.player.speed
    let p0 := g.player
    let p1 : Player :=
      if keyDown g.keys "arrowleft" || keyDown g.keys "a" || keyDown g.keys "keya" then
        { p0 with x := max p0.size (p0.x - speed) }
      else p0
    let p2 : Player :=
      if keyDown g.keys "arrowright" || keyDown g.keys "d" || keyDown g.keys "keyd" then
        { p1 with x := min (canvas.width - p1.size) (p1.x + speed) }
      else p1
    let p3 : Player :=
      if keyDown g.keys "arrowup" || keyDown g.keys "w" || keyDown g.keys "keyw" then
        { p2 with y := max p2.size (p2.y - speed) }
      else p2
    let p4 : Player :=
      if keyDown g.keys "arrowdown" || keyDown g.keys "s" || keyDown g.keys "keys" then
        { p3 with y := min (canvas.height - p3.size) (p3.y + speed) }
      else p3
    { g with player := p4 }

/-- The trail update of a laser: push the position, drop the oldest entry
when the trail is longer than 5, then move up by `speed`. -/
def advanceLaser (laser : Laser) : Laser :=
  let trail := laser.trail ++ [({ x := laser.x, y := laser.y } : Point)]
  let trail := if trail.length > 5 then trail.tail else trail
  { laser with trail := trail, y := laser.y - laser.speed }

/-- The inner loop of `updateLasers` (script.js 405-412) for the laser at
index `i`, from asteroid index `j - 1` downwards: the first colliding
asteroid is resolved, the laser is removed and the loop is left. -/
def laserCollisionLoop (now : Int) (laser : Laser) (i : Nat) :
    Nat → GameState × Rng → GameState × Rng
  | 0, s => s
  | j + 1, s =>
    match s.1.asteroids[j]? with
    | none => laserCollisionLoop now laser i j s
    | some asteroid =>
      if checkCollision laser.body asteroid.body then
        let s1 := handleAsteroidHit now s.1 asteroid j laser.x laser.y s.2
        ({ s1.1 with lasers := s1.1.lasers.eraseIdx i }, s1.2)
      else laserCollisionLoop now laser i j s

/-- One iteration of the outer loop of `updateLasers` (script.js 390-412). -/
def updateLasersBody (now : Int) (i : Nat) (s : GameState × Rng) : GameState × Rng :=
  match s.1.lasers[i]? with
  | none => s
  | some laser0 =>
    let laser := advanceLaser laser0
    let g1 : GameState := { s.1 with lasers := s.1.lasers.set i laser }
    if laser.y < -10 then ({ g1 with lasers := g1.lasers.eraseIdx i }, s.2)
    else laserCollisionLoop now laser i g1.asteroids.length (g1, s.2)

/-- The method `updateLasers()` (script.js 386-414). -/
def updateLasers (now : Int) (s : GameState × Rng) : GameState × Rng :=
  if s.1.paused then s else forDown (updateLasersBody now) s.1.lasers.length s

/-- The motion of an asteroid in `updateAsteroids` (script.js 422-424). -/
def advanceAsteroid (asteroid : Asteroid) : Asteroid :=
  { asteroid with
    x := asteroid.x + asteroid.vx
    y := asteroid.y + asteroid.vy
    rotation := asteroid.rotation + asteroid.rotSpeed }

/-- One iteration of the loop of `updateAsteroids` (script.js 420-436). -/
def updateAsteroidsBody (canvas : Canvas) (i : Nat) (s : GameState × Rng) : GameState × Rng :=
  match s.1.asteroids[i]? with
  | none => s
  | some asteroid0 =>
    let asteroid := advanceAsteroid asteroid0
    let g1 : GameState := { s.1 with asteroids := s.1.asteroids.set i asteroid }
    if isOffScreen canvas asteroid.body 100 then
      ({ g1 with asteroids := g1.asteroids.eraseIdx i, score := g1.score + 10 }, s.2)
    else if checkCollision asteroid.body g1.player.body then
      handlePlayerHit g1 asteroid i s.2
    else (g1, s.2)

/-- The method `updateAsteroids()` (script.js 416-438). -/
def updateAsteroids (canvas : Canvas) (s : GameState × Rng) : GameState × Rng :=
  if s.1.paused then s else forDown (updateAsteroidsBody canvas) s.1.asteroids.length s

/-- One iteration of the loop of `updateParticles` (script.js 444-455). -/
def updateParticlesBody (i : Nat) (g : GameState) : GameState :=
  match g.particles[i]? with
  | none => g
  | some p0 =>
    let particle : Particle :=
      { p0 with
        x := p0.x + p0.vx
        y := p0.y + p0.vy
        vx := p0.vx * (98 / 100)
        vy := (p0.vy + p0.gravity) * (98 / 100)
        life := p0.life - 1 }
    let g1 : GameState := { g with particles := g.particles.set i particle }
    if particle.life ≤ 0 then { g1 with particles := g1.particles.eraseIdx i } else g1

/-- The method `updateParticles()` (script.js 440-457). -/
def updateParticles (g : GameState) : GameState :=
  if g.paused then g else forDown updateParticlesBody g.particles.length g

/-- One iteration of the loop of `updatePowerUps` (script.js 463-478). -/
def updatePowerUpsBody (i : Nat) (g : GameState) : GameState :=
  match g.powerUps[i]? with
  | none => g
  | some p0 =>
    let powerUp : PowerUp := { p0 with pulse := p0.pulse + 2 / 10, life := p0.life - 1 }
    let g1 : GameState := { g with powerUps := g.powerUps.set i powerUp }
    if powerUp.life ≤ 0 then { g1 with powerUps := g1.powerUps.eraseIdx i }
    else if checkCollision powerUp.body g1.player.body then
      let g2 := applyPowerUp g1 powerUp.type
      { g2 with powerUps := g2.powerUps.eraseIdx i }
    else g1

/-- The method `updatePowerUps()` (script.js 459-480). -/
def updatePowerUps (g : GameState) : GameState :=
  if g.paused then g else forDown updatePowerUpsBody g.powerUps.length g

/-- The update part of `gameLoop()` (script.js 870-891): one tick on the
simulation state.  The spawn decision draws one number, and eight more when
an asteroid is created. -/
def gameLoop (canvas : Canvas) (now : Int) (s : GameState × Rng) : GameState × Rng :=
  if s.1.gameRunning then
    let s1 : GameState × Rng := (updatePlayer canvas s.1, s.2)
    let s2 := updateLasers now s1
    let s3 := updateAsteroids canvas s2
    let s4 : GameState × Rng := (updateParticles s3.1, s3.2)
    let s5 : GameState × Rng := (updatePowerUps s4.1, s4.2)
    if !s5.1.paused then
      let spawnRate : ℚ := GameConfig.ASTEROID_SPAWN_RATE + s5.1.score * (1 / 100000)
      let spawn : Bool := decide (s5.2.random 0 < spawnRate)
      let g6 : GameState :=
        if spawn then
          { s5.1 with asteroids := s5.1.asteroids ++ [createAsteroid canvas now (s5.2.drop 1)] }
        else s5.1
      let r6 := if spawn then s5.2.drop 9 else s5.2.drop 1
      let newLevel := g6.score / 1000 + 1
      let g7 : GameState := if newLevel > g6.level then { g6 with level := newLevel } else g6
      (g7, r6)
    else s5
  else s

/-! ## Lifecycle commands and input handlers -/

/-- The method `togglePause()` (script.js 773-779), its write to the state. -/
def togglePause (g : GameState) : GameState :=
  if !g.gameRunning then g else { g with paused := !g.paused }

/-- The method `shootLaser()` (script.js 255-268) with `Date.now()` given. -/
def shootLaser (now : Int) (g : GameState) : GameState :=
  if now - g.lastShot > GameConfig.LASER_COOLDOWN then
    { g with
      lasers := g.lasers ++
        [({ x := g.player.x, y := g.player.y - g.player.size
            speed := GameConfig.LASER_SPEED, size := 3, trail := [] } : Laser)]
      lastShot := now }
  else g

/-- The method `handleKeyDown(e)` (script.js 132-148) for an event with the
given `key` and `code`.  `toLowerCase()` is `String.toLower`, which lowers the
letters `A` to `Z` only; the two agree on every key name the game reads. -/
def handleKeyDown (now : Int) (key code : String) (g : GameState) : GameState :=
  if key = "Escape" then togglePause g
  else if g.paused then g
  else
    let g1 : GameState := { g with keys := setKey (setKey g.keys key.toLower true) code.toLower true }
    if key = " " && g1.gameRunning then shootLaser now g1 else g1

/-- The method `handleKeyUp(e)` (script.js 150-154). -/
def handleKeyUp (key code : String) (g : GameState) : GameState :=
  if g.paused then g
  else { g with keys := setKey (setKey g.keys key.toLower false) code.toLower false }

/-- The `data-direction` values of the d-pad buttons, the keys of the map in
`getDirectionKey`. -/
inductive Direction where
  | up
  | down
  | left
  | right
deriving DecidableEq

/-- The method `getDirectionKey(direction)` (script.js 244-252). -/
def getDirectionKey (direction : Direction) : String :=
  match direction with
  | Direction.up => "arrowup"
  | Direction.down => "arrowdown"
  | Direction.left => "arrowleft"
  | Direction.right => "arrowright"

/-- What reaches the simulation state between and at frames. -/
inductive Event where
  /-- One call of `gameLoop` by the frame scheduler. -/
  | frame (now : Int) (r : Rng)
  /-- A `keydown` event. -/
  | keyDown (now : Int) (key code : String)
  /-- A `keyup` event. -/
  | keyUp (key code : String)
  /-- The `startEvent` of a d-pad button (script.js 164-172). -/
  | dpadStart (direction : Direction)
  /-- The `endEvent` of a d-pad button (script.js 174-182). -/
  | dpadEnd (direction : Direction)
  /-- The shoot button or its auto-fire timer (script.js 200-215). -/
  | shootButton (now : Int)
  /-- The global `togglePause()` of the pause button. -/
  | pauseButton
  /-- Window `blur` or `visibilitychange` to hidden (script.js 125-129, 970-974). -/
  | blur
  /-- The command `restartGame()` (script.js 804-810): `reset()`, then the first
  `gameLoop` call made by `startGameLoop()`. -/
  | restart (now : Int) (r : Rng)

/-- The effect of one event on the simulation state. -/
def step (canvas : Canvas) (e : Event) (g : GameState) : GameState :=
  match e with
  | Event.frame now r => (gameLoop canvas now (g, r)).1
  | Event.keyDown now key code => handleKeyDown now key code g
  | Event.keyUp key code => handleKeyUp key code g
  | Event.dpadStart d => { g with keys := setKey g.keys (getDirectionKey d) true }
  | Event.dpadEnd d => { g with keys := setKey g.keys (getDirectionKey d) false }
  | Event.shootButton now => if g.gameRunning && !g.paused then shootLaser now g else g
  | Event.pauseButton => togglePause g
  | Event.blur => if g.gameRunning && !g.paused then togglePause g else g
  | Event.restart now r => (gameLoop canvas now (g.reset, r)).1

/-- The state after a sequence of events, oldest first. -/
def run (canvas : Canvas) (events : List Event) (g : GameState) : GameState :=
  events.foldl (fun g e => step canvas e g) g

/-- The states a session can be in: those reached from the state built by
`reset()` through any sequence of events. -/
def Reachable (canvas : Canvas) (g : GameState) : Prop :=
  ∃ events : List Event, run canvas events GameState.fresh = g

/-! ## The controller (`class AsteroidDodger`) and the leaderboard -/

structure LeaderboardEntry where
  name : String
  score : Nat
  destroyed : Nat
  maxCombo : Nat
  date : String
deriving DecidableEq

/-- The fields of an `AsteroidDodger` instance that the lifecycle commands
use.  `animationId` is `none` until the frame loop has been started. -/
structure Controller where
  canvas : Canvas
  gameState : GameState
  platform : String
  leaderboardData : List LeaderboardEntry
  animationId : Option Nat

/-- The constructor of `AsteroidDodger` (script.js 38-57): `new GameState()`
runs `reset()`; no frame is scheduled yet. -/
def Controller.new (canvas : Canvas) : Controller :=
  { canvas := canvas
    gameState := GameState.fresh
    platform := "pc"
    leaderboardData := []
    animationId := none }

/-- The method `togglePause()` on the controller. -/
def Controller.togglePause (c : Controller) : Controller :=
  { c with gameState := AsteroidDodger.togglePause c.gameState }

/-- The comparator of `leaderboard.sort((a, b) => b.score - a.score)`: `a`
may stand before `b`. -/
def scoreOrder (a b : LeaderboardEntry) : Prop := b.score ≤ a.score

instance : DecidableRel scoreOrder := fun a b => inferInstanceAs (Decidable (b.score ≤ a.score))

instance : IsTotal LeaderboardEntry scoreOrder := ⟨fun a b => Nat.le_total b.score a.score⟩

instance : IsTrans LeaderboardEntry scoreOrder := ⟨fun _ _ _ hab hbc => Nat.le_trans hbc hab⟩

/-- The list part of `submitScore()` (script.js 842-853): push the entry,
sort by descending score, cut after `MAX_LEADERBOARD` entries.
`Array.prototype.sort` is stable (ECMAScript 2019); insertion sort is the
stable sort used here. -/
def submitEntry (leaderboard : List LeaderboardEntry) (entry : LeaderboardEntry) :
    List LeaderboardEntry :=
  ((leaderboard ++ [entry]).insertionSort scoreOrder).take GameConfig.MAX_LEADERBOARD

/-- The characters `String.prototype.trim()` removes: the ECMAScript white space
(tab, vertical tab, form feed, U+FEFF and the space separators of Unicode)
and line terminators (LF, CR, U+2028, U+2029). -/
def isTrimmed (c : Char) : Bool :=
  c.val ∈ [0x09, 0x0A, 0x0B, 0x0C, 0x0D, 0x20, 0xA0, 0x1680, 0x2028, 0x2029, 0x202F, 0x205F,
    0x3000, 0xFEFF] || (0x2000 ≤ c.val && c.val ≤ 0x200A)

/-- The method `String.prototype.trim()`. -/
def jsTrim (s : String) : String :=
  String.mk ((s.toList.dropWhile isTrimmed).reverse.dropWhile isTrimmed).reverse

/-- The entry `submitScore()` pushes (script.js 841-850), with the text of the
name field and the formatted date given. -/
def entryOf (g : GameState) (playerName date : String) : LeaderboardEntry :=
  { name := if jsTrim playerName = "" then "Anonymous" else jsTrim playerName
    score := g.score
    destroyed := g.destroyed
    maxCombo := g.maxCombo
    date := date }

/-- The method `submitScore()` (script.js 840-859), its write to the controller. -/
def submitScore (c : Controller) (playerName date : String) : Controller :=
  { c with leaderboardData := submitEntry c.leaderboardData (entryOf c.gameState playerName date) }

/-! ## Relations between the states before and after a pass -/

/-- The test `updateAsteroids` makes on an asteroid once it has moved: it is
still on screen and overlaps the player `p`. -/
def hitsPlayer (canvas : Canvas) (p : Player) (a : Asteroid) : Bool :=
  !isOffScreen canvas (advanceAsteroid a).body 100 &&
    checkCollision (advanceAsteroid a).body p.body

/-- What holds between the state before and the state after each of the
passes `updateLasers`, `updateAsteroids`, `updateParticles` and
`updatePowerUps`. -/
structure PassRel (g g2 : GameState) : Prop where
  player_x : g2.player.x = g.player.x
  player_y : g2.player.y = g.player.y
  player_size : g2.player.size = g.player.size
  speed_ge : g.player.speed ≤ 8 → g.player.speed ≤ g2.player.speed
  speed_le : g2.player.speed ≤ max g.player.speed 8
  score_le : g.score ≤ g2.score
  level_eq : g2.level = g.level
  lives_ok : (g.lives ≤ 0 → g.gameRunning = false) → g2.lives ≤ 0 → g2.gameRunning = false
  over_stays : g.gameRunning = false → g2.gameRunning = false
  paused_ok : g.paused = false → g2.paused = false
  keys_eq : g2.keys = g.keys
  lastShot_eq : g2.lastShot = g.lastShot

/-- The invariant of the player on a given canvas: the size `reset` gives, a
speed between the initial one and the cap of the speed boost, and a position
inside the field. -/
structure PlayerInv (canvas : Canvas) (g : GameState) : Prop where
  size_eq : g.player.size = 15
  speed_ge : 5 ≤ g.player.speed
  speed_le : g.player.speed ≤ 8
  x_ge : g.player.size ≤ g.player.x
  x_le : g.player.x ≤ canvas.width - g.player.size
  y_ge : g.player.size ≤ g.player.y
  y_le : g.player.y ≤ canvas.height - g.player.size

/-- The invariant of the session counters: a session without lives is over,
and the level is the one the score gives. -/
structure SessionInv (g : GameState) : Prop where
  lives_ok : g.lives ≤ 0 → g.gameRunning = false
  level_eq : g.level = g.score / 1000 + 1

/-- Whether an event is the restart command. -/
def Event.isRestart (e : Event) : Bool :=
  match e with
  | Event.restart _ _ => true
  | _ => false

/-! ## Accepted shots -/

/-- The clock values, out of `clock` (oldest first), at which a `shootLaser`
call appended a laser, when `shootLaser` is called once per clock value. -/
def acceptedShots : List Int → GameState → List Int
  | [], _ => []
  | now :: rest, g =>
    if (shootLaser now g).lasers.length = g.lasers.length + 1 then
      now :: acceptedShots rest (shootLaser now g)
    else acceptedShots rest (shootLaser now g)

/-! ## The tick up to the spawn decision -/

/-- The five update calls of `gameLoop` (script.js 872-876), in order, with
the draws they leave. -/
def updatePasses (canvas : Canvas) (now : Int) (s : GameState × Rng) : GameState × Rng :=
  ((updatePowerUps (updateParticles
      (updateAsteroids canvas (updateLasers now (updatePlayer canvas s.1, s.2))).1)),
    (updateAsteroids canvas (updateLasers now (updatePlayer canvas s.1, s.2))).2)

/-- The threshold `spawnRate` of `gameLoop` (script.js 880) at a given score. -/
def spawnRate (score : Nat) : ℚ := GameConfig.ASTEROID_SPAWN_RATE + score * (1 / 100000)

/-- The invariant of the entity lists: every asteroid has health at least 1
and a positive size, every laser a trail of at most 5 points. -/
structure EntityInv (g : GameState) : Prop where
  asteroid_ok : ∀ a ∈ g.asteroids, 1 ≤ a.health ∧ 0 < a.size
  trail_le : ∀ l ∈ g.lasers, l.trail.length ≤ 5

/-! ## Ageing of power-ups -/

/-- The two writes the loop of `updatePowerUps` makes to a power-up before it
tests it (script.js 466-467). -/
def agePowerUp (p : PowerUp) : PowerUp :=
  { p with pulse := p.pulse + 2 / 10, life := p.life - 1 }

/-- The calls of `applyPowerUp` the loop of `updatePowerUps` makes for the
power-ups `picked`, listed in collection order: the loop runs from the last
index down, so the last one is applied first. -/
def applyPicked (g : GameState) (picked : List PowerUp) : GameState :=
  picked.foldr (fun p acc => applyPowerUp acc p.type) g

/-- The state with a new power-up list. -/
def GameState.withPowerUps (g : GameState) (ps : List PowerUp) : GameState :=
  { g with powerUps := ps }

/-- The test `isHighScore` of `gameOver()` (script.js 789-791):
`leaderboard.length < MAX_LEADERBOARD || score > leaderboard[length - 1]?.score`.
With no last entry the comparison is with `undefined` and is false. -/
def isHighScore (leaderboard : List LeaderboardEntry) (score : Nat) : Bool :=
  decide (leaderboard.length < GameConfig.MAX_LEADERBOARD) ||
    (match leaderboard[leaderboard.length - 1]? with
      | some last => decide (score > last.score)
      | none => false)

/-! ## Double arithmetic

JavaScript numbers are IEEE 754 binary64 values.  A finite double is read as
the rational it denotes; an operation returns the double nearest to the exact
result, the one with an even significand when two are equally near
(`roundTiesToEven`), subnormal numbers included.  `Math.sqrt` is the IEEE
`squareRoot`, the double nearest to the root.  The definitions below give the
result of the code as long as it is finite, that is below `2 ^ 1024` in
absolute value; infinities and `NaN` are not represented. -/

namespace Binary64

/-- The integer nearest to `q`, the even one when two are equally near. -/
def roundHalfEven (q : ℚ) : Int :=
  if q - ⌊q⌋ < 1 / 2 then ⌊q⌋
  else if 1 / 2 < q - ⌊q⌋ then ⌊q⌋ + 1
  else if ⌊q⌋ % 2 = 0 then ⌊q⌋ else ⌊q⌋ + 1

/-- The position of the leading binary digit of `n ≥ 1`, found by halving; the
halving stops long before the fuel runs out. -/
def log2Fuel : Nat → Nat → Nat
  | 0, _ => 0
  | fuel + 1, n => if n < 2 then 0 else log2Fuel fuel (n / 2) + 1

/-- The position of the leading binary digit of `n ≥ 1`. -/
def log2 (n : Nat) : Nat := log2Fuel n n

/-- The binary exponent of `x > 0`: the integer `e` with `2 ^ e ≤ x < 2 ^ (e + 1)`,
found from the leading digits of numerator and denominator; `0` for `x ≤ 0`. -/
def exponent (x : ℚ) : Int :=
  if x ≤ 0 then 0
  else
    let e0 : Int := (log2 x.num.toNat : Int) - (log2 x.den : Int)
    if (2 : ℚ) ^ e0 ≤ x then e0 else e0 - 1

/-- The exponent of the spacing of the doubles around `x`: 52 below the
exponent of `x`, and that of the subnormal numbers below `2 ^ (-1022)`. -/
def ulpExp (x : ℚ) : Int := max (exponent |x|) (-1022) - 52

/-- The double nearest to `x` (round to nearest, ties to even): the nearest
multiple of the spacing of the doubles around `x`. -/
def round (x : ℚ) : ℚ :=
  if x = 0 then 0 else roundHalfEven (x / 2 ^ ulpExp x) * 2 ^ ulpExp x

/-- The sum `a + b` of two doubles. -/
def add (a b : ℚ) : ℚ := round (a + b)

/-- The difference `a - b` of two doubles. -/
def sub (a b : ℚ) : ℚ := round (a - b)

/-- The product `a * b` of two doubles. -/
def mul (a b : ℚ) : ℚ := round (a * b)

/-- Binary search for the integer square root: `r` is the part found so far,
the bits below `2 ^ k` are still to be decided. -/
def isqrtAux (n : Nat) : Nat → Nat → Nat
  | 0, r => r
  | k + 1, r => isqrtAux n k (if (r + 2 ^ k) * (r + 2 ^ k) ≤ n then r + 2 ^ k else r)

/-- The integer square root of a number below `2 ^ 108`. -/
def isqrt (n : Nat) : Nat := isqrtAux n 54 0

/-- The result of `Math.sqrt(y)` for a double `y ≥ 0`: the double nearest to the
square root.  With `u` the spacing of the doubles around the root, the root
lies between `n * u` and `(n + 1) * u`, and `y` is compared with the square of
the midpoint. -/
def sqrt (y : ℚ) : ℚ :=
  if y ≤ 0 then 0
  else
    let u : ℚ := 2 ^ (exponent y / 2 - 52)
    let t : ℚ := y / (u * u)
    let n : Nat := isqrt ⌊t⌋₊
    let mid : ℚ := (n + 1 / 2) * (n + 1 / 2)
    let m : Nat := if t < mid then n else if mid < t then n + 1 else if n % 2 = 0 then n else n + 1
    m * u

end Binary64

/-- The method `checkCollision(obj1, obj2)` (script.js 483-488) in double
arithmetic: every operation returns the nearest double, `Math.sqrt` the
double nearest to the root. -/
def checkCollisionD (obj1 obj2 : Body) : Bool :=
  let dx := Binary64.sub obj1.x obj2.x
  let dy := Binary64.sub obj1.y obj2.y
  let distance := Binary64.sqrt (Binary64.add (Binary64.mul dx dx) (Binary64.mul dy dy))
  decide (distance < Binary64.add obj1.size obj2.size)

/-- The value of `dx * dx + dy * dy` in `checkCollision`, in double arithmetic. -/
def squaredDistanceD (obj1 obj2 : Body) : ℚ :=
  Binary64.add
    (Binary64.mul (Binary64.sub obj1.x obj2.x) (Binary64.sub obj1.x obj2.x))
    (Binary64.mul (Binary64.sub obj1.y obj2.y) (Binary64.sub obj1.y obj2.y))

/-- The index `Math.floor(Math.random() * n)` for the draw `u`, in double arithmetic. -/
def floorIndexD (u : ℚ) (n : Nat) : Nat := (Int.floor (Binary64.mul u n)).toNat

/-- The position and velocity `createAsteroid` assigns in `switch(side)`
(script.js 276-301). -/
structure EdgeSpawn where
  x : ℚ
  y : ℚ
  vx : ℚ
  vy : ℚ
deriving DecidableEq

/-- The `switch(side)` of `createAsteroid()` (script.js 272-301) in double
arithmetic.  The last branch is index 3, the only value left for a draw that
is a double in `[0, 1)`. -/
def spawnEdgeD (canvas : Canvas) (r : Rng) : EdgeSpawn :=
  match floorIndexD (r.random 0) 4 with
  | 0 =>
    { x := Binary64.mul (r.random 1) canvas.width, y := -50
      vx := Binary64.mul (Binary64.sub (r.random 2) (1 / 2)) 4
      vy := Binary64.add (Binary64.mul (r.random 3) 3) 1 }
  | 1 =>
    { x := Binary64.add canvas.width 50, y := Binary64.mul (r.random 1) canvas.height
      vx := -(Binary64.add (Binary64.mul (r.random 2) 3) 1)
      vy := Binary64.mul (Binary64.sub (r.random 3) (1 / 2)) 4 }
  | 2 =>
    { x := Binary64.mul (r.random 1) canvas.width, y := Binary64.add canvas.height 50
      vx := Binary64.mul (Binary64.sub (r.random 2) (1 / 2)) 4
      vy := -(Binary64.add (Binary64.mul (r.random 3) 3) 1) }
  | _ =>
    { x := -50, y := Binary64.mul (r.random 1) canvas.height
      vx := Binary64.add (Binary64.mul (r.random 2) 3) 1
      vy := Binary64.mul (Binary64.sub (r.random 3) (1 / 2)) 4 }

/-- The type `createAsteroid()` draws (script.js 304-305). -/
def asteroidTypeD (r : Rng) : AsteroidType :=
  match floorIndexD (r.random 4) 4 with
  | 0 => AsteroidType.normal
  | 1 => AsteroidType.fast
  | 2 => AsteroidType.large
  | _ => AsteroidType.splitting

/-- The size `Math.random() * 20 + 15` of `createAsteroid()` (script.js 309) in
double arithmetic. -/
def baseSizeD (r : Rng) : ℚ := Binary64.add (Binary64.mul (r.random 5) 20) 15

/-- The method `createAsteroid()` (script.js 271-334) in double arithmetic:
every operation returns the nearest double.  The literals `0.5` and `1.5` are
doubles; `0.2`, `0.8` and `0.9` stand for the doubles nearest to them. -/
def createAsteroidD (canvas : Canvas) (now : Int) (r : Rng) : Asteroid :=
  let edge := spawnEdgeD canvas r
  let type := asteroidTypeD r
  let asteroid : Asteroid :=
    { x := edge.x, y := edge.y, vx := edge.vx, vy := edge.vy
      size := baseSizeD r
      rotation := 0
      rotSpeed := Binary64.mul (Binary64.sub (r.random 6) (1 / 2)) (Binary64.round (2 / 10))
      health := 1
      type := type
      id := Binary64.add now (r.random 7) }
  match type with
  | AsteroidType.fast =>
    { asteroid with vx := Binary64.mul asteroid.vx (3 / 2), vy := Binary64.mul asteroid.vy (3 / 2)
                    size := Binary64.mul asteroid.size (Binary64.round (8 / 10)) }
  | AsteroidType.large => { asteroid with size := Binary64.mul asteroid.size (3 / 2), health := 2 }
  | AsteroidType.splitting =>
    { asteroid with size := Binary64.mul asteroid.size (Binary64.round (9 / 10)) }
  | AsteroidType.normal => asteroid

/-! ## Sample data for concrete instances -/

namespace Sample

/-- The field of `GameConfig.CANVAS_WIDTH` by `GameConfig.CANVAS_HEIGHT`. -/
def canvas : Canvas := ⟨GameConfig.CANVAS_WIDTH, GameConfig.CANVAS_HEIGHT⟩

/-- The stream whose every draw is `0`. -/
def rngZero : Rng := fun _ => ⟨0, le_refl 0, zero_lt_one⟩

/-- The stream whose every draw is `1/2`. -/
def rngHalf : Rng := fun _ => ⟨1 / 2, by norm_num, by norm_num⟩

/-- A resting asteroid of size 20 centred on the start position of the player. -/
def rock : Asteroid :=
  { x := 400, y := 300, vx := 0, vy := 0, size := 20, rotation := 0, rotSpeed := 0
    health := 1, type := AsteroidType.normal, id := 1 }

/-- A running session with one life left and `rock` on top of the player. -/
def lastLife : GameState := { GameState.fresh with lives := 1, asteroids := [rock] }

/-- A splitting asteroid of size 30. -/
def splitter : Asteroid :=
  { x := 100, y := 100, vx := 1, vy := 2, size := 30, rotation := 0, rotSpeed := 0
    health := 1, type := AsteroidType.splitting, id := 2 }

/-- A fresh session holding only `splitter`. -/
def withSplitter : GameState := { GameState.fresh with asteroids := [splitter] }

/-- A fresh session that has been paused. -/
def pausedSession : GameState := { GameState.fresh with paused := true }

/-- An asteroid that overlaps the start position of the player and drifts away
from it at 3 units per tick. -/
def drifter : Asteroid :=
  { x := 433, y := 300, vx := 3, vy := 0, size := 20, rotation := 0, rotSpeed := 0
    health := 1, type := AsteroidType.normal, id := 3 }

/-- A running session with one life left and `drifter` overlapping the player. -/
def lastLifeDrifting : GameState := { GameState.fresh with lives := 1, asteroids := [drifter] }

/-- A resting asteroid of size 20 just above the centre of the player. -/
def rockAhead : Asteroid :=
  { x := 400, y := 290, vx := 0, vy := 0, size := 20, rotation := 0, rotSpeed := 0
    health := 1, type := AsteroidType.normal, id := 4 }

/-- A running session with one life left and `rockAhead` overlapping the player,
right after the player has fired at clock value 1000. -/
def lastLifeFiring : GameState :=
  shootLaser 1000 { GameState.fresh with lives := 1, asteroids := [rockAhead] }

/-- A shield power-up lying on the start position of the player. -/
def shieldHere : PowerUp :=
  { x := 400, y := 300, type := PowerUpType.shield, size := 12, life := 100, pulse := 0 }

/-- A running session with one life left, `rock` on top of the player, and a
shield power-up within reach. -/
def lastLifeShielded : GameState :=
  { GameState.fresh with lives := 1, asteroids := [rock], powerUps := [shieldHere] }

/-- A laser at the height of `rock`, with overlapping radii, 22 to its right. -/
def grazingLaser : Laser := { x := 422, y := 300, speed := 8, size := 3, trail := [] }

/-- A fresh session holding `rock` and `grazingLaser`. -/
def sessionGrazing : GameState :=
  { GameState.fresh with asteroids := [rock], lasers := [grazingLaser] }

/-- A resting asteroid of size 20 entering at the top of the field. -/
def rockAtTop : Asteroid :=
  { x := 400, y := -5, vx := 0, vy := 0, size := 20, rotation := 0, rotSpeed := 0
    health := 1, type := AsteroidType.normal, id := 5 }

/-- A laser at the centre of `rockAtTop`. -/
def topLaser : Laser := { x := 400, y := -5, speed := 8, size := 3, trail := [] }

/-- A fresh session holding `rockAtTop` and `topLaser`. -/
def sessionAtTop : GameState :=
  { GameState.fresh with asteroids := [rockAtTop], lasers := [topLaser] }

/-- A laser at the centre of `rock`. -/
def centredLaser : Laser := { x := 400, y := 300, speed := 8, size := 3, trail := [] }

/-- A fresh session holding `rock` and `centredLaser`. -/
def sessionCentred : GameState :=
  { GameState.fresh with asteroids := [rock], lasers := [centredLaser] }

/-- An asteroid about to leave the field on the left. -/
def leaver : Asteroid :=
  { x := -95, y := 300, vx := -10, vy := 0, size := 20, rotation := 0, rotSpeed := 0
    health := 1, type := AsteroidType.normal, id := 6 }

/-- A fresh session with combo 3 holding `leaver`. -/
def sessionLeaving : GameState := { GameState.fresh with asteroids := [leaver], combo := 3 }

/-- A shield power-up on the start position of the player with one tick of life left. -/
def expiring : PowerUp := { shieldHere with life := 1 }

/-- A power-up as the factory creates it, away from the player. -/
def farPowerUp : PowerUp := createPowerUp 100 100 rngZero

/-- A fresh session with a shield on the player, an expiring shield on the
player, and a new power-up out of reach. -/
def sessionPowerUps : GameState :=
  { GameState.fresh with powerUps := [shieldHere, expiring, farPowerUp] }

/-- The states of successive power-up passes on a fresh session holding `farPowerUp`. -/
def agingSession (j : Nat) : GameState :=
  updatePowerUps^[j] { GameState.fresh with powerUps := [farPowerUp] }

/-- The stream that yields the given draws and `1/2` ever after. -/
def draws (l : List Unit01) : Rng := fun n => l.getD n ⟨1 / 2, by norm_num, by norm_num⟩

/-- The draws of a tick that spawns an asteroid (draw 0 at the spawn decision)
at the top edge (side draw 0), above the start position of the player (draw
`1/2` for `x` and for `vx`), of type fast (type draw `1/4`) and size 25 (size
draw `13/16`), falling with the speed `3/2 * (3 * u + 1)`. -/
def spawnAbove (u : Unit01) : Rng :=
  draws [⟨0, by norm_num, by norm_num⟩, ⟨0, by norm_num, by norm_num⟩,
    ⟨1 / 2, by norm_num, by norm_num⟩, ⟨1 / 2, by norm_num, by norm_num⟩, u,
    ⟨1 / 4, by norm_num, by norm_num⟩, ⟨13 / 16, by norm_num, by norm_num⟩]

/-- The draws of 60 ticks: four ticks that spawn asteroids falling at 5.3, 5.4,
5.5 and 5.6 a tick, then 56 ticks that spawn nothing. -/
def barrageDraws : List Rng :=
  [spawnAbove ⟨38 / 45, by norm_num, by norm_num⟩,
   spawnAbove ⟨13 / 15, by norm_num, by norm_num⟩,
   spawnAbove ⟨8 / 9, by norm_num, by norm_num⟩,
   spawnAbove ⟨41 / 45, by norm_num, by norm_num⟩] ++ List.replicate 56 rngHalf

/-- A running session with one life left and two copies of `rock` on the player. -/
def lastLifeTwoRocks : GameState := { GameState.fresh with lives := 1, asteroids := [rock, rock] }

/-- A full leaderboard with the scores 100, 90, ..., 10. -/
def board : List LeaderboardEntry :=
  (List.range 10).map fun i =>
    { name := "Anonymous", score := 100 - 10 * i, destroyed := 0, maxCombo := 0, date := "" }

/-- An entry whose score equals the lowest score of `board`. -/
def tie : LeaderboardEntry :=
  { name := "Late", score := 10, destroyed := 0, maxCombo := 0, date := "" }

/-- A circle of radius 5 centred at `(3, 4 - 2^-51)`, all three doubles: its
centre is less than 5 away from the origin. -/
def nearTouch : Body := ⟨3, 4 - 1 / 2 ^ 51, 5⟩

/-- A point at the origin. -/
def origin : Body := ⟨0, 0, 0⟩

/-- The largest double below 1. -/
def largestDraw : Unit01 := ⟨1 - 1 / 2 ^ 52, by norm_num, by norm_num⟩

/-- The draws of a `createAsteroid` call for a normal asteroid at the top edge
whose size draw is the largest double below 1. -/
def largestSizeDraws : Rng :=
  draws [⟨0, by norm_num, by norm_num⟩, ⟨1 / 2, by norm_num, by norm_num⟩,
    ⟨1 / 2, by norm_num, by norm_num⟩, ⟨1 / 2, by norm_num, by norm_num⟩,
    ⟨0, by norm_num, by norm_num⟩, largestDraw]

end Sample

/-! ## Field lemmas for the hit handlers -/

theorem handleAsteroidHit_combo (now : Int) (g : GameState) (a : Asteroid) (index : Nat)
    (hitX hitY : ℚ) (r : Rng) :
    (handleAsteroidHit now g a index hitX hitY r).1.combo = g.combo + 1 := by
  simp only [handleAsteroidHit, createSplitAsteroids]
  split_ifs <;> rfl

theorem handleAsteroidHit_score (now : Int) (g : GameState) (a : Asteroid) (index : Nat)
    (hitX hitY : ℚ) (r : Rng) :
    (handleAsteroidHit now g a index hitX hitY r).1.score =
      g.score + (if g.combo + 1 > 1 then 50 * min (g.combo + 1) 5 else 50) := by
  simp only [handleAsteroidHit, createSplitAsteroids]
  split_ifs <;> rfl

theorem handleAsteroidHit_asteroids (now : Int) (g : GameState) (a : Asteroid) (index : Nat)
    (hitX hitY : ℚ) (r : Rng) :
    (handleAsteroidHit now g a index hitX hitY r).1.asteroids =
      (g.asteroids ++
        (if a.type = AsteroidType.splitting ∧ a.size > 20 then
          (createSplitAsteroids now { g with asteroids := [] } a
            (r.drop (3 * GameConfig.PARTICLE_COUNT))).asteroids
        else [])).eraseIdx index := by
  simp only [handleAsteroidHit, createSplitAsteroids]
  by_cases h1 : a.type = AsteroidType.splitting <;> by_cases h2 : a.size > 20 <;>
    simp [h1, h2] <;> split_ifs <;> rfl

theorem jitter_abs_le (u : Unit01) : |(u.val - 1 / 2) * 4| ≤ 2 := by
  have h0 := u.nonneg
  have h1 := u.lt_one
  rw [abs_le]
  constructor <;> linarith

/-! ## The pass relation: closure properties and the handlers -/

theorem PassRel.refl (g : GameState) : PassRel g g :=
  ⟨rfl, rfl, rfl, fun _ => le_refl _, le_max_left _ _, le_refl _, rfl, fun h => h, fun h => h,
    fun h => h, rfl, rfl⟩

theorem PassRel.trans {a b c : GameState} (h1 : PassRel a b) (h2 : PassRel b c) : PassRel a c where
  player_x := h2.player_x.trans h1.player_x
  player_y := h2.player_y.trans h1.player_y
  player_size := h2.player_size.trans h1.player_size
  speed_ge := fun h =>
    (h1.speed_ge h).trans (h2.speed_ge (h1.speed_le.trans (max_le h (le_refl _))))
  speed_le := h2.speed_le.trans (max_le h1.speed_le (le_max_right _ _))
  score_le := h1.score_le.trans h2.score_le
  level_eq := h2.level_eq.trans h1.level_eq
  lives_ok := fun h => h2.lives_ok (h1.lives_ok h)
  over_stays := fun h => h2.over_stays (h1.over_stays h)
  paused_ok := fun h => h2.paused_ok (h1.paused_ok h)
  keys_eq := h2.keys_eq.trans h1.keys_eq
  lastShot_eq := h2.lastShot_eq.trans h1.lastShot_eq

/-- A reflexive, transitive relation that every iteration respects holds
across the whole loop. -/
theorem forDown_rel {σ : Type} (R : σ → σ → Prop) (hrefl : ∀ s, R s s)
    (htrans : ∀ a b c, R a b → R b c → R a c) (body : Nat → σ → σ)
    (hbody : ∀ i s, R s (body i s)) : ∀ (n : Nat) (s : σ), R s (forDown body n s)
  | 0, s => hrefl s
  | n + 1, s => htrans _ _ _ (hbody n s) (forDown_rel R hrefl htrans body hbody n (body n s))

theorem handleAsteroidHit_passRel (now : Int) (g : GameState) (a : Asteroid) (index : Nat)
    (hitX hitY : ℚ) (r : Rng) : PassRel g (handleAsteroidHit now g a index hitX hitY r).1 := by
  constructor
  case score_le => rw [handleAsteroidHit_score]; exact Nat.le_add_right _ _
  all_goals simp only [handleAsteroidHit, createSplitAsteroids]
  all_goals split_ifs
  all_goals first
    | rfl
    | exact le_refl _
    | exact fun _ => le_refl _
    | exact le_max_left _ _
    | exact fun h => h

theorem handlePlayerHit_passRel (g : GameState) (a : Asteroid) (index : Nat) (r : Rng) :
    PassRel g (handlePlayerHit g a index r).1 := by
  constructor
  all_goals simp only [handlePlayerHit, gameOver]
  all_goals split_ifs with hl
  all_goals first
    | rfl
    | exact le_refl _
    | exact le_max_left _ _
    | exact fun _ => le_refl _
    | exact fun _ => rfl
    | exact fun _ _ => rfl
    | exact fun h => h
    | exact fun _ h => absurd h hl

theorem applyPowerUp_passRel (g : GameState) (t : PowerUpType) : PassRel g (applyPowerUp g t) := by
  cases t
  · refine ⟨rfl, rfl, rfl, fun _ => le_refl _, le_max_left _ _, le_refl _, rfl, ?_, fun h => h,
      fun h => h, rfl, rfl⟩
    intro h hl
    exact h (by simp only [applyPowerUp] at hl; omega)
  · exact PassRel.refl g
  · refine ⟨rfl, rfl, rfl, ?_, ?_, le_refl _, rfl, fun h => h, fun h => h, fun h => h, rfl, rfl⟩
    · intro h8
      simp only [applyPowerUp]
      exact le_min h8 (by linarith)
    · simp only [applyPowerUp]
      exact (min_le_left _ _).trans (le_max_right _ _)

/-- States that agree on everything but the entity lists are related. -/
theorem passRel_of_eq {g g2 : GameState} (hp : g2.player = g.player) (hs : g2.score = g.score)
    (hlv : g2.level = g.level) (hl : g2.lives = g.lives) (hr : g2.gameRunning = g.gameRunning)
    (hpa : g2.paused = g.paused) (hk : g2.keys = g.keys) (hsh : g2.lastShot = g.lastShot) :
    PassRel g g2 where
  player_x := by rw [hp]
  player_y := by rw [hp]
  player_size := by rw [hp]
  speed_ge := fun _ => by rw [hp]
  speed_le := by rw [hp]; exact le_max_left _ _
  score_le := by rw [hs]
  level_eq := hlv
  lives_ok := by rw [hl, hr]; exact fun h => h
  over_stays := by rw [hr]; exact fun h => h
  paused_ok := by rw [hpa]; exact fun h => h
  keys_eq := hk
  lastShot_eq := hsh

/-! ## The pass relation across the four passes -/

theorem laserCollisionLoop_passRel (now : Int) (laser : Laser) (i : Nat) :
    ∀ (j : Nat) (s : GameState × Rng), PassRel s.1 (laserCollisionLoop now laser i j s).1
  | 0, s => PassRel.refl s.1
  | j + 1, s => by
    simp only [laserCollisionLoop]
    split
    · exact laserCollisionLoop_passRel now laser i j s
    · split_ifs
      · exact (handleAsteroidHit_passRel now s.1 _ j laser.x laser.y s.2).trans
          (passRel_of_eq rfl rfl rfl rfl rfl rfl rfl rfl)
      · exact laserCollisionLoop_passRel now laser i j s

theorem updateLasersBody_passRel (now : Int) (i : Nat) (s : GameState × Rng) :
    PassRel s.1 (updateLasersBody now i s).1 := by
  simp only [updateLasersBody]
  split
  · exact PassRel.refl s.1
  · split_ifs
    · exact passRel_of_eq rfl rfl rfl rfl rfl rfl rfl rfl
    · refine PassRel.trans ?_ (laserCollisionLoop_passRel now _ i _ (_, s.2))
      exact passRel_of_eq rfl rfl rfl rfl rfl rfl rfl rfl

theorem updateLasers_passRel (now : Int) (s : GameState × Rng) :
    PassRel s.1 (updateLasers now s).1 := by
  simp only [updateLasers]
  split_ifs
  · exact PassRel.refl s.1
  · exact forDown_rel (fun a b : GameState × Rng => PassRel a.1 b.1) (fun a => PassRel.refl a.1)
      (fun _ _ _ h1 h2 => h1.trans h2) _ (updateLasersBody_passRel now) _ s

theorem updateAsteroidsBody_passRel (canvas : Canvas) (i : Nat) (s : GameState × Rng) :
    PassRel s.1 (updateAsteroidsBody canvas i s).1 := by
  simp only [updateAsteroidsBody]
  split
  · exact PassRel.refl s.1
  · split_ifs
    · exact ⟨rfl, rfl, rfl, fun _ => le_refl _, le_max_left _ _, Nat.le_add_right _ _, rfl,
        fun h => h, fun h => h, fun h => h, rfl, rfl⟩
    · refine PassRel.trans ?_ (handlePlayerHit_passRel _ _ i s.2)
      exact passRel_of_eq rfl rfl rfl rfl rfl rfl rfl rfl
    · exact passRel_of_eq rfl rfl rfl rfl rfl rfl rfl rfl

theorem updateAsteroids_passRel (canvas : Canvas) (s : GameState × Rng) :
    PassRel s.1 (updateAsteroids canvas s).1 := by
  simp only [updateAsteroids]
  split_ifs
  · exact PassRel.refl s.1
  · exact forDown_rel (fun a b : GameState × Rng => PassRel a.1 b.1) (fun a => PassRel.refl a.1)
      (fun _ _ _ h1 h2 => h1.trans h2) _ (updateAsteroidsBody_passRel canvas) _ s

theorem updateParticlesBody_passRel (i : Nat) (g : GameState) :
    PassRel g (updateParticlesBody i g) := by
  simp only [updateParticlesBody]
  split
  · exact PassRel.refl g
  · split_ifs <;> exact passRel_of_eq rfl rfl rfl rfl rfl rfl rfl rfl

theorem updateParticles_passRel (g : GameState) : PassRel g (updateParticles g) := by
  simp only [updateParticles]
  split_ifs
  · exact PassRel.refl g
  · exact forDown_rel PassRel PassRel.refl (fun _ _ _ h1 h2 => h1.trans h2) _
      updateParticlesBody_passRel _ g

theorem updatePowerUpsBody_passRel (i : Nat) (g : GameState) :
    PassRel g (updatePowerUpsBody i g) := by
  simp only [updatePowerUpsBody]
  split
  · exact PassRel.refl g
  · split_ifs
    · exact passRel_of_eq rfl rfl rfl rfl rfl rfl rfl rfl
    · refine PassRel.trans ?_ (passRel_of_eq (g := applyPowerUp _ _) rfl rfl rfl rfl rfl rfl rfl rfl)
      refine PassRel.trans ?_ (applyPowerUp_passRel _ _)
      exact passRel_of_eq rfl rfl rfl rfl rfl rfl rfl rfl
    · exact passRel_of_eq rfl rfl rfl rfl rfl rfl rfl rfl

theorem updatePowerUps_passRel (g : GameState) : PassRel g (updatePowerUps g) := by
  simp only [updatePowerUps]
  split_ifs
  · exact PassRel.refl g
  · exact forDown_rel PassRel PassRel.refl (fun _ _ _ h1 h2 => h1.trans h2) _
      updatePowerUpsBody_passRel _ g

/-- The four passes after `updatePlayer`, as `gameLoop` chains them. -/
theorem passes_passRel (canvas : Canvas) (now : Int) (s : GameState × Rng) :
    PassRel s.1
      (updatePowerUps (updateParticles (updateAsteroids canvas (updateLasers now s)).1)) :=
  (((updateLasers_passRel now s).trans (updateAsteroids_passRel canvas _)).trans
    (updateParticles_passRel _)).trans (updatePowerUps_passRel _)

/-! ## The player update -/

/-- One axis of `updatePlayer`: a clamped step down, then a clamped step up,
each taken or not, stays between `size` and `W - size`. -/
theorem clamp_axis (size speed pos W : ℚ) (b1 b2 : Bool) (h1 : size ≤ pos)
    (h2 : pos ≤ W - size) (hs : 0 ≤ speed) :
    size ≤ (if b2 then min (W - size) ((if b1 then max size (pos - speed) else pos) + speed)
      else (if b1 then max size (pos - speed) else pos)) ∧
    (if b2 then min (W - size) ((if b1 then max size (pos - speed) else pos) + speed)
      else (if b1 then max size (pos - speed) else pos)) ≤ W - size := by
  have hm1 : size ≤ max size (pos - speed) := le_max_left _ _
  have hm2 : max size (pos - speed) ≤ W - size := max_le (by linarith) (by linarith)
  cases b1 <;> cases b2 <;> simp only [if_true, if_false, Bool.false_eq_true]
  · exact ⟨h1, h2⟩
  · exact ⟨le_min (by linarith) (by linarith), min_le_left _ _⟩
  · exact ⟨hm1, hm2⟩
  · exact ⟨le_min (by linarith) (by linarith), min_le_left _ _⟩

theorem updatePlayer_frozen (canvas : Canvas) (g : GameState)
    (h : g.gameRunning = false ∨ g.paused = true) : updatePlayer canvas g = g := by
  rcases h with h | h <;> simp [updatePlayer, h]

theorem updatePlayer_x (canvas : Canvas) (g : GameState) (hr : g.gameRunning = true)
    (hp : g.paused = false) :
    (updatePlayer canvas g).player.x =
      (if (keyDown g.keys "arrowright" || keyDown g.keys "d" || keyDown g.keys "keyd") then
        min (canvas.width - g.player.size)
          ((if (keyDown g.keys "arrowleft" || keyDown g.keys "a" || keyDown g.keys "keya") then
            max g.player.size (g.player.x - g.player.speed) else g.player.x) + g.player.speed)
      else (if (keyDown g.keys "arrowleft" || keyDown g.keys "a" || keyDown g.keys "keya") then
            max g.player.size (g.player.x - g.player.speed) else g.player.x)) := by
  simp only [updatePlayer, hr, hp]
  split_ifs <;> first | rfl | simp_all

theorem updatePlayer_y (canvas : Canvas) (g : GameState) (hr : g.gameRunning = true)
    (hp : g.paused = false) :
    (updatePlayer canvas g).player.y =
      (if (keyDown g.keys "arrowdown" || keyDown g.keys "s" || keyDown g.keys "keys") then
        min (canvas.height - g.player.size)
          ((if (keyDown g.keys "arrowup" || keyDown g.keys "w" || keyDown g.keys "keyw") then
            max g.player.size (g.player.y - g.player.speed) else g.player.y) + g.player.speed)
      else (if (keyDown g.keys "arrowup" || keyDown g.keys "w" || keyDown g.keys "keyw") then
            max g.player.size (g.player.y - g.player.speed) else g.player.y)) := by
  simp only [updatePlayer, hr, hp]
  split_ifs <;> first | rfl | simp_all

/-- Only the position of the player is written by `updatePlayer`. -/
theorem updatePlayer_eq (canvas : Canvas) (g : GameState) :
    updatePlayer canvas g =
      { g with player := { g.player with x := (updatePlayer canvas g).player.x
                                         y := (updatePlayer canvas g).player.y } } := by
  simp only [updatePlayer]
  split_ifs <;> rfl

/-- The bounds of the field are kept by `updatePlayer`. -/
theorem updatePlayer_inside (canvas : Canvas) (g : GameState)
    (hx1 : g.player.size ≤ g.player.x) (hx2 : g.player.x ≤ canvas.width - g.player.size)
    (hy1 : g.player.size ≤ g.player.y) (hy2 : g.player.y ≤ canvas.height - g.player.size)
    (hs : 0 ≤ g.player.speed) :
    (updatePlayer canvas g).player.size = g.player.size ∧
    (updatePlayer canvas g).player.speed = g.player.speed ∧
    g.player.size ≤ (updatePlayer canvas g).player.x ∧
    (updatePlayer canvas g).player.x ≤ canvas.width - g.player.size ∧
    g.player.size ≤ (updatePlayer canvas g).player.y ∧
    (updatePlayer canvas g).player.y ≤ canvas.height - g.player.size := by
  have hsz : (updatePlayer canvas g).player.size = g.player.size := by
    rw [updatePlayer_eq]
  have hsp : (updatePlayer canvas g).player.speed = g.player.speed := by
    rw [updatePlayer_eq]
  by_cases hfro : g.gameRunning = false ∨ g.paused = true
  · rw [updatePlayer_frozen canvas g hfro]
    exact ⟨rfl, rfl, hx1, hx2, hy1, hy2⟩
  · have hr : g.gameRunning = true := by
      cases h : g.gameRunning
      · exact absurd (Or.inl h) hfro
      · rfl
    have hp : g.paused = false := by
      cases h : g.paused
      · rfl
      · exact absurd (Or.inr h) hfro
    refine ⟨hsz, hsp, ?_, ?_, ?_, ?_⟩
    · rw [updatePlayer_x canvas g hr hp]
      exact (clamp_axis _ _ _ _ _ _ hx1 hx2 hs).1
    · rw [updatePlayer_x canvas g hr hp]
      exact (clamp_axis _ _ _ _ _ _ hx1 hx2 hs).2
    · rw [updatePlayer_y canvas g hr hp]
      exact (clamp_axis _ _ _ _ _ _ hy1 hy2 hs).1
    · rw [updatePlayer_y canvas g hr hp]
      exact (clamp_axis _ _ _ _ _ _ hy1 hy2 hs).2

/-! ## The tick as a whole -/

theorem gameLoop_of_frozen (canvas : Canvas) (now : Int) (g : GameState) (r : Rng)
    (h : g.gameRunning = false ∨ g.paused = true) :
    gameLoop canvas now (g, r) = (g, r) := by
  by_cases hrun : g.gameRunning = true
  · have hp : g.paused = true := by
      rcases h with h | h
      · rw [h] at hrun
        exact absurd hrun (by decide)
      · exact h
    simp [gameLoop, updatePlayer, updateLasers, updateAsteroids, updateParticles,
      updatePowerUps, hrun, hp]
  · simp [gameLoop, hrun]

/-- A tick of a running, unpaused session: the state after the five passes,
with some asteroid list and the level recomputed from the score. -/
theorem gameLoop_running (canvas : Canvas) (now : Int) (g : GameState) (r : Rng)
    (hr : g.gameRunning = true) (hp : g.paused = false) :
    ∃ asts : List Asteroid,
      (gameLoop canvas now (g, r)).1 =
        { updatePowerUps (updateParticles (updateAsteroids canvas
            (updateLasers now (updatePlayer canvas g, r))).1) with
          asteroids := asts
          level :=
            if (updatePowerUps (updateParticles (updateAsteroids canvas
                (updateLasers now (updatePlayer canvas g, r))).1)).score / 1000 + 1 >
              (updatePowerUps (updateParticles (updateAsteroids canvas
                (updateLasers now (updatePlayer canvas g, r))).1)).level
            then (updatePowerUps (updateParticles (updateAsteroids canvas
                (updateLasers now (updatePlayer canvas g, r))).1)).score / 1000 + 1
            else (updatePowerUps (updateParticles (updateAsteroids canvas
                (updateLasers now (updatePlayer canvas g, r))).1)).level } := by
  have hrel := passes_passRel canvas now (updatePlayer canvas g, r)
  have hp1 : (updatePlayer canvas g).paused = false := by
    rw [updatePlayer_eq]
    exact hp
  have hp5 := hrel.paused_ok hp1
  have hnp : (!(updatePowerUps (updateParticles (updateAsteroids canvas
      (updateLasers now (updatePlayer canvas g, r))).1)).paused) = true := by
    rw [hp5]
    rfl
  refine ⟨(gameLoop canvas now (g, r)).1.asteroids, ?_⟩
  simp only [gameLoop, hr, if_true, hnp]
  split_ifs <;> rfl

/-- The shape of a tick: either nothing changes, or the session was running
and unpaused and the result is the state after the passes with some asteroid
list and the level recomputed from the score. -/
theorem gameLoop_shape (canvas : Canvas) (now : Int) (g : GameState) (r : Rng) :
    (gameLoop canvas now (g, r)).1 = g ∨
    (g.gameRunning = true ∧ g.paused = false ∧
      ∃ (g5 : GameState) (asts : List Asteroid),
        PassRel (updatePlayer canvas g) g5 ∧
        (gameLoop canvas now (g, r)).1 =
          { g5 with
            asteroids := asts
            level := if g5.score / 1000 + 1 > g5.level then g5.score / 1000 + 1 else g5.level }) := by
  by_cases hfro : g.gameRunning = false ∨ g.paused = true
  · left
    rw [gameLoop_of_frozen canvas now g r hfro]
  · right
    have hr : g.gameRunning = true := by
      cases h : g.gameRunning
      · exact absurd (Or.inl h) hfro
      · rfl
    have hp : g.paused = false := by
      cases h : g.paused
      · rfl
      · exact absurd (Or.inr h) hfro
    obtain ⟨asts, h⟩ := gameLoop_running canvas now g r hr hp
    exact ⟨hr, hp, _, asts, passes_passRel canvas now (updatePlayer canvas g, r), h⟩

theorem gameLoop_score_le (canvas : Canvas) (now : Int) (g : GameState) (r : Rng) :
    g.score ≤ (gameLoop canvas now (g, r)).1.score := by
  rcases gameLoop_shape canvas now g r with h | ⟨_, _, g5, asts, hrel, h⟩
  · rw [h]
  · rw [h]
    have h1 : (updatePlayer canvas g).score = g.score := by rw [updatePlayer_eq]
    exact h1 ▸ hrel.score_le

theorem gameLoop_level_ge (canvas : Canvas) (now : Int) (g : GameState) (r : Rng) :
    g.level ≤ (gameLoop canvas now (g, r)).1.level := by
  rcases gameLoop_shape canvas now g r with h | ⟨_, _, g5, asts, hrel, h⟩
  · rw [h]
  · rw [h]
    have h1 : (updatePlayer canvas g).level = g.level := by rw [updatePlayer_eq]
    have h2 : g5.level = g.level := hrel.level_eq.trans h1
    show g.level ≤ if g5.score / 1000 + 1 > g5.level then g5.score / 1000 + 1 else g5.level
    split_ifs with hc
    · omega
    · omega

theorem gameLoop_sessionInv (canvas : Canvas) (now : Int) (g : GameState) (r : Rng)
    (hinv : SessionInv g) : SessionInv (gameLoop canvas now (g, r)).1 := by
  rcases gameLoop_shape canvas now g r with h | ⟨_, _, g5, asts, hrel, h⟩
  · rw [h]
    exact hinv
  · rw [h]
    have h1 : (updatePlayer canvas g).score = g.score := by rw [updatePlayer_eq]
    have h2 : (updatePlayer canvas g).level = g.level := by rw [updatePlayer_eq]
    have h3 : (updatePlayer canvas g).lives = g.lives := by rw [updatePlayer_eq]
    have h4 : (updatePlayer canvas g).gameRunning = g.gameRunning := by rw [updatePlayer_eq]
    constructor
    · exact hrel.lives_ok (by rw [h3, h4]; exact hinv.lives_ok)
    · have hl : g5.level = g.score / 1000 + 1 := (hrel.level_eq.trans h2).trans hinv.level_eq
      have hs : g.score ≤ g5.score := h1 ▸ hrel.score_le
      have hd : g.score / 1000 ≤ g5.score / 1000 := Nat.div_le_div_right hs
      show (if g5.score / 1000 + 1 > g5.level then g5.score / 1000 + 1 else g5.level) =
        g5.score / 1000 + 1
      split_ifs with hc
      · rfl
      · omega

theorem gameLoop_playerInv (canvas : Canvas) (now : Int) (g : GameState) (r : Rng)
    (hinv : PlayerInv canvas g) : PlayerInv canvas (gameLoop canvas now (g, r)).1 := by
  rcases gameLoop_shape canvas now g r with h | ⟨_, _, g5, asts, hrel, h⟩
  · rw [h]
    exact hinv
  · rw [h]
    obtain ⟨hsz, hsp, hx1, hx2, hy1, hy2⟩ := updatePlayer_inside canvas g hinv.x_ge hinv.x_le
      hinv.y_ge hinv.y_le (by linarith [hinv.speed_ge])
    have hsz5 : g5.player.size = g.player.size := hrel.player_size.trans hsz
    constructor
    · exact hsz5.trans hinv.size_eq
    · show 5 ≤ g5.player.speed
      have := hrel.speed_ge (by rw [hsp]; exact hinv.speed_le)
      rw [hsp] at this
      exact hinv.speed_ge.trans this
    · show g5.player.speed ≤ 8
      have := hrel.speed_le
      rw [hsp] at this
      exact this.trans (max_le hinv.speed_le (le_refl _))
    · show g5.player.size ≤ g5.player.x
      rw [hsz5, hrel.player_x]
      exact hx1
    · show g5.player.x ≤ canvas.width - g5.player.size
      rw [hsz5, hrel.player_x]
      exact hx2
    · show g5.player.size ≤ g5.player.y
      rw [hsz5, hrel.player_y]
      exact hy1
    · show g5.player.y ≤ canvas.height - g5.player.size
      rw [hsz5, hrel.player_y]
      exact hy2

/-! ## Invariants of reachable states -/

theorem sessionInv_of_eq {g g2 : GameState} (h : SessionInv g) (hl : g2.lives = g.lives)
    (hr : g2.gameRunning = g.gameRunning) (hlv : g2.level = g.level) (hs : g2.score = g.score) :
    SessionInv g2 where
  lives_ok := by rw [hl, hr]; exact h.lives_ok
  level_eq := by rw [hlv, hs]; exact h.level_eq

theorem playerInv_of_eq {canvas : Canvas} {g g2 : GameState} (h : PlayerInv canvas g)
    (hp : g2.player = g.player) : PlayerInv canvas g2 where
  size_eq := by rw [hp]; exact h.size_eq
  speed_ge := by rw [hp]; exact h.speed_ge
  speed_le := by rw [hp]; exact h.speed_le
  x_ge := by rw [hp]; exact h.x_ge
  x_le := by rw [hp]; exact h.x_le
  y_ge := by rw [hp]; exact h.y_ge
  y_le := by rw [hp]; exact h.y_le

theorem sessionInv_fresh : SessionInv GameState.fresh :=
  ⟨fun h => absurd h (by decide), rfl⟩

theorem playerInv_fresh (canvas : Canvas) (hw : 415 ≤ canvas.width) (hh : 315 ≤ canvas.height) :
    PlayerInv canvas GameState.fresh := by
  constructor <;> simp only [GameState.fresh, GameConfig.PLAYER_SPEED] <;> linarith

/-- What the handlers outside the frame loop leave alone: the player and the
session counters. -/
theorem step_input_fields (canvas : Canvas) (e : Event) (g : GameState)
    (hf : ∀ now r, e ≠ Event.frame now r) (hre : e.isRestart = false) :
    (step canvas e g).player = g.player ∧ (step canvas e g).lives = g.lives ∧
    (step canvas e g).gameRunning = g.gameRunning ∧ (step canvas e g).level = g.level ∧
    (step canvas e g).score = g.score := by
  cases e with
  | frame now r => exact absurd rfl (hf now r)
  | restart now r => exact absurd hre (by simp [Event.isRestart])
  | keyDown now key code =>
    simp only [step, handleKeyDown, togglePause, shootLaser]
    split_ifs <;> exact ⟨rfl, rfl, rfl, rfl, rfl⟩
  | keyUp key code =>
    simp only [step, handleKeyUp]
    split_ifs <;> exact ⟨rfl, rfl, rfl, rfl, rfl⟩
  | dpadStart d => exact ⟨rfl, rfl, rfl, rfl, rfl⟩
  | dpadEnd d => exact ⟨rfl, rfl, rfl, rfl, rfl⟩
  | shootButton now =>
    simp only [step, shootLaser]
    split_ifs <;> exact ⟨rfl, rfl, rfl, rfl, rfl⟩
  | pauseButton =>
    simp only [step, togglePause]
    split_ifs <;> exact ⟨rfl, rfl, rfl, rfl, rfl⟩
  | blur =>
    simp only [step, togglePause]
    split_ifs <;> exact ⟨rfl, rfl, rfl, rfl, rfl⟩

theorem step_sessionInv (canvas : Canvas) (e : Event) (g : GameState) (h : SessionInv g) :
    SessionInv (step canvas e g) := by
  by_cases hf : ∃ now r, e = Event.frame now r
  · obtain ⟨now, r, rfl⟩ := hf
    exact gameLoop_sessionInv canvas now g r h
  · by_cases hre : ∃ now r, e = Event.restart now r
    · obtain ⟨now, r, rfl⟩ := hre
      exact gameLoop_sessionInv canvas now _ r sessionInv_fresh
    · have hf2 : ∀ now r, e ≠ Event.frame now r := fun now r he => hf ⟨now, r, he⟩
      have hre2 : e.isRestart = false := by
        cases e <;> first | rfl | exact absurd ⟨_, _, rfl⟩ hre
      obtain ⟨_, h2, h3, h4, h5⟩ := step_input_fields canvas e g hf2 hre2
      exact sessionInv_of_eq h h2 h3 h4 h5

theorem step_playerInv (canvas : Canvas) (hw : 415 ≤ canvas.width) (hh : 315 ≤ canvas.height)
    (e : Event) (g : GameState) (h : PlayerInv canvas g) : PlayerInv canvas (step canvas e g) := by
  by_cases hf : ∃ now r, e = Event.frame now r
  · obtain ⟨now, r, rfl⟩ := hf
    exact gameLoop_playerInv canvas now g r h
  · by_cases hre : ∃ now r, e = Event.restart now r
    · obtain ⟨now, r, rfl⟩ := hre
      exact gameLoop_playerInv canvas now _ r (playerInv_fresh canvas hw hh)
    · have hf2 : ∀ now r, e ≠ Event.frame now r := fun now r he => hf ⟨now, r, he⟩
      have hre2 : e.isRestart = false := by
        cases e <;> first | rfl | exact absurd ⟨_, _, rfl⟩ hre
      exact playerInv_of_eq h (step_input_fields canvas e g hf2 hre2).1

/-- A property kept by every event holds after any sequence of events. -/
theorem run_induction (canvas : Canvas) (P : GameState → Prop)
    (hstep : ∀ e g, P g → P (step canvas e g)) :
    ∀ (events : List Event) (g : GameState), P g → P (run canvas events g)
  | [], _, h => h
  | e :: es, g, h => run_induction canvas P hstep es (step canvas e g) (hstep e g h)

theorem reachable_sessionInv (canvas : Canvas) (g : GameState) (h : Reachable canvas g) :
    SessionInv g := by
  obtain ⟨events, rfl⟩ := h
  exact run_induction canvas SessionInv (fun e g => step_sessionInv canvas e g) events _
    sessionInv_fresh

theorem reachable_playerInv (canvas : Canvas) (hw : 415 ≤ canvas.width)
    (hh : 315 ≤ canvas.height) (g : GameState) (h : Reachable canvas g) : PlayerInv canvas g := by
  obtain ⟨events, rfl⟩ := h
  exact run_induction canvas (PlayerInv canvas) (fun e g => step_playerInv canvas hw hh e g)
    events _ (playerInv_fresh canvas hw hh)

theorem reachable_fresh (canvas : Canvas) : Reachable canvas GameState.fresh := ⟨[], rfl⟩

theorem reachable_step (canvas : Canvas) (e : Event) (g : GameState) (h : Reachable canvas g) :
    Reachable canvas (step canvas e g) := by
  obtain ⟨events, rfl⟩ := h
  exact ⟨events ++ [e], by simp [run, List.foldl_append]⟩

/-! ## The asteroid pass on a list with a known element -/

theorem getElem?_mid {α : Type} (pre back : List α) (b : α) :
    (pre ++ b :: back)[pre.length]? = some b := by
  induction pre with
  | nil => simp
  | cons x xs ih => simpa using ih

theorem set_mid {α : Type} (pre back : List α) (b c : α) :
    (pre ++ b :: back).set pre.length c = pre ++ c :: back := by
  induction pre with
  | nil => rfl
  | cons x xs ih => simp

theorem eraseIdx_mid {α : Type} (pre back : List α) (b : α) :
    (pre ++ b :: back).eraseIdx pre.length = pre ++ back := by
  induction pre with
  | nil => rfl
  | cons x xs ih => simpa using ih

/-- One iteration of the asteroid loop at the index of a known asteroid. -/
theorem updateAsteroidsBody_at (canvas : Canvas) (pre back : List Asteroid) (b : Asteroid)
    (s : GameState × Rng) (h : s.1.asteroids = pre ++ b :: back) :
    updateAsteroidsBody canvas pre.length s =
      if isOffScreen canvas (advanceAsteroid b).body 100 then
        ({ s.1 with asteroids := pre ++ back, score := s.1.score + 10 }, s.2)
      else if checkCollision (advanceAsteroid b).body s.1.player.body then
        handlePlayerHit { s.1 with asteroids := pre ++ advanceAsteroid b :: back }
          (advanceAsteroid b) pre.length s.2
      else ({ s.1 with asteroids := pre ++ advanceAsteroid b :: back }, s.2) := by
  simp only [updateAsteroidsBody, h, getElem?_mid, set_mid, eraseIdx_mid]

/-- A stretch of asteroids none of which hits the player is passed over by
the loop: only the asteroid list behind the front and the score change. -/
theorem updateAsteroids_segment (canvas : Canvas) (seg : List Asteroid) :
    ∀ (front back : List Asteroid) (s : GameState × Rng),
      s.1.asteroids = front ++ seg ++ back →
      (∀ b ∈ seg, hitsPlayer canvas s.1.player b = false) →
      ∃ (back2 : List Asteroid) (score2 : Nat),
        forDown (updateAsteroidsBody canvas) (front.length + seg.length) s =
          forDown (updateAsteroidsBody canvas) front.length
            ({ s.1 with asteroids := front ++ back2, score := score2 }, s.2) := by
  induction seg using List.reverseRecOn with
  | nil =>
    intro front back s h _
    refine ⟨back, s.1.score, ?_⟩
    simp only [List.append_nil] at h
    simp only [List.length_nil, Nat.add_zero, ← h]
  | append_singleton seg0 b ih =>
    intro front back s h hno
    have h2 : s.1.asteroids = (front ++ seg0) ++ b :: back := by
      rw [h]
      simp
    have hb : hitsPlayer canvas s.1.player b = false := hno b (by simp)
    have hlen : front.length + (seg0 ++ [b]).length = (front ++ seg0).length + 1 := by
      simp [Nat.add_assoc]
    rw [hlen, forDown, updateAsteroidsBody_at canvas (front ++ seg0) back b s h2]
    have hlen2 : (front ++ seg0).length = front.length + seg0.length := by simp
    rw [hlen2]
    simp only [hitsPlayer, Bool.and_eq_false_imp, Bool.not_eq_eq_eq_not, Bool.not_true] at hb
    by_cases hoff : isOffScreen canvas (advanceAsteroid b).body 100 = true
    · rw [if_pos hoff]
      obtain ⟨back2, score2, h3⟩ := ih front back
        ({ s.1 with asteroids := front ++ seg0 ++ back, score := s.1.score + 10 }, s.2) rfl
        (fun c hc => hno c (by simp [hc]))
      exact ⟨back2, score2, h3⟩
    · rw [if_neg hoff]
      have hcol : checkCollision (advanceAsteroid b).body s.1.player.body = false :=
        hb (by simpa using hoff)
      rw [if_neg (by simp [hcol])]
      obtain ⟨back2, score2, h3⟩ := ih front (advanceAsteroid b :: back)
        ({ s.1 with asteroids := front ++ seg0 ++ advanceAsteroid b :: back }, s.2) rfl
        (fun c hc => hno c (by simp [hc]))
      exact ⟨back2, score2, h3⟩

/-- The asteroid pass on a session with one life left in which exactly one
asteroid hits the player: the life is lost and the session is over. -/
theorem updateAsteroids_single_hit (canvas : Canvas) (g : GameState) (r : Rng)
    (pre post : List Asteroid) (a : Asteroid) (hp : g.paused = false) (hl : g.lives = 1)
    (hast : g.asteroids = pre ++ a :: post) (hhit : hitsPlayer canvas g.player a = true)
    (hno : ∀ b ∈ pre ++ post, hitsPlayer canvas g.player b = false) :
    ∃ (asts : List Asteroid) (sc : Nat) (parts : List Particle),
      (updateAsteroids canvas (g, r)).1 =
        { g with asteroids := asts, score := sc, particles := parts, lives := 0, combo := 0
                 gameRunning := false, paused := false } := by
  have hlen : g.asteroids.length = (pre ++ [a]).length + post.length := by
    rw [hast]
    simp only [List.length_append, List.length_cons, List.length_nil]
    omega
  obtain ⟨back2, score2, h1⟩ := updateAsteroids_segment canvas post (pre ++ [a]) [] (g, r)
    (by rw [hast]; simp) (fun b hb => hno b (by simp [hb]))
  have hlen1 : (pre ++ [a]).length = pre.length + 1 := by simp
  simp only [hitsPlayer, Bool.and_eq_true, Bool.not_eq_eq_eq_not, Bool.not_true] at hhit
  have hbody : updateAsteroidsBody canvas pre.length
      ({ g with asteroids := pre ++ [a] ++ back2, score := score2 }, r) =
      ({ g with asteroids := pre ++ back2, score := score2
                particles := g.particles ++ (List.range 10).map fun j =>
                  createParticle g.player.x g.player.y "cyan" none (r.drop (3 * j))
                lives := 0, combo := 0, gameRunning := false, paused := false }, r.drop 30) := by
    rw [updateAsteroidsBody_at canvas pre back2 a _ (by simp)]
    simp only [hhit.1, hhit.2, if_true, Bool.false_eq_true, if_false, handlePlayerHit, gameOver,
      eraseIdx_mid, hl]
    simp
  obtain ⟨back3, score3, h3⟩ := updateAsteroids_segment canvas pre [] back2
    ({ g with asteroids := pre ++ back2, score := score2
              particles := g.particles ++ (List.range 10).map fun j =>
                createParticle g.player.x g.player.y "cyan" none (r.drop (3 * j))
              lives := 0, combo := 0, gameRunning := false, paused := false }, r.drop 30)
    (by simp) (fun b hb => hno b (by simp [hb]))
  refine ⟨back3, score3, g.particles ++ (List.range 10).map fun j =>
    createParticle g.player.x g.player.y "cyan" none (r.drop (3 * j)), ?_⟩
  simp only [updateAsteroids, hp, Bool.false_eq_true, if_false]
  rw [hlen, h1, hlen1, forDown, hbody]
  simp only [List.length_nil, Nat.zero_add, List.nil_append, forDown] at h3
  rw [h3]

theorem updateLasers_nil (now : Int) (s : GameState × Rng) (h : s.1.lasers = []) :
    updateLasers now s = s := by
  simp only [updateLasers, h, List.length_nil, forDown]
  split_ifs <;> rfl

theorem updatePowerUps_nil (g : GameState) (h : g.powerUps = []) : updatePowerUps g = g := by
  simp only [updatePowerUps, h, List.length_nil, forDown]
  split_ifs <;> rfl

/-- A laser that overlaps no asteroid leaves the inner loop without effect. -/
theorem laserCollisionLoop_miss (now : Int) (laser : Laser) (i : Nat) :
    ∀ (j : Nat) (s : GameState × Rng),
      (∀ b ∈ s.1.asteroids, checkCollision laser.body b.body = false) →
      laserCollisionLoop now laser i j s = s
  | 0, _, _ => rfl
  | j + 1, s, hmiss => by
    simp only [laserCollisionLoop]
    split
    · exact laserCollisionLoop_miss now laser i j s hmiss
    · next a ha =>
      rw [if_neg (by simp [hmiss a (List.getElem?_mem ha)])]
      exact laserCollisionLoop_miss now laser i j s hmiss

/-- One iteration of the laser loop at the index of a laser that, once
advanced, overlaps no asteroid. -/
theorem updateLasersBody_at (now : Int) (pre back : List Laser) (l : Laser)
    (s : GameState × Rng) (h : s.1.lasers = pre ++ l :: back)
    (hmiss : ∀ b ∈ s.1.asteroids, checkCollision (advanceLaser l).body b.body = false) :
    updateLasersBody now pre.length s =
      if (advanceLaser l).y < -10 then ({ s.1 with lasers := pre ++ back }, s.2)
      else ({ s.1 with lasers := pre ++ advanceLaser l :: back }, s.2) := by
  simp only [updateLasersBody, h, getElem?_mid, set_mid, eraseIdx_mid]
  split_ifs
  · rfl
  · exact laserCollisionLoop_miss now _ _ _ _ hmiss

/-- A stretch of lasers none of which reaches an asteroid is passed over by
the loop: only the laser list behind the front changes. -/
theorem updateLasers_segment (now : Int) (seg : List Laser) :
    ∀ (front back : List Laser) (s : GameState × Rng),
      s.1.lasers = front ++ seg ++ back →
      (∀ l ∈ seg, ∀ b ∈ s.1.asteroids, checkCollision (advanceLaser l).body b.body = false) →
      ∃ back2 : List Laser,
        forDown (updateLasersBody now) (front.length + seg.length) s =
          forDown (updateLasersBody now) front.length
            ({ s.1 with lasers := front ++ back2 }, s.2) := by
  induction seg using List.reverseRecOn with
  | nil =>
    intro front back s h _
    refine ⟨back, ?_⟩
    simp only [List.append_nil] at h
    simp only [List.length_nil, Nat.add_zero, ← h]
  | append_singleton seg0 l ih =>
    intro front back s h hmiss
    have h2 : s.1.lasers = (front ++ seg0) ++ l :: back := by
      rw [h]
      simp
    have hlen : front.length + (seg0 ++ [l]).length = (front ++ seg0).length + 1 := by
      simp [Nat.add_assoc]
    rw [hlen, forDown, updateLasersBody_at now (front ++ seg0) back l s h2 (hmiss l (by simp))]
    have hlen2 : (front ++ seg0).length = front.length + seg0.length := by simp
    rw [hlen2]
    split_ifs
    · exact ih front back ({ s.1 with lasers := front ++ seg0 ++ back }, s.2) rfl
        (fun c hc => hmiss c (by simp [hc]))
    · exact ih front (advanceLaser l :: back)
        ({ s.1 with lasers := front ++ seg0 ++ advanceLaser l :: back }, s.2) rfl
        (fun c hc => hmiss c (by simp [hc]))

/-- When no laser, once advanced, overlaps an asteroid, the laser pass writes
the laser list only and draws nothing. -/
theorem updateLasers_miss (now : Int) (g : GameState) (r : Rng)
    (hmiss : ∀ l ∈ g.lasers, ∀ b ∈ g.asteroids,
      checkCollision (advanceLaser l).body b.body = false) :
    ∃ lasers2 : List Laser, updateLasers now (g, r) = ({ g with lasers := lasers2 }, r) := by
  simp only [updateLasers]
  split_ifs
  · exact ⟨g.lasers, rfl⟩
  · obtain ⟨back2, h⟩ := updateLasers_segment now g.lasers [] [] (g, r) (by simp) hmiss
    simp only [List.length_nil, Nat.zero_add, List.nil_append, forDown] at h
    exact ⟨back2, h⟩

/-- Without a shield among the power-ups, the power-up pass leaves lives and
the session flags alone. -/
theorem updatePowerUps_no_shield (g : GameState)
    (h : ∀ p ∈ g.powerUps, p.type ≠ PowerUpType.shield) :
    (updatePowerUps g).lives = g.lives ∧ (updatePowerUps g).gameRunning = g.gameRunning ∧
    (updatePowerUps g).paused = g.paused := by
  have key : ∀ (n : Nat) (a : GameState), (∀ p ∈ a.powerUps, p.type ≠ PowerUpType.shield) →
      (∀ p ∈ (forDown updatePowerUpsBody n a).powerUps, p.type ≠ PowerUpType.shield) ∧
      (forDown updatePowerUpsBody n a).lives = a.lives ∧
      (forDown updatePowerUpsBody n a).gameRunning = a.gameRunning ∧
      (forDown updatePowerUpsBody n a).paused = a.paused :=
    forDown_rel (fun a b : GameState => (∀ p ∈ a.powerUps, p.type ≠ PowerUpType.shield) →
        (∀ p ∈ b.powerUps, p.type ≠ PowerUpType.shield) ∧ b.lives = a.lives ∧
        b.gameRunning = a.gameRunning ∧ b.paused = a.paused)
      (fun _ ha => ⟨ha, rfl, rfl, rfl⟩)
      (fun a b c h1 h2 ha => by
        obtain ⟨hb, e1, e2, e3⟩ := h1 ha
        obtain ⟨hc, f1, f2, f3⟩ := h2 hb
        exact ⟨hc, f1.trans e1, f2.trans e2, f3.trans e3⟩)
      updatePowerUpsBody
      (fun i a ha => by
        simp only [updatePowerUpsBody]
        split
        · exact ⟨ha, rfl, rfl, rfl⟩
        · next p0 hp0 =>
          have hty : p0.type ≠ PowerUpType.shield := ha p0 (List.getElem?_mem hp0)
          have hset : ∀ p ∈ a.powerUps.set i
              { p0 with pulse := p0.pulse + 2 / 10, life := p0.life - 1 },
              p.type ≠ PowerUpType.shield := by
            intro p hp
            rcases List.mem_or_eq_of_mem_set hp with hmem | rfl
            · exact ha p hmem
            · exact hty
          split_ifs
          · exact ⟨fun p hp => hset p (List.mem_of_mem_eraseIdx hp), rfl, rfl, rfl⟩
          · refine ⟨?_, ?_, ?_, ?_⟩
            · intro p hp
              apply hset p
              have hp2 := List.mem_of_mem_eraseIdx hp
              cases hpt : p0.type <;> simp only [applyPowerUp, hpt] at hp2 <;> exact hp2
            all_goals cases hpt : p0.type <;> simp only [applyPowerUp] <;>
              first | rfl | exact absurd hpt hty
          · exact ⟨hset, rfl, rfl, rfl⟩)
  simp only [updatePowerUps]
  split_ifs
  · exact ⟨rfl, rfl, rfl⟩
  · exact (key _ g h).2

/-- Only the particle list is written by `updateParticles`. -/
theorem updateParticles_eq (g : GameState) :
    updateParticles g = { g with particles := (updateParticles g).particles } := by
  simp only [updateParticles]
  split_ifs
  · rfl
  · exact forDown_rel (fun a b : GameState => b = { a with particles := b.particles })
      (fun _ => rfl) (fun a b c h1 h2 => by rw [h2, h1]) updateParticlesBody
      (fun i a => by
        simp only [updateParticlesBody]
        split
        · rfl
        · split_ifs <;> rfl) _ g

/-- The scenario of the last life at the level of a whole tick. -/
theorem gameLoop_last_life (canvas : Canvas) (now : Int) (g : GameState) (r : Rng)
    (pre post : List Asteroid) (a : Asteroid) (hr : g.gameRunning = true)
    (hp : g.paused = false) (hl : g.lives = 1)
    (hlas : ∀ l ∈ g.lasers, ∀ b ∈ g.asteroids,
      checkCollision (advanceLaser l).body b.body = false)
    (hpow : ∀ p ∈ g.powerUps, p.type ≠ PowerUpType.shield)
    (hast : g.asteroids = pre ++ a :: post)
    (hhit : hitsPlayer canvas (updatePlayer canvas g).player a = true)
    (hno : ∀ b ∈ pre ++ post, hitsPlayer canvas (updatePlayer canvas g).player b = false) :
    (gameLoop canvas now (g, r)).1.lives = 0 ∧
    (gameLoop canvas now (g, r)).1.gameRunning = false ∧
    (gameLoop canvas now (g, r)).1.paused = false := by
  obtain ⟨asts, h⟩ := gameLoop_running canvas now g r hr hp
  obtain ⟨lasers2, e1⟩ := updateLasers_miss now (updatePlayer canvas g) r
    (by rw [updatePlayer_eq]; exact hlas)
  obtain ⟨asts3, sc3, parts3, e3⟩ := updateAsteroids_single_hit canvas
    { updatePlayer canvas g with lasers := lasers2 } r
    pre post a (by rw [updatePlayer_eq]; exact hp) (by rw [updatePlayer_eq]; exact hl)
    (by rw [updatePlayer_eq]; exact hast) hhit hno
  have hpow1 : ∀ p ∈ (updateParticles (updateAsteroids canvas
      (updateLasers now (updatePlayer canvas g, r))).1).powerUps,
      p.type ≠ PowerUpType.shield := by
    rw [updateParticles_eq, e1, e3, updatePlayer_eq]
    exact hpow
  obtain ⟨k1, k2, k3⟩ := updatePowerUps_no_shield _ hpow1
  rw [h]
  refine ⟨k1.trans ?_, k2.trans ?_, k3.trans ?_⟩ <;> rw [updateParticles_eq, e1, e3]

/-! ## After the session is over -/

theorem step_over (canvas : Canvas) (e : Event) (g : GameState) (hover : g.gameRunning = false)
    (hre : e.isRestart = false) :
    (step canvas e g).gameRunning = false ∧ (step canvas e g).score = g.score ∧
    (step canvas e g).player = g.player := by
  by_cases hf : ∃ now r, e = Event.frame now r
  · obtain ⟨now, r, rfl⟩ := hf
    simp only [step]
    rw [gameLoop_of_frozen canvas now g r (Or.inl hover)]
    exact ⟨hover, rfl, rfl⟩
  · obtain ⟨h1, _, h3, _, h5⟩ := step_input_fields canvas e g (fun now r he => hf ⟨now, r, he⟩) hre
    exact ⟨h3.trans hover, h5, h1⟩

theorem run_over (canvas : Canvas) :
    ∀ (events : List Event) (g : GameState), g.gameRunning = false →
      (∀ e ∈ events, e.isRestart = false) →
      (run canvas events g).gameRunning = false ∧ (run canvas events g).score = g.score ∧
      (run canvas events g).player = g.player
  | [], _, hover, _ => ⟨hover, rfl, rfl⟩
  | e :: es, g, hover, hre => by
    obtain ⟨h1, h2, h3⟩ := step_over canvas e g hover (hre e (by simp))
    obtain ⟨k1, k2, k3⟩ := run_over canvas es (step canvas e g) h1
      (fun e2 he2 => hre e2 (by simp [he2]))
    exact ⟨k1, k2.trans h2, k3.trans h3⟩

/-! ## The leaderboard -/

/-- Sorting by score does not reorder the entries of one score. -/
theorem insertionSort_filter_score (l : List LeaderboardEntry) (v : Nat) :
    (l.insertionSort scoreOrder).filter (fun x => decide (x.score = v)) =
      l.filter (fun x => decide (x.score = v)) := by
  have hpw : (l.filter (fun x => decide (x.score = v))).Pairwise scoreOrder := by
    rw [List.pairwise_iff_forall_sublist]
    intro a b hab
    have ha : a ∈ l.filter (fun x => decide (x.score = v)) := hab.subset (by simp)
    have hb : b ∈ l.filter (fun x => decide (x.score = v)) := hab.subset (by simp)
    simp only [List.mem_filter, decide_eq_true_eq] at ha hb
    show b.score ≤ a.score
    rw [ha.2, hb.2]
  have hsub : List.Sublist (l.filter (fun x => decide (x.score = v)))
      (l.insertionSort scoreOrder) :=
    List.sublist_insertionSort hpw (List.filter_sublist _)
  have hsub2 := hsub.filter (fun x => decide (x.score = v))
  rw [List.filter_filter] at hsub2
  simp only [Bool.and_self] at hsub2
  have hlen : ((l.insertionSort scoreOrder).filter (fun x => decide (x.score = v))).length =
      (l.filter (fun x => decide (x.score = v))).length :=
    ((List.perm_insertionSort scoreOrder l).filter _).length_eq
  exact (hsub2.eq_of_length hlen.symm).symm

theorem submitEntry_length (l : List LeaderboardEntry) (e : LeaderboardEntry) :
    (submitEntry l e).length = min (l.length + 1) 10 := by
  simp [submitEntry, GameConfig.MAX_LEADERBOARD, Nat.min_comm]

theorem submitEntry_sorted (l : List LeaderboardEntry) (e : LeaderboardEntry) :
    (submitEntry l e).Pairwise scoreOrder :=
  List.Pairwise.sublist (List.take_sublist _ _) (List.sorted_insertionSort scoreOrder _)

theorem submitEntry_filter (l : List LeaderboardEntry) (e : LeaderboardEntry) (v : Nat) :
    List.Sublist ((submitEntry l e).filter (fun x => decide (x.score = v)))
      ((l ++ [e]).filter (fun x => decide (x.score = v))) := by
  rw [← insertionSort_filter_score (l ++ [e]) v]
  exact (List.take_sublist _ _).filter _

theorem foldl_submitEntry_snoc (es : List LeaderboardEntry) (e : LeaderboardEntry) :
    (es ++ [e]).foldl submitEntry [] = submitEntry (es.foldl submitEntry []) e := by
  rw [List.foldl_append]
  rfl

theorem foldl_submitEntry_length (es : List LeaderboardEntry) :
    (es.foldl submitEntry []).length = min es.length 10 := by
  induction es using List.reverseRecOn with
  | nil => rfl
  | append_singleton es e ih =>
    rw [foldl_submitEntry_snoc, submitEntry_length, ih, List.length_append, List.length_singleton]
    omega

theorem foldl_submitEntry_sorted (es : List LeaderboardEntry) :
    (es.foldl submitEntry []).Pairwise scoreOrder := by
  induction es using List.reverseRecOn with
  | nil => exact List.Pairwise.nil
  | append_singleton es e _ =>
    rw [foldl_submitEntry_snoc]
    exact submitEntry_sorted _ e

theorem foldl_submitEntry_filter (es : List LeaderboardEntry) (v : Nat) :
    List.Sublist ((es.foldl submitEntry []).filter (fun x => decide (x.score = v)))
      (es.filter (fun x => decide (x.score = v))) := by
  induction es using List.reverseRecOn with
  | nil => exact List.Sublist.refl _
  | append_singleton es e ih =>
    rw [foldl_submitEntry_snoc]
    refine (submitEntry_filter _ e v).trans ?_
    rw [List.filter_append, List.filter_append]
    exact ih.append (List.Sublist.refl _)

/-! ## The collision test -/

theorem checkCollision_iff (a b : Body) :
    checkCollision a b = true ↔
      0 < a.size + b.size ∧
      (a.x - b.x) * (a.x - b.x) + (a.y - b.y) * (a.y - b.y) <
        (a.size + b.size) * (a.size + b.size) := by
  simp [checkCollision]

theorem checkCollision_iff_sq (a b : Body) :
    checkCollision a b = true ↔
      0 < a.size + b.size ∧ (a.x - b.x) ^ 2 + (a.y - b.y) ^ 2 < (a.size + b.size) ^ 2 := by
  rw [checkCollision_iff, pow_two, pow_two, pow_two]

theorem checkCollision_iff_sqrt (a b : Body) :
    checkCollision a b = true ↔
      Real.sqrt ((((a.x - b.x) ^ 2 + (a.y - b.y) ^ 2 : ℚ) : ℝ)) <
        ((a.size + b.size : ℚ) : ℝ) := by
  rw [checkCollision_iff_sq]
  by_cases hs : 0 < a.size + b.size
  · have hsR : (0 : ℝ) < ((a.size + b.size : ℚ) : ℝ) := by exact_mod_cast hs
    rw [Real.sqrt_lt' hsR]
    constructor
    · rintro ⟨_, h⟩
      exact_mod_cast h
    · intro h
      exact ⟨hs, by exact_mod_cast h⟩
  · constructor
    · rintro ⟨h, _⟩
      exact absurd h hs
    · intro h
      have hsR : ((a.size + b.size : ℚ) : ℝ) ≤ 0 := by exact_mod_cast not_lt.1 hs
      exact absurd (lt_of_lt_of_le h hsR) (not_lt.2 (Real.sqrt_nonneg _))

theorem checkCollision_comm (a b : Body) : checkCollision a b = checkCollision b a := by
  rw [Bool.eq_iff_iff, checkCollision_iff_sq, checkCollision_iff_sq]
  have h1 : (a.x - b.x) ^ 2 = (b.x - a.x) ^ 2 := by ring
  have h2 : (a.y - b.y) ^ 2 = (b.y - a.y) ^ 2 := by ring
  rw [h1, h2, add_comm a.size b.size]

/-! ## Speed of the player -/

theorem gameLoop_speed (canvas : Canvas) (now : Int) (g : GameState) (r : Rng)
    (h5 : 5 ≤ g.player.speed) (h8 : g.player.speed ≤ 8) :
    5 ≤ (gameLoop canvas now (g, r)).1.player.speed ∧
    (gameLoop canvas now (g, r)).1.player.speed ≤ 8 ∧
    g.player.speed ≤ (gameLoop canvas now (g, r)).1.player.speed := by
  rcases gameLoop_shape canvas now g r with h | ⟨_, _, g5, asts, hrel, h⟩
  · rw [h]
    exact ⟨h5, h8, le_refl _⟩
  · rw [h]
    have hsp : (updatePlayer canvas g).player.speed = g.player.speed := by rw [updatePlayer_eq]
    have hge : g.player.speed ≤ g5.player.speed := by
      have := hrel.speed_ge (by rw [hsp]; exact h8)
      rwa [hsp] at this
    have hle : g5.player.speed ≤ 8 := by
      have := hrel.speed_le
      rw [hsp] at this
      exact this.trans (max_le h8 (le_refl _))
    exact ⟨h5.trans hge, hle, hge⟩

theorem step_speed (canvas : Canvas) (e : Event) (g : GameState)
    (h : 5 ≤ g.player.speed ∧ g.player.speed ≤ 8) :
    (5 ≤ (step canvas e g).player.speed ∧ (step canvas e g).player.speed ≤ 8) ∧
    (e.isRestart = false → g.player.speed ≤ (step canvas e g).player.speed) := by
  by_cases hf : ∃ now r, e = Event.frame now r
  · obtain ⟨now, r, rfl⟩ := hf
    obtain ⟨k1, k2, k3⟩ := gameLoop_speed canvas now g r h.1 h.2
    exact ⟨⟨k1, k2⟩, fun _ => k3⟩
  · by_cases hre : ∃ now r, e = Event.restart now r
    · obtain ⟨now, r, rfl⟩ := hre
      obtain ⟨k1, k2, _⟩ := gameLoop_speed canvas now GameState.fresh r
        (by simp [GameState.fresh, GameConfig.PLAYER_SPEED])
        (by norm_num [GameState.fresh, GameConfig.PLAYER_SPEED])
      exact ⟨⟨k1, k2⟩, fun hr => absurd hr (by simp [Event.isRestart])⟩
    · have hf2 : ∀ now r, e ≠ Event.frame now r := fun now r he => hf ⟨now, r, he⟩
      have hre2 : e.isRestart = false := by
        cases e <;> first | rfl | exact absurd ⟨_, _, rfl⟩ hre
      have hp := (step_input_fields canvas e g hf2 hre2).1
      rw [hp]
      exact ⟨h, fun _ => le_refl _⟩

theorem reachable_speed (canvas : Canvas) (g : GameState) (h : Reachable canvas g) :
    5 ≤ g.player.speed ∧ g.player.speed ≤ 8 := by
  obtain ⟨events, rfl⟩ := h
  exact run_induction canvas (fun g => 5 ≤ g.player.speed ∧ g.player.speed ≤ 8)
    (fun e g hg => (step_speed canvas e g hg).1) events _
    (by norm_num [GameState.fresh, GameConfig.PLAYER_SPEED])

/-! ## The firing cooldown -/

theorem shootLaser_accept (now : Int) (g : GameState)
    (h : now - g.lastShot > GameConfig.LASER_COOLDOWN) :
    shootLaser now g =
      { g with
        lasers := g.lasers ++
          [({ x := g.player.x, y := g.player.y - g.player.size
              speed := GameConfig.LASER_SPEED, size := 3, trail := [] } : Laser)]
        lastShot := now } := by
  simp only [shootLaser, if_pos h]

theorem shootLaser_reject (now : Int) (g : GameState)
    (h : ¬ now - g.lastShot > GameConfig.LASER_COOLDOWN) : shootLaser now g = g := by
  simp only [shootLaser, if_neg h]

theorem acceptedShots_apart :
    ∀ (clock : List Int) (g : GameState),
      (acceptedShots clock g).Pairwise (fun a b => b - a > 150) ∧
      ∀ t ∈ acceptedShots clock g, t - g.lastShot > 150
  | [], _ => ⟨List.Pairwise.nil, fun _ h => absurd h (List.not_mem_nil _)⟩
  | now :: rest, g => by
    by_cases h : now - g.lastShot > GameConfig.LASER_COOLDOWN
    · obtain ⟨ih1, ih2⟩ := acceptedShots_apart rest (shootLaser now g)
      rw [shootLaser_accept now g h] at ih1 ih2
      have hlog : acceptedShots (now :: rest) g = now :: acceptedShots rest
          { g with
            lasers := g.lasers ++
              [({ x := g.player.x, y := g.player.y - g.player.size
                  speed := GameConfig.LASER_SPEED, size := 3, trail := [] } : Laser)]
            lastShot := now } := by
        simp [acceptedShots, shootLaser_accept now g h]
      rw [hlog]
      have h150 : now - g.lastShot > 150 := h
      refine ⟨List.Pairwise.cons (fun t ht => ih2 t ht) ih1, ?_⟩
      intro t ht
      rcases List.mem_cons.1 ht with rfl | ht
      · exact h150
      · have := ih2 t ht
        simp only at this
        omega
    · have hlog : acceptedShots (now :: rest) g = acceptedShots rest g := by
        simp [acceptedShots, shootLaser_reject now g h]
      rw [hlog]
      exact acceptedShots_apart rest g

theorem gameLoop_lastShot (canvas : Canvas) (now : Int) (g : GameState) (r : Rng) :
    (gameLoop canvas now (g, r)).1.lastShot = g.lastShot := by
  rcases gameLoop_shape canvas now g r with h | ⟨_, _, g5, asts, hrel, h⟩
  · rw [h]
  · rw [h]
    have h1 : (updatePlayer canvas g).lastShot = g.lastShot := by rw [updatePlayer_eq]
    exact hrel.lastShot_eq.trans h1

/-! ## The asteroid factory: case analysis -/

theorem random_range (r : Rng) (k : Nat) : 0 ≤ r.random k ∧ r.random k < 1 :=
  ⟨(r k).nonneg, (r k).lt_one⟩

theorem createAsteroid_cases (canvas : Canvas) (now : Int) (r : Rng) :
    15 ≤ r.random 5 * 20 + 15 ∧ r.random 5 * 20 + 15 < 35 ∧
    ∃ vx vy : ℚ,
      ((createAsteroid canvas now r).y = -50 ∧ 1 ≤ vy ∧ 1 ≤ (createAsteroid canvas now r).vy ∨
        (createAsteroid canvas now r).x = canvas.width + 50 ∧ vx ≤ -1 ∧
          (createAsteroid canvas now r).vx ≤ -1 ∨
        (createAsteroid canvas now r).y = canvas.height + 50 ∧ vy ≤ -1 ∧
          (createAsteroid canvas now r).vy ≤ -1 ∨
        (createAsteroid canvas now r).x = -50 ∧ 1 ≤ vx ∧ 1 ≤ (createAsteroid canvas now r).vx) ∧
      ((createAsteroid canvas now r).type = AsteroidType.normal ∧
          (createAsteroid canvas now r).size = r.random 5 * 20 + 15 ∧
          (createAsteroid canvas now r).vx = vx ∧ (createAsteroid canvas now r).vy = vy ∧
          (createAsteroid canvas now r).health = 1 ∨
        (createAsteroid canvas now r).type = AsteroidType.fast ∧
          (createAsteroid canvas now r).size = 8 / 10 * (r.random 5 * 20 + 15) ∧
          (createAsteroid canvas now r).vx = 3 / 2 * vx ∧
          (createAsteroid canvas now r).vy = 3 / 2 * vy ∧
          (createAsteroid canvas now r).health = 1 ∨
        (createAsteroid canvas now r).type = AsteroidType.large ∧
          (createAsteroid canvas now r).size = 3 / 2 * (r.random 5 * 20 + 15) ∧
          (createAsteroid canvas now r).vx = vx ∧ (createAsteroid canvas now r).vy = vy ∧
          (createAsteroid canvas now r).health = 2 ∨
        (createAsteroid canvas now r).type = AsteroidType.splitting ∧
          (createAsteroid canvas now r).size = 9 / 10 * (r.random 5 * 20 + 15) ∧
          (createAsteroid canvas now r).vx = vx ∧ (createAsteroid canvas now r).vy = vy ∧
          (createAsteroid canvas now r).health = 1) := by
  have h2 := random_range r 2
  have h3 := random_range r 3
  have h5 := random_range r 5
  refine ⟨by linarith, by linarith, ?_⟩
  simp only [createAsteroid]
  generalize floorIndex (r.random 0) 4 = side
  generalize floorIndex (r.random 4) 4 = ty
  rcases side with _ | _ | _ | side
  · refine ⟨(r.random 2 - 1 / 2) * 4, r.random 3 * 3 + 1, ?_, ?_⟩
    · left
      rcases ty with _ | _ | _ | ty <;> simp <;> (try constructor) <;> linarith
    · rcases ty with _ | _ | _ | ty <;> simp <;> (ring_nf; try simp)
  · refine ⟨-(r.random 2 * 3 + 1), (r.random 3 - 1 / 2) * 4, ?_, ?_⟩
    · right
      left
      rcases ty with _ | _ | _ | ty <;> simp <;> (try constructor) <;> linarith
    · rcases ty with _ | _ | _ | ty <;> simp <;> (ring_nf; try simp)
  · refine ⟨(r.random 2 - 1 / 2) * 4, -(r.random 3 * 3 + 1), ?_, ?_⟩
    · right
      right
      left
      rcases ty with _ | _ | _ | ty <;> simp <;> (try constructor) <;> linarith
    · rcases ty with _ | _ | _ | ty <;> simp <;> (ring_nf; try simp)
  · refine ⟨r.random 2 * 3 + 1, (r.random 3 - 1 / 2) * 4, ?_, ?_⟩
    · right
      right
      right
      rcases ty with _ | _ | _ | ty <;> simp <;> (try constructor) <;> linarith
    · rcases ty with _ | _ | _ | ty <;> simp <;> (ring_nf; try simp)

/-! ## The tick in terms of its passes and the spawn decision -/

theorem gameLoop_eq_passes (canvas : Canvas) (now : Int) (s : GameState × Rng) :
    gameLoop canvas now s =
      if s.1.gameRunning then
        if !(updatePasses canvas now s).1.paused then
          ({ (updatePasses canvas now s).1 with
              asteroids := (updatePasses canvas now s).1.asteroids ++
                (if (updatePasses canvas now s).2.random 0 <
                    spawnRate (updatePasses canvas now s).1.score then
                  [createAsteroid canvas now ((updatePasses canvas now s).2.drop 1)] else [])
              level :=
                if (updatePasses canvas now s).1.score / 1000 + 1 >
                    (updatePasses canvas now s).1.level then
                  (updatePasses canvas now s).1.score / 1000 + 1
                else (updatePasses canvas now s).1.level },
            if (updatePasses canvas now s).2.random 0 <
                spawnRate (updatePasses canvas now s).1.score then
              (updatePasses canvas now s).2.drop 9
            else (updatePasses canvas now s).2.drop 1)
        else updatePasses canvas now s
      else s := by
  simp only [gameLoop, updatePasses, spawnRate, decide_eq_true_eq]
  split_ifs <;> first | rfl | simp

/-! ## The idle tick and the spawn decision -/

theorem updatePasses_idle (canvas : Canvas) (now : Int) (r : Rng) (ks : List (String × Bool))
    (hks : ∀ name, keyDown ks name = false) :
    updatePasses canvas now ({ GameState.fresh with keys := ks }, r) =
      ({ GameState.fresh with keys := ks }, r) := by
  simp [updatePasses, updatePlayer, updateLasers, updateAsteroids, updateParticles,
    updatePowerUps, forDown, GameState.fresh, hks]

theorem gameLoop_idle (canvas : Canvas) (now : Int) (r : Rng) (ks : List (String × Bool))
    (hks : ∀ name, keyDown ks name = false) :
    gameLoop canvas now ({ GameState.fresh with keys := ks }, r) =
      if r.random 0 < 2 / 100 then
        ({ GameState.fresh with
            keys := ks, asteroids := [createAsteroid canvas now (r.drop 1)] }, r.drop 9)
      else ({ GameState.fresh with keys := ks }, r.drop 1) := by
  rw [gameLoop_eq_passes, updatePasses_idle canvas now r ks hks]
  simp only [GameState.fresh, spawnRate, GameConfig.ASTEROID_SPAWN_RATE]
  norm_num
  split_ifs <;> rfl

theorem updatePasses_paused (canvas : Canvas) (now : Int) (g : GameState) (r : Rng) :
    (updatePasses canvas now (g, r)).1.paused = g.paused := by
  cases hp : g.paused
  · have h1 : (updatePlayer canvas g).paused = false := by
      rw [updatePlayer_eq]
      exact hp
    exact (passes_passRel canvas now (updatePlayer canvas g, r)).paused_ok h1
  · simp [updatePasses, updatePlayer, updateLasers, updateAsteroids, updateParticles,
      updatePowerUps, hp]

theorem spawnRate_mono (s1 s2 : Nat) (h : s1 ≤ s2) : spawnRate s1 ≤ spawnRate s2 := by
  have hc : (s1 : ℚ) ≤ (s2 : ℚ) := by exact_mod_cast h
  simp only [spawnRate]
  linarith

/-! ## The laser pass, laser by laser -/

theorem split_at_getElem? {α : Type} (l : List α) (i : Nat) (a : α) (h : l[i]? = some a) :
    ∃ pre back : List α, l = pre ++ a :: back ∧ pre.length = i := by
  have hlt : i < l.length := (List.getElem?_eq_some.1 h).1
  have hget : l[i] = a := (List.getElem?_eq_some.1 h).2
  refine ⟨l.take i, l.drop (i + 1), ?_, ?_⟩
  · conv_lhs => rw [← List.take_append_drop i l]
    rw [List.drop_eq_getElem_cons hlt, hget]
  · rw [List.length_take]
    omega

theorem handleAsteroidHit_lasers (now : Int) (g : GameState) (a : Asteroid) (index : Nat)
    (hitX hitY : ℚ) (r : Rng) :
    (handleAsteroidHit now g a index hitX hitY r).1.lasers = g.lasers ∧
    (handleAsteroidHit now g a index hitX hitY r).1.destroyed = g.destroyed + 1 ∧
    (handleAsteroidHit now g a index hitX hitY r).1.player = g.player ∧
    (handleAsteroidHit now g a index hitX hitY r).1.lives = g.lives := by
  simp only [handleAsteroidHit, createSplitAsteroids]
  split_ifs <;> exact ⟨rfl, rfl, rfl, rfl⟩

/-- The inner loop either finds no colliding asteroid and changes nothing, or
resolves one hit on an asteroid of the list that overlaps the laser and
removes the laser. -/
theorem laserCollisionLoop_cases (now : Int) (laser : Laser) (i : Nat) :
    ∀ (j : Nat) (s : GameState × Rng),
      laserCollisionLoop now laser i j s = s ∨
      ∃ (a : Asteroid) (idx : Nat),
        s.1.asteroids[idx]? = some a ∧ checkCollision laser.body a.body = true ∧
        laserCollisionLoop now laser i j s =
          ({ (handleAsteroidHit now s.1 a idx laser.x laser.y s.2).1 with
              lasers := (handleAsteroidHit now s.1 a idx laser.x laser.y s.2).1.lasers.eraseIdx i },
            (handleAsteroidHit now s.1 a idx laser.x laser.y s.2).2)
  | 0, _ => Or.inl rfl
  | j + 1, s => by
    simp only [laserCollisionLoop]
    split
    · exact laserCollisionLoop_cases now laser i j s
    · next a ha =>
      by_cases hc : checkCollision laser.body a.body = true
      · right
        exact ⟨a, j, ha, hc, by rw [if_pos hc]⟩
      · rw [if_neg hc]
        exact laserCollisionLoop_cases now laser i j s

/-- One iteration of the laser loop at the index of a known laser: the laser
leaves the top and is removed, or it stays, advanced, or one hit is resolved
on an asteroid it overlaps and the laser is removed. -/
theorem updateLasersBody_cases (now : Int) (pre back : List Laser) (l : Laser)
    (s : GameState × Rng) (h : s.1.lasers = pre ++ l :: back) :
    ((advanceLaser l).y < -10 ∧
      updateLasersBody now pre.length s = ({ s.1 with lasers := pre ++ back }, s.2)) ∨
    (¬ (advanceLaser l).y < -10 ∧
      updateLasersBody now pre.length s =
        ({ s.1 with lasers := pre ++ advanceLaser l :: back }, s.2)) ∨
    (¬ (advanceLaser l).y < -10 ∧
      ∃ (a : Asteroid) (idx : Nat),
        s.1.asteroids[idx]? = some a ∧ checkCollision (advanceLaser l).body a.body = true ∧
        updateLasersBody now pre.length s =
          ({ (handleAsteroidHit now { s.1 with lasers := pre ++ advanceLaser l :: back } a idx
                (advanceLaser l).x (advanceLaser l).y s.2).1 with lasers := pre ++ back },
            (handleAsteroidHit now { s.1 with lasers := pre ++ advanceLaser l :: back } a idx
                (advanceLaser l).x (advanceLaser l).y s.2).2)) := by
  simp only [updateLasersBody, h, getElem?_mid, set_mid, eraseIdx_mid]
  by_cases hoff : (advanceLaser l).y < -10
  · left
    exact ⟨hoff, by rw [if_pos hoff]⟩
  · right
    rw [if_neg hoff]
    rcases laserCollisionLoop_cases now (advanceLaser l) pre.length s.1.asteroids.length
      ({ s.1 with lasers := pre ++ advanceLaser l :: back }, s.2) with hsame | ⟨a, idx, ha, hc, heq⟩
    · left
      exact ⟨hoff, hsame⟩
    · right
      refine ⟨hoff, a, idx, ha, hc, ?_⟩
      rw [heq, (handleAsteroidHit_lasers now _ a idx _ _ s.2).1, eraseIdx_mid]

theorem updateLasersBody_count (now : Int) (pre back : List Laser) (l : Laser)
    (s : GameState × Rng) (h : s.1.lasers = pre ++ l :: back) :
    ((advanceLaser l).y < -10 ∧
      (updateLasersBody now pre.length s).1.lasers = pre ++ back ∧
      (updateLasersBody now pre.length s).1.destroyed = s.1.destroyed) ∨
    (¬ (advanceLaser l).y < -10 ∧
      (updateLasersBody now pre.length s).1.lasers = pre ++ advanceLaser l :: back ∧
      (updateLasersBody now pre.length s).1.destroyed = s.1.destroyed) ∨
    (¬ (advanceLaser l).y < -10 ∧
      (updateLasersBody now pre.length s).1.lasers = pre ++ back ∧
      (updateLasersBody now pre.length s).1.destroyed = s.1.destroyed + 1) := by
  rcases updateLasersBody_cases now pre back l s h with
    ⟨hoff, hb⟩ | ⟨hoff, hb⟩ | ⟨hoff, a, idx, _, _, hb⟩
  · exact Or.inl ⟨hoff, by rw [hb], by rw [hb]⟩
  · exact Or.inr (Or.inl ⟨hoff, by rw [hb], by rw [hb]⟩)
  · refine Or.inr (Or.inr ⟨hoff, by rw [hb], ?_⟩)
    rw [hb]
    exact (handleAsteroidHit_lasers now _ a idx (advanceLaser l).x (advanceLaser l).y s.2).2.1

/-- The laser loop over the front of the laser list: what is kept is a
sublist of the advanced lasers still below the top bound, and every laser is
kept, removed past the top, or removed with exactly one kill. -/
theorem updateLasers_front (now : Int) (front : List Laser) :
    ∀ (back : List Laser) (s : GameState × Rng), s.1.lasers = front ++ back →
      ∃ kept : List Laser,
        (forDown (updateLasersBody now) front.length s).1.lasers = kept ++ back ∧
        List.Sublist kept ((front.map advanceLaser).filter (fun l => decide (-10 ≤ l.y))) ∧
        s.1.destroyed ≤ (forDown (updateLasersBody now) front.length s).1.destroyed ∧
        (forDown (updateLasersBody now) front.length s).1.destroyed + kept.length +
          (front.filter (fun l => decide ((advanceLaser l).y < -10))).length =
          s.1.destroyed + front.length := by
  induction front using List.reverseRecOn with
  | nil =>
    intro back s h
    exact ⟨[], by simpa [forDown] using h, List.Sublist.refl _, by simp [forDown],
      by simp [forDown]⟩
  | append_singleton f0 l ih =>
    intro back s h
    have h2 : s.1.lasers = f0 ++ l :: back := by
      rw [h]
      simp
    have hlen : (f0 ++ [l]).length = f0.length + 1 := by simp
    rw [hlen, forDown, List.map_append, List.filter_append, List.filter_append,
      List.length_append]
    have hcount := updateLasersBody_count now f0 back l s h2
    generalize updateLasersBody now f0.length s = s1 at hcount ⊢
    rcases hcount with ⟨hoff, e1, e2⟩ | ⟨hoff, e1, e2⟩ | ⟨hoff, e1, e2⟩
    · obtain ⟨kept, k1, k2, k3, k4⟩ := ih back s1 e1
      refine ⟨kept, k1, k2.trans (List.sublist_append_left _ _), by omega, ?_⟩
      have : ([l].filter (fun l => decide ((advanceLaser l).y < -10))).length = 1 := by
        simp [hoff]
      rw [this]
      omega
    · obtain ⟨kept, k1, k2, k3, k4⟩ := ih (advanceLaser l :: back) s1 e1
      refine ⟨kept ++ [advanceLaser l], by rw [k1]; simp, ?_, by omega, ?_⟩
      · refine k2.append ?_
        have hge : -10 ≤ (advanceLaser l).y := not_lt.1 hoff
        simp [hge]
      · have : ([l].filter (fun l => decide ((advanceLaser l).y < -10))).length = 0 := by
          simp [hoff]
        rw [this, List.length_append, List.length_singleton]
        omega
    · obtain ⟨kept, k1, k2, k3, k4⟩ := ih back s1 e1
      refine ⟨kept, k1, k2.trans (List.sublist_append_left _ _), by omega, ?_⟩
      have : ([l].filter (fun l => decide ((advanceLaser l).y < -10))).length = 0 := by
        simp [hoff]
      rw [this]
      omega

/-- The inner loop resolves the hit on the last asteroid of the list that the
laser overlaps. -/
theorem laserCollisionLoop_hit (now : Int) (laser : Laser) (i : Nat) (pre : List Asteroid)
    (a : Asteroid) (post : List Asteroid) :
    ∀ (back : List Asteroid) (s : GameState × Rng),
      s.1.asteroids = pre ++ a :: (post ++ back) →
      checkCollision laser.body a.body = true →
      (∀ b ∈ post, checkCollision laser.body b.body = false) →
      laserCollisionLoop now laser i (pre.length + 1 + post.length) s =
        ({ (handleAsteroidHit now s.1 a pre.length laser.x laser.y s.2).1 with
            lasers := (handleAsteroidHit now s.1 a pre.length laser.x laser.y s.2).1.lasers.eraseIdx i },
          (handleAsteroidHit now s.1 a pre.length laser.x laser.y s.2).2) := by
  induction post using List.reverseRecOn with
  | nil =>
    intro back s h hc _
    simp only [List.length_nil, Nat.add_zero, laserCollisionLoop]
    rw [h, getElem?_mid]
    simp only [List.nil_append, hc, if_true]
  | append_singleton p0 b ih =>
    intro back s h hc hno
    have hidx : pre.length + 1 + (p0 ++ [b]).length = (pre ++ a :: p0).length + 1 := by
      simp only [List.length_append, List.length_cons, List.length_nil]
      omega
    have hget : s.1.asteroids[(pre ++ a :: p0).length]? = some b := by
      rw [h]
      have : pre ++ a :: (p0 ++ [b] ++ back) = (pre ++ a :: p0) ++ b :: back := by simp
      rw [this, getElem?_mid]
    have hb : checkCollision laser.body b.body = false := hno b (by simp)
    rw [hidx]
    simp only [laserCollisionLoop, hget, hb, Bool.false_eq_true, if_false]
    have hlen2 : (pre ++ a :: p0).length = pre.length + 1 + p0.length := by
      simp only [List.length_append, List.length_cons]
      omega
    rw [hlen2]
    exact ih (b :: back) s (by rw [h]; simp) hc (fun c hcm => hno c (by simp [hcm]))

/-- The laser pass on a single laser that, once advanced, is not past the top
and overlaps an asteroid: one hit is resolved, on the last such asteroid of
the list, and the laser is removed. -/
theorem updateLasers_single (now : Int) (g : GameState) (r : Rng) (l : Laser)
    (pre post : List Asteroid) (a : Asteroid) (hp : g.paused = false) (hl : g.lasers = [l])
    (htop : ¬ (advanceLaser l).y < -10) (hast : g.asteroids = pre ++ a :: post)
    (hc : checkCollision (advanceLaser l).body a.body = true)
    (hno : ∀ b ∈ post, checkCollision (advanceLaser l).body b.body = false) :
    updateLasers now (g, r) =
      ({ (handleAsteroidHit now { g with lasers := [advanceLaser l] } a pre.length
            (advanceLaser l).x (advanceLaser l).y r).1 with lasers := [] },
        (handleAsteroidHit now { g with lasers := [advanceLaser l] } a pre.length
            (advanceLaser l).x (advanceLaser l).y r).2) := by
  have hlen : g.asteroids.length = pre.length + 1 + post.length := by
    rw [hast]
    simp only [List.length_append, List.length_cons]
    omega
  simp only [updateLasers, hp, Bool.false_eq_true, if_false, hl, List.length_singleton, forDown,
    updateLasersBody, List.getElem?_cons_zero, List.set_cons_zero, htop, hlen]
  rw [laserCollisionLoop_hit now (advanceLaser l) 0 pre a post [] _ (by simpa using hast) hc hno]
  rw [(handleAsteroidHit_lasers now _ a pre.length _ _ r).1]
  rfl
theorem handleAsteroidHit_points (now : Int) (g : GameState) (a : Asteroid) (index : Nat)
    (hitX hitY : ℚ) (r : Rng) :
    (handleAsteroidHit now g a index hitX hitY r).1.score =
      g.score + 50 * min (g.combo + 1) 5 := by
  rw [handleAsteroidHit_score]
  by_cases h : g.combo + 1 > 1
  · rw [if_pos h]
  · rw [if_neg h]
    have h0 : g.combo = 0 := by omega
    simp [h0]

/-- The laser pass as a whole: kills are bounded by the lasers, and on an
unpaused state every laser is kept, removed past the top, or removed with
exactly one kill. -/
theorem updateLasers_count (now : Int) (g : GameState) (r : Rng) :
    g.destroyed ≤ (updateLasers now (g, r)).1.destroyed ∧
    (updateLasers now (g, r)).1.destroyed ≤ g.destroyed + g.lasers.length ∧
    (g.paused = true → updateLasers now (g, r) = (g, r)) ∧
    (g.paused = false →
      List.Sublist (updateLasers now (g, r)).1.lasers
        ((g.lasers.map advanceLaser).filter (fun l => decide (-10 ≤ l.y))) ∧
      (updateLasers now (g, r)).1.destroyed + (updateLasers now (g, r)).1.lasers.length +
        (g.lasers.filter (fun l => decide ((advanceLaser l).y < -10))).length =
        g.destroyed + g.lasers.length) := by
  cases hp : g.paused
  · obtain ⟨kept, k1, k2, k3, k4⟩ := updateLasers_front now g.lasers [] (g, r) (by simp)
    have hu : updateLasers now (g, r) = forDown (updateLasersBody now) g.lasers.length (g, r) := by
      simp [updateLasers, hp]
    rw [hu]
    simp only [List.append_nil] at k1 k3 k4
    rw [k1]
    refine ⟨k3, by omega, fun h => absurd h (by simp), fun _ => ⟨k2, k4⟩⟩
  · have hu : updateLasers now (g, r) = (g, r) := by simp [updateLasers, hp]
    rw [hu]
    exact ⟨le_refl _, Nat.le_add_right _ _, fun _ => rfl, fun h => absurd h (by simp)⟩

/-! ## The invariant of the entity lists -/

theorem entityInv_of_eq {g g2 : GameState} (h : EntityInv g) (ha : g2.asteroids = g.asteroids)
    (hl : g2.lasers = g.lasers) : EntityInv g2 where
  asteroid_ok := by rw [ha]; exact h.asteroid_ok
  trail_le := by rw [hl]; exact h.trail_le

theorem advanceLaser_trail_le (l : Laser) (h : l.trail.length ≤ 5) :
    (advanceLaser l).trail.length ≤ 5 := by
  simp only [advanceLaser]
  split_ifs with hc
  · simp only [List.length_tail, List.length_append, List.length_singleton]
    omega
  · simp only [List.length_append, List.length_singleton] at hc ⊢
    omega

theorem handleAsteroidHit_entityInv (now : Int) (g : GameState) (a : Asteroid) (index : Nat)
    (hitX hitY : ℚ) (r : Rng) (h : EntityInv g) (ha : 1 ≤ a.health ∧ 0 < a.size) :
    EntityInv (handleAsteroidHit now g a index hitX hitY r).1 where
  asteroid_ok := by
    rw [handleAsteroidHit_asteroids]
    intro b hb
    have hb2 := List.mem_of_mem_eraseIdx hb
    rcases List.mem_append.1 hb2 with hb3 | hb3
    · exact h.asteroid_ok b hb3
    · split_ifs at hb3
      · simp only [createSplitAsteroids, List.nil_append, List.mem_map, List.mem_range] at hb3
        obtain ⟨i, _, rfl⟩ := hb3
        exact ⟨ha.1, by simp only; linarith [ha.2]⟩
      · simp at hb3
  trail_le := by
    rw [(handleAsteroidHit_lasers now g a index hitX hitY r).1]
    exact h.trail_le

theorem updateLasersBody_entityInv (now : Int) (i : Nat) (s : GameState × Rng)
    (h : EntityInv s.1) : EntityInv (updateLasersBody now i s).1 := by
  cases hget : s.1.lasers[i]? with
  | none => simp only [updateLasersBody, hget]; exact h
  | some l =>
    obtain ⟨pre, back, hsplit, rfl⟩ := split_at_getElem? s.1.lasers i l hget
    have hl : l.trail.length ≤ 5 := h.trail_le l (by rw [hsplit]; simp)
    have hkeep : ∀ x ∈ pre ++ back, x.trail.length ≤ 5 := fun x hx =>
      h.trail_le x (by
        rw [hsplit]
        rcases List.mem_append.1 hx with hx | hx
        · exact List.mem_append_left _ hx
        · exact List.mem_append_right _ (List.mem_cons_of_mem _ hx))
    have hadv : ∀ x ∈ pre ++ advanceLaser l :: back, x.trail.length ≤ 5 := by
      intro x hx
      rcases List.mem_append.1 hx with hx | hx
      · exact hkeep x (List.mem_append_left _ hx)
      · rcases List.mem_cons.1 hx with rfl | hx
        · exact advanceLaser_trail_le l hl
        · exact hkeep x (List.mem_append_right _ hx)
    rcases updateLasersBody_cases now pre back l s hsplit with
      ⟨_, hb⟩ | ⟨_, hb⟩ | ⟨_, a, idx, ha, _, hb⟩
    · rw [hb]
      exact ⟨h.asteroid_ok, hkeep⟩
    · rw [hb]
      exact ⟨h.asteroid_ok, hadv⟩
    · rw [hb]
      have hinv1 : EntityInv ({ s.1 with lasers := pre ++ advanceLaser l :: back } : GameState) :=
        ⟨h.asteroid_ok, hadv⟩
      have hinv2 := handleAsteroidHit_entityInv now _ a idx (advanceLaser l).x (advanceLaser l).y
        s.2 hinv1 (h.asteroid_ok a (List.getElem?_mem ha))
      exact ⟨hinv2.asteroid_ok, hkeep⟩

theorem updateLasers_entityInv (now : Int) (s : GameState × Rng) (h : EntityInv s.1) :
    EntityInv (updateLasers now s).1 := by
  simp only [updateLasers]
  split_ifs
  · exact h
  · exact forDown_rel (fun a b : GameState × Rng => EntityInv a.1 → EntityInv b.1)
      (fun _ ha => ha) (fun _ _ _ h1 h2 ha => h2 (h1 ha)) _
      (fun i a ha => updateLasersBody_entityInv now i a ha) _ s h

theorem updateAsteroidsBody_entityInv (canvas : Canvas) (i : Nat) (s : GameState × Rng)
    (h : EntityInv s.1) : EntityInv (updateAsteroidsBody canvas i s).1 := by
  cases hget : s.1.asteroids[i]? with
  | none => simp only [updateAsteroidsBody, hget]; exact h
  | some b =>
    obtain ⟨pre, back, hsplit, rfl⟩ := split_at_getElem? s.1.asteroids i b hget
    have hb : 1 ≤ b.health ∧ 0 < b.size := h.asteroid_ok b (by rw [hsplit]; simp)
    have hkeep : ∀ x ∈ pre ++ back, 1 ≤ x.health ∧ 0 < x.size := fun x hx =>
      h.asteroid_ok x (by
        rw [hsplit]
        rcases List.mem_append.1 hx with hx | hx
        · exact List.mem_append_left _ hx
        · exact List.mem_append_right _ (List.mem_cons_of_mem _ hx))
    have hadv : ∀ x ∈ pre ++ advanceAsteroid b :: back, 1 ≤ x.health ∧ 0 < x.size := by
      intro x hx
      rcases List.mem_append.1 hx with hx | hx
      · exact hkeep x (List.mem_append_left _ hx)
      · rcases List.mem_cons.1 hx with rfl | hx
        · exact hb
        · exact hkeep x (List.mem_append_right _ hx)
    rw [updateAsteroidsBody_at canvas pre back b s hsplit]
    split_ifs
    · exact ⟨hkeep, h.trail_le⟩
    · simp only [handlePlayerHit, gameOver, eraseIdx_mid]
      split_ifs <;> exact ⟨hkeep, h.trail_le⟩
    · exact ⟨hadv, h.trail_le⟩

theorem updateAsteroids_entityInv (canvas : Canvas) (s : GameState × Rng) (h : EntityInv s.1) :
    EntityInv (updateAsteroids canvas s).1 := by
  simp only [updateAsteroids]
  split_ifs
  · exact h
  · exact forDown_rel (fun a b : GameState × Rng => EntityInv a.1 → EntityInv b.1)
      (fun _ ha => ha) (fun _ _ _ h1 h2 ha => h2 (h1 ha)) _
      (fun i a ha => updateAsteroidsBody_entityInv canvas i a ha) _ s h

/-- The power-up pass writes neither the asteroids nor the lasers. -/
theorem updatePowerUps_entities (g : GameState) :
    (updatePowerUps g).asteroids = g.asteroids ∧ (updatePowerUps g).lasers = g.lasers := by
  simp only [updatePowerUps]
  split_ifs
  · exact ⟨rfl, rfl⟩
  · exact forDown_rel (fun a b : GameState => b.asteroids = a.asteroids ∧ b.lasers = a.lasers)
      (fun _ => ⟨rfl, rfl⟩) (fun _ _ _ h1 h2 => ⟨h2.1.trans h1.1, h2.2.trans h1.2⟩)
      updatePowerUpsBody
      (fun i a => by
        simp only [updatePowerUpsBody]
        split
        · exact ⟨rfl, rfl⟩
        · next p0 _ =>
          split_ifs
          · exact ⟨rfl, rfl⟩
          · cases p0.type <;> exact ⟨rfl, rfl⟩
          · exact ⟨rfl, rfl⟩) _ g

theorem updatePasses_entityInv (canvas : Canvas) (now : Int) (s : GameState × Rng)
    (h : EntityInv s.1) : EntityInv (updatePasses canvas now s).1 := by
  have h1 : EntityInv (updatePlayer canvas s.1) :=
    entityInv_of_eq h (by rw [updatePlayer_eq]) (by rw [updatePlayer_eq])
  have h3 := updateAsteroids_entityInv canvas _
    (updateLasers_entityInv now (updatePlayer canvas s.1, s.2) h1)
  have h4 : EntityInv (updateParticles
      (updateAsteroids canvas (updateLasers now (updatePlayer canvas s.1, s.2))).1) :=
    entityInv_of_eq h3 (by rw [updateParticles_eq]) (by rw [updateParticles_eq])
  exact entityInv_of_eq h4 (updatePowerUps_entities _).1 (updatePowerUps_entities _).2

theorem createAsteroid_ok (canvas : Canvas) (now : Int) (r : Rng) :
    1 ≤ (createAsteroid canvas now r).health ∧ 0 < (createAsteroid canvas now r).size := by
  obtain ⟨h15, _, vx, vy, _, ht⟩ := createAsteroid_cases canvas now r
  rcases ht with ⟨_, hs, _, _, hh⟩ | ⟨_, hs, _, _, hh⟩ | ⟨_, hs, _, _, hh⟩ | ⟨_, hs, _, _, hh⟩ <;>
    rw [hs, hh] <;> constructor <;> first | decide | linarith

theorem gameLoop_entityInv (canvas : Canvas) (now : Int) (g : GameState) (r : Rng)
    (h : EntityInv g) : EntityInv (gameLoop canvas now (g, r)).1 := by
  have h5 := updatePasses_entityInv canvas now (g, r) h
  rw [gameLoop_eq_passes]
  by_cases hr : g.gameRunning = true
  · by_cases hp : (!(updatePasses canvas now (g, r)).1.paused) = true
    · simp only [hr, hp, if_true]
      refine ⟨?_, h5.trail_le⟩
      intro a ha
      rcases List.mem_append.1 ha with ha | ha
      · exact h5.asteroid_ok a ha
      · split_ifs at ha
        · simp only [List.mem_singleton] at ha
          rw [ha]
          exact createAsteroid_ok canvas now _
        · exact absurd ha (List.not_mem_nil a)
    · simp only [hr, hp, if_true, if_false]
      exact h5
  · simp only [hr, if_false]
    exact h

theorem shootLaser_entityInv (now : Int) (g : GameState) (h : EntityInv g) :
    EntityInv (shootLaser now g) := by
  simp only [shootLaser]
  split_ifs
  · refine ⟨h.asteroid_ok, ?_⟩
    intro l hl
    rcases List.mem_append.1 hl with hl | hl
    · exact h.trail_le l hl
    · simp only [List.mem_singleton] at hl
      rw [hl]
      exact Nat.zero_le _
  · exact h

theorem step_entityInv (canvas : Canvas) (e : Event) (g : GameState) (h : EntityInv g) :
    EntityInv (step canvas e g) := by
  have hfresh : EntityInv GameState.fresh :=
    ⟨fun a ha => absurd ha (List.not_mem_nil a), fun l hl => absurd hl (List.not_mem_nil l)⟩
  cases e with
  | frame now r => exact gameLoop_entityInv canvas now g r h
  | restart now r => exact gameLoop_entityInv canvas now _ r hfresh
  | keyDown now key code =>
    simp only [step, handleKeyDown, togglePause]
    split_ifs
    any_goals exact h
    all_goals first
      | exact entityInv_of_eq h rfl rfl
      | exact shootLaser_entityInv now _ (entityInv_of_eq h rfl rfl)
  | keyUp key code =>
    simp only [step, handleKeyUp]
    split_ifs
    · exact h
    · exact entityInv_of_eq h rfl rfl
  | dpadStart d => exact entityInv_of_eq h rfl rfl
  | dpadEnd d => exact entityInv_of_eq h rfl rfl
  | shootButton now =>
    simp only [step]
    split_ifs
    · exact shootLaser_entityInv now g h
    · exact h
  | pauseButton =>
    simp only [step, togglePause]
    split_ifs
    · exact h
    · exact entityInv_of_eq h rfl rfl
  | blur =>
    simp only [step, togglePause]
    split_ifs
    any_goals exact h
    all_goals exact entityInv_of_eq h rfl rfl

theorem reachable_entityInv (canvas : Canvas) (g : GameState) (h : Reachable canvas g) :
    EntityInv g := by
  obtain ⟨events, rfl⟩ := h
  exact run_induction canvas EntityInv (fun e g => step_entityInv canvas e g) events _
    ⟨fun a ha => absurd ha (List.not_mem_nil a), fun l hl => absurd hl (List.not_mem_nil l)⟩

/-! ## Motion and trail of a laser -/

theorem advanceLaser_facts (l : Laser) (h : l.trail.length ≤ 5) :
    (advanceLaser l).x = l.x ∧ (advanceLaser l).y = l.y - l.speed ∧
    (advanceLaser l).speed = l.speed ∧ (advanceLaser l).size = l.size ∧
    (advanceLaser l).trail =
      (if l.trail.length < 5 then l.trail ++ [⟨l.x, l.y⟩] else l.trail.tail ++ [⟨l.x, l.y⟩]) ∧
    (advanceLaser l).trail.length ≤ 5 ∧
    (advanceLaser l).trail.getLast? = some ⟨l.x, l.y⟩ := by
  refine ⟨rfl, rfl, rfl, rfl, ?_, advanceLaser_trail_le l h, ?_⟩
  · simp only [advanceLaser, List.length_append, List.length_singleton]
    by_cases h5 : l.trail.length < 5
    · rw [if_neg (by omega), if_pos h5]
    · rw [if_pos (by omega), if_neg h5]
      cases ht : l.trail with
      | nil => rw [ht] at h5; simp at h5
      | cons p ps => rfl
  · simp only [advanceLaser, List.length_append, List.length_singleton]
    by_cases h5 : l.trail.length < 5
    · rw [if_neg (by omega)]
      simp
    · rw [if_pos (by omega)]
      cases ht : l.trail with
      | nil => rw [ht] at h5; simp at h5
      | cons p ps => simp

/-! ## The asteroid pass, asteroid by asteroid -/

/-- One iteration of the asteroid loop at the index of a known asteroid, by
the three paths: off screen, player hit, or kept. -/
theorem updateAsteroidsBody_count (canvas : Canvas) (pre back : List Asteroid) (b : Asteroid)
    (s : GameState × Rng) (h : s.1.asteroids = pre ++ b :: back) :
    (updateAsteroidsBody canvas pre.length s).1.player = s.1.player ∧
    (updateAsteroidsBody canvas pre.length s).1.destroyed = s.1.destroyed ∧
    ((isOffScreen canvas (advanceAsteroid b).body 100 = true ∧
        (updateAsteroidsBody canvas pre.length s).1.asteroids = pre ++ back ∧
        (updateAsteroidsBody canvas pre.length s).1.score = s.1.score + 10) ∨
      (isOffScreen canvas (advanceAsteroid b).body 100 = false ∧
        checkCollision (advanceAsteroid b).body s.1.player.body = true ∧
        (updateAsteroidsBody canvas pre.length s).1.asteroids = pre ++ back ∧
        (updateAsteroidsBody canvas pre.length s).1.score = s.1.score) ∨
      (isOffScreen canvas (advanceAsteroid b).body 100 = false ∧
        checkCollision (advanceAsteroid b).body s.1.player.body = false ∧
        (updateAsteroidsBody canvas pre.length s).1.asteroids = pre ++ advanceAsteroid b :: back ∧
        (updateAsteroidsBody canvas pre.length s).1.score = s.1.score)) := by
  rw [updateAsteroidsBody_at canvas pre back b s h]
  cases hoff : isOffScreen canvas (advanceAsteroid b).body 100
  · cases hc : checkCollision (advanceAsteroid b).body s.1.player.body
    · simp
    · simp only [Bool.false_eq_true, if_false, if_true, handlePlayerHit, gameOver, eraseIdx_mid]
      split_ifs <;> simp
  · simp

/-- The asteroid loop over the front of the asteroid list: the player and
`destroyed` are not written, each asteroid off screen after its move adds 10
to the score, and the asteroids kept are the moved ones that are neither off
screen nor on the player. -/
theorem updateAsteroids_front (canvas : Canvas) (front : List Asteroid) :
    ∀ (back : List Asteroid) (s : GameState × Rng), s.1.asteroids = front ++ back →
      (forDown (updateAsteroidsBody canvas) front.length s).1.player = s.1.player ∧
      (forDown (updateAsteroidsBody canvas) front.length s).1.destroyed = s.1.destroyed ∧
      (forDown (updateAsteroidsBody canvas) front.length s).1.score =
        s.1.score +
          10 * (front.filter (fun a => isOffScreen canvas (advanceAsteroid a).body 100)).length ∧
      (forDown (updateAsteroidsBody canvas) front.length s).1.asteroids =
        (front.map advanceAsteroid).filter
          (fun a => !isOffScreen canvas a.body 100 && !checkCollision a.body s.1.player.body)
          ++ back := by
  induction front using List.reverseRecOn with
  | nil =>
    intro back s h
    simpa [forDown] using h
  | append_singleton f0 b ih =>
    intro back s h
    have h2 : s.1.asteroids = f0 ++ b :: back := by
      rw [h]
      simp
    have hlen : (f0 ++ [b]).length = f0.length + 1 := by simp
    rw [hlen, forDown, List.map_append, List.filter_append, List.filter_append,
      List.length_append]
    obtain ⟨hpl, hde, hcases⟩ := updateAsteroidsBody_count canvas f0 back b s h2
    generalize updateAsteroidsBody canvas f0.length s = s1 at hpl hde hcases ⊢
    rcases hcases with ⟨hoff, e1, e2⟩ | ⟨hoff, hc, e1, e2⟩ | ⟨hoff, hc, e1, e2⟩
    · obtain ⟨k1, k2, k3, k4⟩ := ih back s1 e1
      refine ⟨k1.trans hpl, k2.trans hde, ?_, ?_⟩
      · rw [k3, e2]
        simp [hoff]
        omega
      · rw [k4, hpl]
        simp [hoff]
    · obtain ⟨k1, k2, k3, k4⟩ := ih back s1 e1
      refine ⟨k1.trans hpl, k2.trans hde, ?_, ?_⟩
      · rw [k3, e2]
        simp [hoff]
      · rw [k4, hpl]
        simp [hoff, hc]
    · obtain ⟨k1, k2, k3, k4⟩ := ih (advanceAsteroid b :: back) s1 e1
      refine ⟨k1.trans hpl, k2.trans hde, ?_, ?_⟩
      · rw [k3, e2]
        simp [hoff]
      · rw [k4, hpl]
        simp [hoff, hc]

/-- The asteroid loop over a front none of whose asteroids hits the player:
only the asteroid list and the score are written, and no draw is consumed. -/
theorem updateAsteroids_noHit (canvas : Canvas) (front : List Asteroid) :
    ∀ (back : List Asteroid) (s : GameState × Rng), s.1.asteroids = front ++ back →
      (∀ b ∈ front, hitsPlayer canvas s.1.player b = false) →
      ∃ (asts : List Asteroid) (sc : Nat),
        forDown (updateAsteroidsBody canvas) front.length s =
          ({ s.1 with asteroids := asts, score := sc }, s.2) := by
  intro back s h hno
  obtain ⟨back2, score2, h2⟩ := updateAsteroids_segment canvas front [] back s
    (by simpa using h) hno
  simp only [List.length_nil, Nat.zero_add, List.nil_append, forDown] at h2
  exact ⟨back2, score2, h2⟩

theorem filter_length_split {α : Type} (p : α → Bool) (l : List α) :
    (l.filter p).length + (l.filter (fun a => !p a)).length = l.length := by
  induction l with
  | nil => rfl
  | cons x xs ih =>
    cases hx : p x <;> simp [List.filter_cons, hx] <;> omega

/-- The asteroid pass as a whole on an unpaused state. -/
theorem updateAsteroids_pass (canvas : Canvas) (g : GameState) (r : Rng) (hp : g.paused = false) :
    (updateAsteroids canvas (g, r)).1.player = g.player ∧
    (updateAsteroids canvas (g, r)).1.destroyed = g.destroyed ∧
    (updateAsteroids canvas (g, r)).1.score =
      g.score +
        10 * (g.asteroids.filter (fun a => isOffScreen canvas (advanceAsteroid a).body 100)).length ∧
    (updateAsteroids canvas (g, r)).1.asteroids =
      (g.asteroids.map advanceAsteroid).filter
        (fun a => !isOffScreen canvas a.body 100 && !checkCollision a.body g.player.body) := by
  have hu : updateAsteroids canvas (g, r) =
      forDown (updateAsteroidsBody canvas) g.asteroids.length (g, r) := by
    simp [updateAsteroids, hp]
  rw [hu]
  have h := updateAsteroids_front canvas g.asteroids [] (g, r) (by simp)
  simpa using h

/-- The asteroid pass on an unpaused state in which no asteroid hits the
player: the asteroids off screen after their move are removed with 10 points
each, the others are kept, moved, and nothing else is written. -/
theorem updateAsteroids_bonus (canvas : Canvas) (g : GameState) (r : Rng) (hp : g.paused = false)
    (hno : ∀ a ∈ g.asteroids, hitsPlayer canvas g.player a = false) :
    updateAsteroids canvas (g, r) =
      ({ g with
          asteroids := (g.asteroids.map advanceAsteroid).filter
            (fun a => !isOffScreen canvas a.body 100)
          score := g.score +
            10 * (g.asteroids.filter
              (fun a => isOffScreen canvas (advanceAsteroid a).body 100)).length }, r) := by
  obtain ⟨_, _, h3, h4⟩ := updateAsteroids_pass canvas g r hp
  have hu : updateAsteroids canvas (g, r) =
      forDown (updateAsteroidsBody canvas) g.asteroids.length (g, r) := by
    simp [updateAsteroids, hp]
  obtain ⟨asts, sc, he⟩ := updateAsteroids_noHit canvas g.asteroids [] (g, r) (by simp) hno
  rw [← hu] at he
  have hfilter : (g.asteroids.map advanceAsteroid).filter
      (fun a => !isOffScreen canvas a.body 100 && !checkCollision a.body g.player.body) =
      (g.asteroids.map advanceAsteroid).filter (fun a => !isOffScreen canvas a.body 100) := by
    apply List.filter_congr
    intro a ha
    obtain ⟨b, hb, rfl⟩ := List.mem_map.1 ha
    have := hno b hb
    simp only [hitsPlayer, Bool.and_eq_false_imp, Bool.not_eq_eq_eq_not, Bool.not_true] at this
    cases hoff : isOffScreen canvas (advanceAsteroid b).body 100
    · simp [this (by simp [hoff])]
    · simp
  rw [he] at h3 h4 ⊢
  simp only at h3 h4
  rw [h3, h4, hfilter]

/-! ## The power-up pass, power-up by power-up -/

/-- One iteration of the power-up loop at the index of a known power-up. -/
theorem updatePowerUpsBody_at (pre back : List PowerUp) (p : PowerUp) (g : GameState)
    (h : g.powerUps = pre ++ p :: back) :
    updatePowerUpsBody pre.length g =
      if (agePowerUp p).life ≤ 0 then g.withPowerUps (pre ++ back)
      else if checkCollision (agePowerUp p).body g.player.body then
        (applyPowerUp g p.type).withPowerUps (pre ++ back)
      else g.withPowerUps (pre ++ agePowerUp p :: back) := by
  simp only [updatePowerUpsBody, h, getElem?_mid, set_mid, eraseIdx_mid, agePowerUp,
    GameState.withPowerUps]
  split_ifs
  · rfl
  · cases p.type <;> simp [applyPowerUp, eraseIdx_mid]
  · rfl

/-- The effect of a power-up writes neither the power-up list, the position
and size of the player, nor the pause flag. -/
theorem applyPowerUp_frame (g : GameState) (t : PowerUpType) (ps : List PowerUp) :
    applyPowerUp (g.withPowerUps ps) t = (applyPowerUp g t).withPowerUps ps ∧
    (applyPowerUp g t).player.body = g.player.body ∧
    (applyPowerUp g t).paused = g.paused ∧
    (applyPowerUp g t).powerUps = g.powerUps := by
  cases t <;> exact ⟨rfl, rfl, rfl, rfl⟩

/-- The effects of picked power-ups write neither the power-up list, the
position and size of the player, nor the pause flag. -/
theorem applyPicked_frame (picked : List PowerUp) (g : GameState) (ps : List PowerUp) :
    applyPicked (g.withPowerUps ps) picked = (applyPicked g picked).withPowerUps ps ∧
    (applyPicked g picked).player.body = g.player.body ∧
    (applyPicked g picked).paused = g.paused ∧
    (applyPicked g picked).powerUps = g.powerUps := by
  induction picked with
  | nil => exact ⟨rfl, rfl, rfl, rfl⟩
  | cons p rest ih =>
    obtain ⟨h1, h2, h3, h4⟩ := ih
    obtain ⟨k1, k2, k3, k4⟩ := applyPowerUp_frame (applyPicked g rest) p.type ps
    have e1 : ∀ a : GameState, applyPicked a (p :: rest) = applyPowerUp (applyPicked a rest) p.type :=
      fun _ => rfl
    rw [e1, e1, h1]
    exact ⟨k1, k2.trans h2, k3.trans h3, k4.trans h4⟩

theorem applyPicked_append (g : GameState) (l1 l2 : List PowerUp) :
    applyPicked g (l1 ++ l2) = applyPicked (applyPicked g l2) l1 := by
  simp [applyPicked, List.foldr_append]

/-- The power-up loop over the front of the power-up list: the power-ups that
are alive after ageing and on the player are applied, last first, and the
front keeps those that are alive and not on the player. -/
theorem updatePowerUps_front (front : List PowerUp) :
    ∀ (back : List PowerUp) (g : GameState), g.powerUps = front ++ back →
      forDown updatePowerUpsBody front.length g =
        (applyPicked g ((front.map agePowerUp).filter
            (fun q => decide (0 < q.life) && checkCollision q.body g.player.body))).withPowerUps
          ((front.map agePowerUp).filter
            (fun q => decide (0 < q.life) && !checkCollision q.body g.player.body) ++ back) := by
  induction front using List.reverseRecOn with
  | nil =>
    intro back g h
    simp only [List.length_nil, forDown, List.map_nil, List.filter_nil, List.nil_append,
      applyPicked, List.foldr_nil, GameState.withPowerUps] at h ⊢
    rw [← h]
  | append_singleton f0 p ih =>
    intro back g h
    have h2 : g.powerUps = f0 ++ p :: back := by
      rw [h]
      simp
    have hlen : (f0 ++ [p]).length = f0.length + 1 := by simp
    have hset : ∀ (a : GameState) (l1 l2 : List PowerUp),
        (a.withPowerUps l1).withPowerUps l2 = a.withPowerUps l2 := fun _ _ _ => rfl
    rw [hlen, forDown, updatePowerUpsBody_at f0 back p g h2, List.map_append,
      List.filter_append, List.filter_append, applyPicked_append, List.append_assoc]
    by_cases hl : (agePowerUp p).life ≤ 0
    · have hl2 : ¬ 0 < (agePowerUp p).life := not_lt.2 hl
      rw [if_pos hl, ih back (g.withPowerUps (f0 ++ back)) rfl, (applyPicked_frame _ g _).1, hset]
      simp only [List.map_cons, List.map_nil, List.filter_cons, hl2, decide_False,
        Bool.false_and, Bool.false_eq_true, if_false, List.filter_nil, List.nil_append]
      rfl
    · have hl2 : 0 < (agePowerUp p).life := not_le.1 hl
      rw [if_neg hl]
      cases hc : checkCollision (agePowerUp p).body g.player.body
      · rw [if_neg (by simp), ih (agePowerUp p :: back) (g.withPowerUps _) rfl,
          (applyPicked_frame _ g _).1, hset]
        simp only [List.map_cons, List.map_nil, List.filter_cons, hl2, decide_True,
          Bool.true_and, hc, Bool.false_eq_true, if_false, List.filter_nil, Bool.not_false,
          if_true, List.singleton_append]
        rfl
      · rw [if_pos rfl, ih back ((applyPowerUp g p.type).withPowerUps _) rfl,
          (applyPicked_frame _ _ _).1, hset]
        have hb : ((applyPowerUp g p.type).withPowerUps (f0 ++ back)).player.body =
            g.player.body := (applyPowerUp_frame g p.type []).2.1
        simp only [List.map_cons, List.map_nil, List.filter_cons, hl2, decide_True,
          Bool.true_and, hc, Bool.false_eq_true, if_false, List.filter_nil, Bool.not_true,
          if_true, List.nil_append, hb]
        rfl
/-- The power-up pass as a whole on an unpaused state. -/
theorem updatePowerUps_pass (g : GameState) (hp : g.paused = false) :
    updatePowerUps g =
      (applyPicked g ((g.powerUps.map agePowerUp).filter
          (fun q => decide (0 < q.life) && checkCollision q.body g.player.body))).withPowerUps
        ((g.powerUps.map agePowerUp).filter
          (fun q => decide (0 < q.life) && !checkCollision q.body g.player.body)) := by
  have h := updatePowerUps_front g.powerUps [] g (by simp)
  rw [List.append_nil] at h
  simp only [updatePowerUps, hp, Bool.false_eq_true, if_false]
  exact h

/-- Ageing a power-up `k` times lowers its life by `k` and moves nothing. -/
theorem agePowerUp_iterate (p : PowerUp) (k : Nat) :
    (agePowerUp^[k] p).life = p.life - k ∧ (agePowerUp^[k] p).body = p.body ∧
    (agePowerUp^[k] p).type = p.type ∧ (agePowerUp^[k] p).pulse = p.pulse + k * (2 / 10) := by
  induction k with
  | zero => simp
  | succ k ih =>
    obtain ⟨h1, h2, h3, h4⟩ := ih
    rw [Function.iterate_succ_apply']
    refine ⟨?_, ?_, ?_, ?_⟩
    · show (agePowerUp^[k] p).life - 1 = _
      rw [h1]
      push_cast
      ring
    · exact h2
    · exact h3
    · show (agePowerUp^[k] p).pulse + 2 / 10 = _
      rw [h4]
      push_cast
      ring

/-- Power-ups that are never picked up: along any sequence of unpaused states
in which each power-up list is the one the pass makes of the list before, and
no power-up is on the player, the list after `k` passes holds the power-ups
whose life was above `k`, aged `k` times. -/
theorem powerUps_unpicked (gs : Nat → GameState) (n : Nat)
    (hp : ∀ j < n, (gs j).paused = false)
    (hstep : ∀ j < n, (gs (j + 1)).powerUps = (updatePowerUps (gs j)).powerUps)
    (hno : ∀ j < n, ∀ q ∈ (gs j).powerUps, checkCollision q.body (gs j).player.body = false)
    (hlife : ∀ q ∈ (gs 0).powerUps, 0 < q.life) :
    ∀ k ≤ n, (gs k).powerUps =
      ((gs 0).powerUps.filter (fun q => decide ((k : Int) < q.life))).map (agePowerUp^[k]) := by
  intro k
  induction k with
  | zero =>
    intro _
    have : (gs 0).powerUps.filter (fun q => decide (((0 : Nat) : Int) < q.life)) =
        (gs 0).powerUps := by
      apply List.filter_eq_self.2
      intro q hq
      simpa using hlife q hq
    rw [this]
    simp
  | succ k ih =>
    intro hk
    have hk2 : k < n := hk
    rw [hstep k hk2, updatePowerUps_pass (gs k) (hp k hk2)]
    show (((gs k).powerUps.map agePowerUp).filter _) = _
    have hfilter : ((gs k).powerUps.map agePowerUp).filter
        (fun q => decide (0 < q.life) && !checkCollision q.body (gs k).player.body) =
        ((gs k).powerUps.map agePowerUp).filter (fun q => decide (0 < q.life)) := by
      apply List.filter_congr
      intro q hq
      obtain ⟨q0, hq0, rfl⟩ := List.mem_map.1 hq
      have := hno k hk2 q0 hq0
      have hb : (agePowerUp q0).body = q0.body := rfl
      rw [hb, this]
      simp
    rw [hfilter, ih (le_of_lt hk2), List.map_map, List.filter_map, List.filter_filter]
    have hcomp : (agePowerUp ∘ agePowerUp^[k]) = agePowerUp^[k + 1] := by
      funext q
      simp [Function.iterate_succ_apply']
    rw [hcomp]
    congr 1
    apply List.filter_congr
    intro q _
    have h1 := (agePowerUp_iterate q (k + 1)).1
    simp only [Function.comp_apply, h1]
    have hc : ((k + 1 : Nat) : Int) = (k : Int) + 1 := by push_cast; rfl
    rw [hc]
    by_cases h : (k : Int) + 1 < q.life
    · have a1 : 0 < q.life - ((k : Int) + 1) := by omega
      have a2 : (k : Int) < q.life := by omega
      simp [h, a1, a2]
    · by_cases h5 : 0 < q.life - ((k : Int) + 1)
      · exact absurd (by omega) h
      · simp [h, h5]
/-! ## Lives through the asteroid pass -/

/-- One iteration of the asteroid loop at the index of a known asteroid lowers
`lives` by 1 when the asteroid, once moved, is on screen and on the player,
and leaves it alone otherwise; the session is over when `lives` is then `≤ 0`. -/
theorem updateAsteroidsBody_lives (canvas : Canvas) (pre back : List Asteroid) (b : Asteroid)
    (s : GameState × Rng) (h : s.1.asteroids = pre ++ b :: back) :
    (updateAsteroidsBody canvas pre.length s).1.lives =
      s.1.lives - (if hitsPlayer canvas s.1.player b then 1 else 0) ∧
    (hitsPlayer canvas s.1.player b = true → s.1.lives ≤ 1 →
      (updateAsteroidsBody canvas pre.length s).1.gameRunning = false) := by
  rw [updateAsteroidsBody_at canvas pre back b s h]
  cases hoff : isOffScreen canvas (advanceAsteroid b).body 100
  · cases hc : checkCollision (advanceAsteroid b).body s.1.player.body
    · simp [hitsPlayer, hoff, hc]
    · simp only [hitsPlayer, hoff, hc, Bool.false_eq_true, if_false, if_true, handlePlayerHit,
        gameOver, Bool.not_false, Bool.and_self]
      constructor
      · split_ifs <;> rfl
      · intro _ hl
        rw [if_pos (by omega)]
  · simp [hitsPlayer, hoff]

/-- The asteroid loop over the front of the asteroid list lowers `lives` by
the number of asteroids of the front that, once moved, are on screen and on
the player. -/
theorem updateAsteroids_lives (canvas : Canvas) (front : List Asteroid) :
    ∀ (back : List Asteroid) (s : GameState × Rng), s.1.asteroids = front ++ back →
      (forDown (updateAsteroidsBody canvas) front.length s).1.lives =
        s.1.lives - ((front.filter (hitsPlayer canvas s.1.player)).length : Int) := by
  induction front using List.reverseRecOn with
  | nil =>
    intro back s _
    simp [forDown]
  | append_singleton f0 b ih =>
    intro back s h
    have h2 : s.1.asteroids = f0 ++ b :: back := by
      rw [h]
      simp
    have hlen : (f0 ++ [b]).length = f0.length + 1 := by simp
    rw [hlen, forDown, List.filter_append, List.length_append]
    obtain ⟨hpl, _, hcases⟩ := updateAsteroidsBody_count canvas f0 back b s h2
    have hl := (updateAsteroidsBody_lives canvas f0 back b s h2).1
    generalize updateAsteroidsBody canvas f0.length s = s1 at hpl hl hcases ⊢
    have hlist : ∃ back2, s1.1.asteroids = f0 ++ back2 := by
      rcases hcases with ⟨_, e1, _⟩ | ⟨_, _, e1, _⟩ | ⟨_, _, e1, _⟩
      · exact ⟨back, e1⟩
      · exact ⟨back, e1⟩
      · exact ⟨_, e1⟩
    obtain ⟨back2, e1⟩ := hlist
    rw [ih back2 s1 e1, hl, hpl]
    cases hb : hitsPlayer canvas s.1.player b
    · simp [hb]
    · simp [hb]
      ring

/-- The asteroid pass on an unpaused state lowers `lives` by the number of
asteroids that, once moved, are on screen and on the player. -/
theorem updateAsteroids_lives_pass (canvas : Canvas) (g : GameState) (r : Rng)
    (hp : g.paused = false) :
    (updateAsteroids canvas (g, r)).1.lives =
      g.lives - ((g.asteroids.filter (hitsPlayer canvas g.player)).length : Int) := by
  have hu : updateAsteroids canvas (g, r) =
      forDown (updateAsteroidsBody canvas) g.asteroids.length (g, r) := by
    simp [updateAsteroids, hp]
  rw [hu]
  exact updateAsteroids_lives canvas g.asteroids [] (g, r) (by simp)
/-! ## The pushed entry in the sorted leaderboard -/

/-- An entry at least as good as the head of a list is inserted in front. -/
theorem orderedInsert_front (x : LeaderboardEntry) (l : List LeaderboardEntry)
    (h : ∀ y ∈ l.head?, y.score ≤ x.score) :
    l.orderedInsert scoreOrder x = x :: l := by
  cases l with
  | nil => rfl
  | cons y ys =>
    have hy : scoreOrder x y := h y (by simp)
    simp [List.orderedInsert, hy]

/-- Sorting a sorted leaderboard with an entry pushed at its end puts the
entry behind the entries with at least its score and in front of those with
a lower score. -/
theorem insertionSort_push (e : LeaderboardEntry) (lb : List LeaderboardEntry)
    (hs : lb.Pairwise (fun a b => a.score ≥ b.score)) :
    ∃ hi lo : List LeaderboardEntry, lb = hi ++ lo ∧ (∀ x ∈ hi, e.score ≤ x.score) ∧
      (∀ x ∈ lo, x.score < e.score) ∧
      (lb ++ [e]).insertionSort scoreOrder = hi ++ e :: lo := by
  induction lb with
  | nil => exact ⟨[], [], rfl, by simp, by simp, rfl⟩
  | cons x lb ih =>
    obtain ⟨hx, hs2⟩ := List.pairwise_cons.1 hs
    obtain ⟨hi, lo, hlb, hhi, hlo, hsort⟩ := ih hs2
    have hstep : ((x :: lb) ++ [e]).insertionSort scoreOrder =
        (hi ++ e :: lo).orderedInsert scoreOrder x := by
      rw [List.cons_append, List.insertionSort, hsort]
    by_cases hxe : e.score ≤ x.score
    · refine ⟨x :: hi, lo, by rw [hlb]; rfl, ?_, hlo, ?_⟩
      · intro y hy
        rcases List.mem_cons.1 hy with rfl | hy
        · exact hxe
        · exact hhi y hy
      · rw [hstep, orderedInsert_front]
        · rfl
        · intro y hy
          cases hi with
          | nil =>
            simp only [List.nil_append, List.head?_cons, Option.mem_def, Option.some.injEq] at hy
            rw [← hy]
            exact hxe
          | cons h0 hs0 =>
            simp only [List.cons_append, List.head?_cons, Option.mem_def,
              Option.some.injEq] at hy
            rw [← hy]
            exact hx h0 (by rw [hlb]; simp)
    · have hxe2 : x.score < e.score := not_le.1 hxe
      have hnil : hi = [] := by
        cases hi with
        | nil => rfl
        | cons h0 hs0 =>
          have h1 := hhi h0 (by simp)
          have h2 := hx h0 (by rw [hlb]; simp)
          omega
      subst hnil
      simp only [List.nil_append] at hlb hsort hstep
      subst hlb
      refine ⟨[], x :: lb, rfl, by simp, ?_, ?_⟩
      · intro y hy
        rcases List.mem_cons.1 hy with rfl | hy
        · exact hxe2
        · exact hlo y hy
      · have hne : ¬ scoreOrder x e := fun h => hxe h
        rw [hstep]
        simp only [List.orderedInsert, hne, if_false, List.nil_append]
        rw [orderedInsert_front]
        intro y hy
        exact hx y (List.mem_of_mem_head? hy)
/-- The test `isHighScore` through the last entry of the leaderboard. -/
theorem isHighScore_iff (lb : List LeaderboardEntry) (score : Nat) :
    isHighScore lb score = true ↔
      lb.length < 10 ∨ ∃ last, lb.getLast? = some last ∧ last.score < score := by
  simp only [isHighScore, GameConfig.MAX_LEADERBOARD, ← List.getLast?_eq_getElem?,
    Bool.or_eq_true, decide_eq_true_eq]
  cases h : lb.getLast? with
  | none => simp
  | some last => simp

/-- On a split of a leaderboard of at most 10 entries into the entries with at
least the pushed score and those below it, the test `isHighScore` says
whether fewer than 10 entries stand in the first part. -/
theorem isHighScore_split (e : LeaderboardEntry) (hi lo : List LeaderboardEntry)
    (hhi : ∀ x ∈ hi, e.score ≤ x.score) (hlo : ∀ x ∈ lo, x.score < e.score)
    (hl : (hi ++ lo).length ≤ 10) :
    isHighScore (hi ++ lo) e.score = true ↔ hi.length < 10 := by
  rw [isHighScore_iff]
  rw [List.length_append] at hl ⊢
  constructor
  · rintro (h | ⟨last, hlast, hlt⟩)
    · omega
    · by_contra hfull
      have hlo0 : lo = [] := List.length_eq_zero.1 (by omega)
      subst hlo0
      rw [List.append_nil] at hlast
      have := hhi last (List.mem_of_getLast?_eq_some hlast)
      omega
  · intro h
    by_cases hlen : hi.length + lo.length < 10
    · exact Or.inl hlen
    · right
      have hne : lo ≠ [] := by
        intro h0
        rw [h0] at hlen
        simp at hlen
        omega
      obtain ⟨last, hlast⟩ : ∃ last, lo.getLast? = some last := by
        cases hq : lo.getLast? with
        | none => exact absurd (List.getLast?_eq_none_iff.1 hq) hne
        | some last => exact ⟨last, rfl⟩
      refine ⟨last, ?_, hlo last (List.mem_of_getLast?_eq_some hlast)⟩
      rw [List.getLast?_append, hlast]
      rfl

/-- What `submitScore` makes of a sorted leaderboard of at most 10 entries. -/
theorem submitEntry_split (e : LeaderboardEntry) (lb : List LeaderboardEntry)
    (hs : lb.Pairwise (fun a b => a.score ≥ b.score)) (hl : lb.length ≤ 10) :
    ∃ hi lo : List LeaderboardEntry, lb = hi ++ lo ∧ (∀ x ∈ hi, e.score ≤ x.score) ∧
      (∀ x ∈ lo, x.score < e.score) ∧
      (lb ++ [e]).insertionSort scoreOrder = hi ++ e :: lo ∧
      (isHighScore lb e.score = true ↔ hi.length < 10) ∧
      (isHighScore lb e.score = true →
        submitEntry lb e = hi ++ e :: lo.take (9 - hi.length)) ∧
      (isHighScore lb e.score = false → submitEntry lb e = lb) := by
  obtain ⟨hi, lo, hlb, hhi, hlo, hsort⟩ := insertionSort_push e lb hs
  subst hlb
  have hiff := isHighScore_split e hi lo hhi hlo hl
  refine ⟨hi, lo, rfl, hhi, hlo, hsort, hiff, ?_, ?_⟩
  · intro h
    have h9 := hiff.1 h
    simp only [submitEntry, hsort, GameConfig.MAX_LEADERBOARD]
    rw [List.take_append_eq_append_take, List.take_of_length_le (by omega)]
    have h10 : 10 - hi.length = (9 - hi.length) + 1 := by omega
    rw [h10, List.take_succ_cons]
  · intro h
    have h9 : ¬ hi.length < 10 := fun hlt => by
      rw [hiff.2 hlt] at h
      exact absurd h (by decide)
    rw [List.length_append] at hl
    have hlo0 : lo = [] := List.length_eq_zero.1 (by omega)
    subst hlo0
    rw [List.append_nil] at hsort ⊢
    simp only [submitEntry, hsort, GameConfig.MAX_LEADERBOARD]
    have hlen : hi.length = 10 := by
      simp only [List.length_nil, Nat.add_zero] at hl
      omega
    exact List.take_left' hlen
/-! ## Rounding to the nearest double -/

namespace Binary64

/-- The nearest integer is the floor or the floor plus one. -/
theorem roundHalfEven_cases (q : ℚ) : roundHalfEven q = ⌊q⌋ ∨ roundHalfEven q = ⌊q⌋ + 1 := by
  unfold roundHalfEven
  split_ifs <;> simp

/-- An integer is its own nearest integer. -/
theorem roundHalfEven_intCast (n : Int) : roundHalfEven (n : ℚ) = n := by
  simp [roundHalfEven]

/-- The nearest integer is within `1/2`. -/
theorem roundHalfEven_near (q : ℚ) :
    q - 1 / 2 ≤ roundHalfEven q ∧ (roundHalfEven q : ℚ) ≤ q + 1 / 2 := by
  have h1 := Int.floor_le q
  have h2 := Int.lt_floor_add_one q
  unfold roundHalfEven
  split_ifs with a b c
  · constructor <;> linarith
  · push_cast
    constructor <;> linarith
  · constructor <;> linarith
  · push_cast
    constructor <;> linarith

/-- Rounding to the nearest integer is monotone. -/
theorem roundHalfEven_mono {p q : ℚ} (h : p ≤ q) : roundHalfEven p ≤ roundHalfEven q := by
  have hfl : ⌊p⌋ ≤ ⌊q⌋ := Int.floor_mono h
  rcases hfl.lt_or_eq with hlt | heq
  · have h1 : roundHalfEven p ≤ ⌊p⌋ + 1 := by
      rcases roundHalfEven_cases p with e | e <;> omega
    have h2 : ⌊q⌋ ≤ roundHalfEven q := by
      rcases roundHalfEven_cases q with e | e <;> omega
    omega
  · unfold roundHalfEven
    rw [← heq]
    have hpq : p - ⌊p⌋ ≤ q - ⌊p⌋ := by linarith
    split_ifs <;> first | omega | (exfalso; linarith)

/-- Rounding to the nearest integer commutes with negation. -/
theorem roundHalfEven_neg (q : ℚ) : roundHalfEven (-q) = -roundHalfEven q := by
  by_cases hq : (⌊q⌋ : ℚ) = q
  · rw [← hq, ← Int.cast_neg, roundHalfEven_intCast, roundHalfEven_intCast]
  · have hlt : (⌊q⌋ : ℚ) < q := lt_of_le_of_ne (Int.floor_le q) hq
    have h2 := Int.lt_floor_add_one q
    have hfl : ⌊-q⌋ = -⌊q⌋ - 1 := by
      rw [Int.floor_eq_iff]
      push_cast
      constructor <;> linarith
    unfold roundHalfEven
    rw [hfl]
    push_cast
    split_ifs <;> first | omega | (exfalso; linarith)

/-- The bounds the binary logarithm gives on a positive number. -/
theorem log_bounds {x : ℚ} (hx : 0 < x) :
    (2 : ℚ) ^ Int.log 2 x ≤ x ∧ x < (2 : ℚ) ^ (Int.log 2 x + 1) := by
  have h1 := Int.zpow_log_le_self (b := 2) (by norm_num) hx
  have h2 := Int.lt_zpow_succ_log_self (b := 2) (by norm_num) x
  simp only [Nat.cast_ofNat] at h1 h2
  exact ⟨h1, h2⟩

/-- A power of two below a positive number has an exponent below its logarithm. -/
theorem le_log_of_zpow_le {x : ℚ} {e : Int} (hx : 0 < x) (h : (2 : ℚ) ^ e ≤ x) :
    e ≤ Int.log 2 x := by
  have := (Int.zpow_le_iff_le_log (b := 2) (by norm_num) hx (x := e)).1
  simp only [Nat.cast_ofNat] at this
  exact this h

/-- A positive number below a power of two has a logarithm below the exponent. -/
theorem log_lt_of_lt_zpow {x : ℚ} {e : Int} (hx : 0 < x) (h : x < (2 : ℚ) ^ e) :
    Int.log 2 x < e := by
  have := (Int.lt_zpow_iff_log_lt (b := 2) (by norm_num) hx (x := e)).1
  simp only [Nat.cast_ofNat] at this
  exact this h

theorem two_zpow_pos (e : Int) : (0 : ℚ) < 2 ^ e := zpow_pos (by norm_num) e

theorem log2Fuel_spec : ∀ (fuel n : Nat), 1 ≤ n → n ≤ fuel →
    2 ^ log2Fuel fuel n ≤ n ∧ n < 2 ^ (log2Fuel fuel n + 1) := by
  intro fuel
  induction fuel with
  | zero =>
    intro n h1 h2
    omega
  | succ fuel ih =>
    intro n h1 h2
    simp only [log2Fuel]
    split_ifs with h
    · constructor <;> simp <;> omega
    · obtain ⟨i1, i2⟩ := ih (n / 2) (by omega) (by omega)
      rw [pow_succ, pow_succ]
      constructor <;> omega

/-- The leading binary digit of `n ≥ 1` stands at position `log2 n`. -/
theorem log2_spec {n : Nat} (h : 1 ≤ n) : 2 ^ log2 n ≤ n ∧ n < 2 ^ (log2 n + 1) :=
  log2Fuel_spec n n h (le_refl n)

/-- The number between two consecutive powers of two has the lower exponent as logarithm. -/
theorem log_eq_of_bounds {x : ℚ} {e : Int} (h1 : (2 : ℚ) ^ e ≤ x) (h2 : x < (2 : ℚ) ^ (e + 1)) :
    Int.log 2 x = e := by
  have hx : 0 < x := lt_of_lt_of_le (two_zpow_pos e) h1
  have a := le_log_of_zpow_le hx h1
  have b := log_lt_of_lt_zpow hx h2
  omega

/-- A fraction between the powers of two that the leading digits of its
numerator and denominator give. -/
theorem frac_bounds (p q a b : Nat) (x : ℚ) (hq : 0 < q) (hx : x * q = p)
    (p1 : 2 ^ a ≤ p) (p2 : p < 2 ^ (a + 1)) (q1 : 2 ^ b ≤ q) (q2 : q < 2 ^ (b + 1)) :
    (2 : ℚ) ^ ((a : Int) - b - 1) ≤ x ∧ x < (2 : ℚ) ^ ((a : Int) - b + 1) := by
  have hden : (0 : ℚ) < q := by exact_mod_cast hq
  have hp1 : (2 : ℚ) ^ a ≤ p := by exact_mod_cast p1
  have hp2 : (p : ℚ) < 2 ^ (a + 1) := by exact_mod_cast p2
  have hq1 : (2 : ℚ) ^ b ≤ q := by exact_mod_cast q1
  have hq2 : (q : ℚ) < 2 ^ (b + 1) := by exact_mod_cast q2
  have hxeq : x = (p : ℚ) / q := by
    rw [eq_div_iff hden.ne']
    exact hx
  constructor
  · rw [hxeq, le_div_iff₀ hden]
    have hz : (2 : ℚ) ^ ((a : Int) - b - 1) * 2 ^ (b + 1) = 2 ^ a := by
      rw [← zpow_natCast (2 : ℚ) (b + 1), ← zpow_add₀ (by norm_num), ← zpow_natCast (2 : ℚ) a]
      congr 1
      push_cast
      ring
    calc (2 : ℚ) ^ ((a : Int) - b - 1) * q
        ≤ 2 ^ ((a : Int) - b - 1) * 2 ^ (b + 1) :=
          mul_le_mul_of_nonneg_left hq2.le (two_zpow_pos _).le
      _ = 2 ^ a := hz
      _ ≤ p := hp1
  · rw [hxeq, div_lt_iff₀ hden]
    have hz : (2 : ℚ) ^ ((a : Int) - b + 1) * 2 ^ b = 2 ^ (a + 1) := by
      rw [← zpow_natCast (2 : ℚ) b, ← zpow_add₀ (by norm_num), ← zpow_natCast (2 : ℚ) (a + 1)]
      congr 1
      push_cast
      ring
    calc (p : ℚ) < 2 ^ (a + 1) := hp2
      _ = 2 ^ ((a : Int) - b + 1) * 2 ^ b := hz.symm
      _ ≤ 2 ^ ((a : Int) - b + 1) * q := mul_le_mul_of_nonneg_left hq1 (two_zpow_pos _).le

/-- The exponent computed from numerator and denominator is the binary logarithm. -/
theorem exponent_eq_log (x : ℚ) : exponent x = Int.log 2 x := by
  by_cases h0 : x ≤ 0
  · simp only [exponent, h0, if_true]
    exact (Int.log_of_right_le_zero 2 h0).symm
  · have hx : 0 < x := not_le.1 h0
    have hnum : 0 < x.num := Rat.num_pos.2 hx
    obtain ⟨p1, p2⟩ := log2_spec (n := x.num.toNat) (by omega)
    obtain ⟨q1, q2⟩ := log2_spec (n := x.den) x.den_pos
    have hmul : x * (x.den : ℚ) = (x.num.toNat : ℚ) := by
      have h := Rat.mul_den_eq_num x
      have hc : ((x.num.toNat : Int) : ℚ) = (x.num : ℚ) := by
        rw [Int.toNat_of_nonneg hnum.le]
      rw [h, ← hc]
      norm_cast
    obtain ⟨b1, b2⟩ := frac_bounds _ _ _ _ x x.den_pos hmul p1 p2 q1 q2
    simp only [exponent, h0, if_false]
    split_ifs with h1
    · exact (log_eq_of_bounds h1 b2).symm
    · symm
      apply log_eq_of_bounds b1
      have : (log2 x.num.toNat : Int) - (log2 x.den : Int) - 1 + 1 =
          (log2 x.num.toNat : Int) - (log2 x.den : Int) := by ring
      rw [this]
      exact not_le.1 h1

theorem ulpExp_eq (x : ℚ) : ulpExp x = max (Int.log 2 |x|) (-1022) - 52 := by
  unfold ulpExp
  rw [exponent_eq_log]

theorem ulpExp_neg (x : ℚ) : ulpExp (-x) = ulpExp x := by
  simp [ulpExp]

theorem ulpExp_ge (x : ℚ) : Int.log 2 |x| - 52 ≤ ulpExp x ∧ -1074 ≤ ulpExp x := by
  rw [ulpExp_eq]
  constructor
  · have := le_max_left (Int.log 2 |x|) (-1022)
    omega
  · have := le_max_right (Int.log 2 |x|) (-1022)
    omega

theorem round_zero : round 0 = 0 := by
  simp [round]

/-- The double nearest to `x` as a multiple of the spacing, zero included. -/
theorem round_def (x : ℚ) : round x = roundHalfEven (x / 2 ^ ulpExp x) * 2 ^ ulpExp x := by
  unfold round
  split_ifs with h
  · rw [h]
    simp [roundHalfEven]
  · rfl

/-- Rounding commutes with negation. -/
theorem round_neg (x : ℚ) : round (-x) = -round x := by
  simp only [round_def, ulpExp_neg, neg_div, roundHalfEven_neg, Int.cast_neg, neg_mul]

/-- A multiple of a power of two at or above the spacing of the doubles
around it is a double. -/
theorem round_eq_self_of_mul (x : ℚ) (k j : Int) (hj : ulpExp x ≤ j) (hx : x = k * 2 ^ j) :
    round x = x := by
  obtain ⟨d, hd⟩ := Int.eq_ofNat_of_zero_le (sub_nonneg.2 hj)
  have hq : x / 2 ^ ulpExp x = ((k * 2 ^ d : Int) : ℚ) := by
    have hjd : j = ulpExp x + d := by omega
    rw [div_eq_iff (two_zpow_pos _).ne']
    conv_lhs => rw [hx, hjd, zpow_add₀ (by norm_num), zpow_natCast]
    push_cast
    ring
  rw [round_def]
  rw [hq, roundHalfEven_intCast, ← hq, div_mul_cancel₀ _ (two_zpow_pos _).ne']

/-- A double of magnitude at least `2 ^ e` is a multiple of `2 ^ (e - 52)`. -/
theorem multiple_of_round_eq {x : ℚ} {e : Int} (hx : round x = x) (he : (2 : ℚ) ^ e ≤ |x|) :
    ∃ k : Int, x = k * 2 ^ (e - 52) := by
  have hpos : 0 < |x| := lt_of_lt_of_le (two_zpow_pos e) he
  have h1 := le_log_of_zpow_le hpos he
  have h2 := (ulpExp_ge x).1
  obtain ⟨d, hd⟩ := Int.eq_ofNat_of_zero_le (show 0 ≤ ulpExp x - (e - 52) by omega)
  have hz : (2 : ℚ) ^ ulpExp x = 2 ^ (e - 52) * 2 ^ d := by
    have hjd : ulpExp x = (e - 52) + d := by omega
    rw [hjd, zpow_add₀ (by norm_num), zpow_natCast]
  have hr : (roundHalfEven (x / 2 ^ ulpExp x) : ℚ) * 2 ^ ulpExp x = x := by
    rw [← round_def]
    exact hx
  generalize roundHalfEven (x / 2 ^ ulpExp x) = R at hr
  refine ⟨R * 2 ^ d, ?_⟩
  rw [← hr, hz]
  push_cast
  ring

/-- The scaled value of a positive number lies below `2 ^ 53`, and at or above
`2 ^ 52` unless the number is subnormal. -/
theorem scaled_bounds {x : ℚ} (hx : 0 < x) :
    x / 2 ^ ulpExp x < 2 ^ 53 ∧ (-1022 ≤ Int.log 2 x → 2 ^ 52 ≤ x / 2 ^ ulpExp x) := by
  obtain ⟨h1, h2⟩ := log_bounds hx
  have habs : |x| = x := abs_of_pos hx
  constructor
  · rw [div_lt_iff₀ (two_zpow_pos _)]
    have h3 : (2 : ℚ) ^ (Int.log 2 x + 1) ≤ 2 ^ 53 * 2 ^ ulpExp x := by
      have : (2 : ℚ) ^ (53 : ℕ) * 2 ^ ulpExp x = 2 ^ (ulpExp x + 53) := by
        rw [zpow_add₀ (by norm_num)]
        norm_num
        ring
      rw [this]
      apply zpow_le_zpow_right₀ (by norm_num)
      have := (ulpExp_ge x).1
      rw [habs] at this
      omega
    exact lt_of_lt_of_le h2 h3
  · intro hl
    rw [le_div_iff₀ (two_zpow_pos _)]
    have hu : ulpExp x = Int.log 2 x - 52 := by
      rw [ulpExp_eq, habs, max_eq_left hl]
    have : (2 : ℚ) ^ (52 : ℕ) * 2 ^ ulpExp x = 2 ^ Int.log 2 x := by
      rw [hu, zpow_sub₀ (by norm_num)]
      norm_num
      field_simp
    rw [this]
    exact h1

/-- The double nearest to a positive number is not negative, at most the next
power of two, and at least the power of two below the number unless that is
subnormal. -/
theorem round_bounds {x : ℚ} (hx : 0 < x) :
    0 ≤ round x ∧ round x ≤ 2 ^ (ulpExp x + 53) ∧
    (-1022 ≤ Int.log 2 x → (2 : ℚ) ^ Int.log 2 x ≤ round x) := by
  obtain ⟨h1, h2⟩ := scaled_bounds hx
  have hu := two_zpow_pos (ulpExp x)
  have hq0 : 0 ≤ x / 2 ^ ulpExp x := (div_pos hx hu).le
  refine ⟨?_, ?_, ?_⟩
  · have h := roundHalfEven_mono (show ((0 : Int) : ℚ) ≤ x / 2 ^ ulpExp x by simpa using hq0)
    rw [roundHalfEven_intCast] at h
    rw [round_def]
    exact mul_nonneg (by exact_mod_cast h) hu.le
  · have h := roundHalfEven_mono (show x / 2 ^ ulpExp x ≤ ((2 ^ 53 : Int) : ℚ) by
      push_cast
      exact h1.le)
    rw [roundHalfEven_intCast] at h
    have h3 : (roundHalfEven (x / 2 ^ ulpExp x) : ℚ) ≤ 2 ^ 53 := by exact_mod_cast h
    rw [round_def]
    calc (roundHalfEven (x / 2 ^ ulpExp x) : ℚ) * 2 ^ ulpExp x
        ≤ 2 ^ 53 * 2 ^ ulpExp x := mul_le_mul_of_nonneg_right h3 hu.le
      _ = 2 ^ (ulpExp x + 53) := by
        rw [zpow_add₀ (by norm_num)]
        norm_num
        ring
  · intro hl
    have h := roundHalfEven_mono (show ((2 ^ 52 : Int) : ℚ) ≤ x / 2 ^ ulpExp x by
      push_cast
      exact h2 hl)
    rw [roundHalfEven_intCast] at h
    have h3 : (2 ^ 52 : ℚ) ≤ roundHalfEven (x / 2 ^ ulpExp x) := by exact_mod_cast h
    have hue : ulpExp x = Int.log 2 x - 52 := by
      rw [ulpExp_eq, abs_of_pos hx, max_eq_left hl]
    rw [round_def]
    calc (2 : ℚ) ^ Int.log 2 x = 2 ^ 52 * 2 ^ ulpExp x := by
          rw [hue, zpow_sub₀ (by norm_num)]
          norm_num
          field_simp
      _ ≤ roundHalfEven (x / 2 ^ ulpExp x) * 2 ^ ulpExp x := mul_le_mul_of_nonneg_right h3 hu.le

theorem round_nonneg {x : ℚ} (hx : 0 ≤ x) : 0 ≤ round x := by
  rcases hx.lt_or_eq with h | h
  · exact (round_bounds h).1
  · rw [← h, round_zero]

theorem round_nonpos {x : ℚ} (hx : x ≤ 0) : round x ≤ 0 := by
  have h := round_nonneg (neg_nonneg.2 hx)
  rw [round_neg] at h
  linarith

theorem round_mono_pos {x y : ℚ} (hx : 0 < x) (h : x ≤ y) : round x ≤ round y := by
  have hy : 0 < y := lt_of_lt_of_le hx h
  have hlog : Int.log 2 x ≤ Int.log 2 y := Int.log_mono_right hx h
  have hxa : |x| = x := abs_of_pos hx
  have hya : |y| = y := abs_of_pos hy
  have hle : ulpExp x ≤ ulpExp y := by
    rw [ulpExp_eq, ulpExp_eq, hxa, hya]
    have := max_le_max hlog (le_refl (-1022 : Int))
    omega
  rcases hle.lt_or_eq with hlt | heq
  · have hy1022 : -1022 ≤ Int.log 2 y ∧ ulpExp y = Int.log 2 y - 52 := by
      rw [ulpExp_eq, ulpExp_eq, hxa, hya] at hlt
      rw [ulpExp_eq, hya]
      have h1 := le_max_right (Int.log 2 x) (-1022)
      rcases max_cases (Int.log 2 y) (-1022) with ⟨e1, _⟩ | ⟨e1, _⟩
      · rw [e1] at hlt ⊢
        exact ⟨by omega, rfl⟩
      · rw [e1] at hlt
        omega
    have hlow := (round_bounds hy).2.2 hy1022.1
    have hup := (round_bounds hx).2.1
    have hpw : (2 : ℚ) ^ (ulpExp x + 53) ≤ 2 ^ Int.log 2 y :=
      zpow_le_zpow_right₀ (by norm_num) (by omega)
    linarith
  · rw [round_def, round_def, heq]
    have hu := two_zpow_pos (ulpExp y)
    have hq : x / 2 ^ ulpExp y ≤ y / 2 ^ ulpExp y := div_le_div_of_nonneg_right h hu.le
    have := roundHalfEven_mono hq
    exact mul_le_mul_of_nonneg_right (by exact_mod_cast this) hu.le

/-- Rounding to the nearest double is monotone. -/
theorem round_mono {x y : ℚ} (h : x ≤ y) : round x ≤ round y := by
  rcases lt_or_le 0 x with hx | hx
  · exact round_mono_pos hx h
  · rcases le_or_lt 0 y with hy | hy
    · exact le_trans (round_nonpos hx) (round_nonneg hy)
    · have := round_mono_pos (neg_pos.2 hy) (neg_le_neg h)
      rw [round_neg, round_neg] at this
      linarith

theorem ulpExp_le_of {r : ℚ} {p : Int} (hr : 0 < r) (hlog : Int.log 2 r - 52 ≤ p)
    (hp : -1074 ≤ p) : ulpExp r ≤ p := by
  rw [ulpExp_eq, abs_of_pos hr]
  have : max (Int.log 2 r) (-1022) ≤ p + 52 := max_le (by omega) (by omega)
  omega

/-- The result of rounding is a double: rounding it again changes nothing. -/
theorem round_round (x : ℚ) : round (round x) = round x := by
  have key : ∀ z : ℚ, 0 < z → round (round z) = round z := by
    intro z hz
    obtain ⟨h0, hup, _⟩ := round_bounds hz
    rcases h0.lt_or_eq with hpos | hzero
    · rcases hup.lt_or_eq with hlt | heq
      · apply round_eq_self_of_mul (round z) (roundHalfEven (z / 2 ^ ulpExp z)) (ulpExp z) _
          (round_def z)
        have hl := log_lt_of_lt_zpow hpos hlt
        have h1074 := (ulpExp_ge z).2
        exact ulpExp_le_of hpos (by omega) h1074
      · apply round_eq_self_of_mul (round z) (2 ^ 52) (ulpExp z + 1)
        · have hl : Int.log 2 (round z) = ulpExp z + 53 := by
            rw [heq]
            have := Int.log_zpow (R := ℚ) (b := 2) (by norm_num) (ulpExp z + 53)
            simpa using this
          have h1074 := (ulpExp_ge z).2
          exact ulpExp_le_of hpos (by omega) (by omega)
        · rw [heq]
          have : ulpExp z + 53 = (ulpExp z + 1) + 52 := by ring
          rw [this, zpow_add₀ (by norm_num)]
          norm_num
          ring
    · rw [← hzero, round_zero]
  rcases lt_trichotomy 0 x with hx | hx | hx
  · exact key x hx
  · rw [← hx, round_zero, round_zero]
  · have := key (-x) (neg_pos.2 hx)
    rw [round_neg, round_neg] at this
    linarith

/-! ## The square root in double arithmetic -/

theorem isqrtAux_spec (n : Nat) : ∀ (k r : Nat), r * r ≤ n → n < (r + 2 ^ k) * (r + 2 ^ k) →
    isqrtAux n k r * isqrtAux n k r ≤ n ∧ n < (isqrtAux n k r + 1) * (isqrtAux n k r + 1) := by
  intro k
  induction k with
  | zero =>
    intro r h1 h2
    exact ⟨h1, by simpa using h2⟩
  | succ k ih =>
    intro r h1 h2
    simp only [isqrtAux]
    split_ifs with hc
    · apply ih _ hc
      have : r + 2 ^ k + 2 ^ k = r + 2 ^ (k + 1) := by ring
      rw [this]
      exact h2
    · exact ih _ h1 (not_le.1 hc)

/-- The integer square root of a number below `2 ^ 108`. -/
theorem isqrt_spec {n : Nat} (h : n < 2 ^ 108) :
    isqrt n * isqrt n ≤ n ∧ n < (isqrt n + 1) * (isqrt n + 1) := by
  apply isqrtAux_spec n 54 0 (Nat.zero_le _)
  calc n < 2 ^ 108 := h
    _ = (0 + 2 ^ 54) * (0 + 2 ^ 54) := by norm_num

/-- The shape of the result of `sqrt` on a positive number: a multiple `m` of
the spacing `2 ^ (e - 52)`, with `m` one of the two integers around the scaled
root. -/
theorem sqrt_form {y : ℚ} (hy : 0 < y) :
    ∃ (e : Int) (n m : Nat),
      (2 : ℚ) ^ (2 * e) ≤ y ∧ sqrt y = m * 2 ^ (e - 52) ∧ (m = n ∨ m = n + 1) ∧
      (n : ℚ) ^ 2 * (2 ^ (e - 52)) ^ 2 ≤ y ∧ y < ((n : ℚ) + 1) ^ 2 * (2 ^ (e - 52)) ^ 2 ∧
      (y ≤ (n : ℚ) ^ 2 * (2 ^ (e - 52)) ^ 2 → m = n) ∧ 2 ^ 52 ≤ n ∧ n + 1 ≤ 2 ^ 53 := by
  obtain ⟨h1, h2⟩ := log_bounds hy
  set e : Int := Int.log 2 y / 2 with he
  have hl1 : 2 * e ≤ Int.log 2 y := by omega
  have hl2 : Int.log 2 y + 1 ≤ 2 * e + 2 := by omega
  have hlow : (2 : ℚ) ^ (2 * e) ≤ y := le_trans (zpow_le_zpow_right₀ (by norm_num) hl1) h1
  have hhigh : y < (2 : ℚ) ^ (2 * e + 2) :=
    lt_of_lt_of_le h2 (zpow_le_zpow_right₀ (by norm_num) hl2)
  have hu : (0 : ℚ) < 2 ^ (e - 52) := two_zpow_pos _
  have huu : (2 : ℚ) ^ (e - 52) * 2 ^ (e - 52) = 2 ^ (2 * e - 104) := by
    rw [← zpow_add₀ (by norm_num)]
    congr 1
    ring
  have huu_pos : (0 : ℚ) < 2 ^ (e - 52) * 2 ^ (e - 52) := mul_pos hu hu
  set t : ℚ := y / (2 ^ (e - 52) * 2 ^ (e - 52)) with ht
  have ht_low : (2 : ℚ) ^ 104 ≤ t := by
    rw [ht, le_div_iff₀ huu_pos, huu]
    have : (2 : ℚ) ^ (104 : ℕ) * 2 ^ (2 * e - 104) = 2 ^ (2 * e) := by
      rw [zpow_sub₀ (by norm_num)]
      norm_num
      field_simp
    rw [this]
    exact hlow
  have ht_high : t < (2 : ℚ) ^ 106 := by
    rw [ht, div_lt_iff₀ huu_pos, huu]
    have : (2 : ℚ) ^ (106 : ℕ) * 2 ^ (2 * e - 104) = 2 ^ (2 * e + 2) := by
      have h3 : 2 * e + 2 = (2 * e - 104) + 106 := by ring
      rw [h3, zpow_add₀ (by norm_num)]
      norm_num
      ring
    rw [this]
    exact hhigh
  have ht0 : 0 ≤ t := le_trans (by positivity) ht_low
  have hfl : ⌊t⌋₊ < 2 ^ 108 := by
    rw [Nat.floor_lt ht0]
    have h108 : ((2 ^ 108 : ℕ) : ℚ) = 2 ^ 106 * 4 := by norm_num
    rw [h108]
    have : (0 : ℚ) < 2 ^ 106 := by positivity
    linarith
  have hsq : sqrt y = ((if t < ((isqrt ⌊t⌋₊ : ℚ) + 1 / 2) * (isqrt ⌊t⌋₊ + 1 / 2) then isqrt ⌊t⌋₊
      else if ((isqrt ⌊t⌋₊ : ℚ) + 1 / 2) * (isqrt ⌊t⌋₊ + 1 / 2) < t then isqrt ⌊t⌋₊ + 1
      else if isqrt ⌊t⌋₊ % 2 = 0 then isqrt ⌊t⌋₊ else isqrt ⌊t⌋₊ + 1 : Nat) : ℚ) *
        2 ^ (e - 52) := by
    unfold sqrt
    rw [if_neg (not_le.2 hy), exponent_eq_log]
  obtain ⟨s1, s2⟩ := isqrt_spec hfl
  generalize isqrt ⌊t⌋₊ = n at hsq s1 s2
  have hn1 : (n : ℚ) ^ 2 ≤ t := by
    have h3 : ((n * n : Nat) : ℚ) ≤ ((⌊t⌋₊ : Nat) : ℚ) := Nat.cast_le.2 s1
    have h4 := Nat.floor_le ht0
    rw [Nat.cast_mul] at h3
    rw [pow_two]
    exact le_trans h3 h4
  have hn2 : t < ((n : ℚ) + 1) ^ 2 := by
    have h3 : t < (((n + 1) * (n + 1) : Nat) : ℚ) := (Nat.floor_lt ht0).1 s2
    rw [Nat.cast_mul, Nat.cast_add, Nat.cast_one] at h3
    rw [pow_two]
    exact h3
  have hn52 : 2 ^ 52 ≤ n := by
    have h5 : ((2 ^ 52 : ℕ) : ℚ) ^ 2 < (((n + 1 : ℕ)) : ℚ) ^ 2 := by
      have h104 : ((2 ^ 52 : ℕ) : ℚ) ^ 2 = 2 ^ 104 := by norm_num
      rw [h104, Nat.cast_add, Nat.cast_one]
      exact lt_of_le_of_lt ht_low hn2
    have h6 := lt_of_pow_lt_pow_left₀ 2 (Nat.cast_nonneg _) h5
    have h7 : 2 ^ 52 < n + 1 := Nat.cast_lt.1 h6
    exact Nat.lt_succ_iff.1 h7
  have hn53 : n + 1 ≤ 2 ^ 53 := by
    have h5 : (n : ℚ) ^ 2 < ((2 ^ 53 : ℕ) : ℚ) ^ 2 := by
      have h106 : ((2 ^ 53 : ℕ) : ℚ) ^ 2 = 2 ^ 106 := by norm_num
      rw [h106]
      exact lt_of_le_of_lt hn1 ht_high
    have h6 := lt_of_pow_lt_pow_left₀ 2 (Nat.cast_nonneg _) h5
    exact Nat.cast_lt.1 h6
  have hty : ∀ c : ℚ, (c * (2 ^ (e - 52)) ^ 2 ≤ y ↔ c ≤ t) ∧
      (y < c * (2 ^ (e - 52)) ^ 2 ↔ t < c) ∧ (y ≤ c * (2 ^ (e - 52)) ^ 2 ↔ t ≤ c) := by
    intro c
    rw [ht, pow_two, le_div_iff₀ huu_pos, div_lt_iff₀ huu_pos, div_le_iff₀ huu_pos]
    exact ⟨Iff.rfl, Iff.rfl, Iff.rfl⟩
  refine ⟨e, n, _, hlow, hsq, ?_, (hty _).1.2 hn1, (hty _).2.1.2 hn2, ?_, hn52, hn53⟩
  · split_ifs <;> simp
  · intro hle
    have hle2 : t ≤ (n : ℚ) ^ 2 := (hty _).2.2.1 hle
    have hmid : t < ((n : ℚ) + 1 / 2) * (n + 1 / 2) := by
      have h0 : (0 : ℚ) ≤ n := Nat.cast_nonneg n
      have h8 : ((n : ℚ) + 1 / 2) * (n + 1 / 2) = (n : ℚ) ^ 2 + n + 1 / 4 := by ring
      rw [h8]
      linarith
    rw [if_pos hmid]

theorem sqrt_of_nonpos {y : ℚ} (hy : y ≤ 0) : sqrt y = 0 := by
  unfold sqrt
  rw [if_pos hy]

/-- A double at or below the exact root is at or below the computed root. -/
theorem le_sqrt {y s : ℚ} (hs0 : 0 ≤ s) (hs : round s = s) (h : s ^ 2 ≤ y) : s ≤ sqrt y := by
  rcases le_or_lt y 0 with hy | hy
  · have : s ^ 2 ≤ 0 := le_trans h hy
    have hs2 : s = 0 := by
      have := sq_nonneg s
      exact pow_eq_zero_iff (n := 2) (by norm_num) |>.1 (le_antisymm ‹s ^ 2 ≤ 0› this)
    rw [hs2, sqrt_of_nonpos hy]
  · obtain ⟨e, n, m, _, hsq, hm, _, hup, _, hn52, _⟩ := sqrt_form hy
    have hu : (0 : ℚ) < 2 ^ (e - 52) := two_zpow_pos _
    have hnm : (n : ℚ) ≤ m := by
      rcases hm with rfl | rfl
      · exact le_refl _
      · push_cast
        linarith
    rw [hsq]
    by_cases hse : (2 : ℚ) ^ e ≤ s
    · obtain ⟨k, hk⟩ := multiple_of_round_eq hs (by rwa [abs_of_nonneg hs0])
      have hlt : ((k : ℚ)) ^ 2 < ((n : ℚ) + 1) ^ 2 := by
        have h1 : (k : ℚ) ^ 2 * (2 ^ (e - 52)) ^ 2 < ((n : ℚ) + 1) ^ 2 * (2 ^ (e - 52)) ^ 2 := by
          have : (k : ℚ) ^ 2 * (2 ^ (e - 52)) ^ 2 = s ^ 2 := by
            rw [hk]
            ring
          rw [this]
          exact lt_of_le_of_lt h hup
        exact lt_of_mul_lt_mul_right h1 (sq_nonneg _)
      have hk1 : (k : ℚ) < (n : ℚ) + 1 :=
        lt_of_pow_lt_pow_left₀ 2 (by positivity) hlt
      have hk2 : k < (n : Int) + 1 := by exact_mod_cast hk1
      have hk3 : (k : ℚ) ≤ n := by
        have : k ≤ (n : Int) := by omega
        exact_mod_cast this
      rw [hk]
      exact mul_le_mul_of_nonneg_right (le_trans hk3 hnm) hu.le
    · have h52 : ((2 ^ 52 : ℕ) : ℚ) ≤ n := Nat.cast_le.2 hn52
      have h52b : ((2 ^ 52 : ℕ) : ℚ) = 2 ^ 52 := by norm_num
      rw [h52b] at h52
      have hpw : (2 : ℚ) ^ e = 2 ^ 52 * 2 ^ (e - 52) := by
        rw [zpow_sub₀ (by norm_num)]
        norm_num
        field_simp
      have : (2 : ℚ) ^ e ≤ m * 2 ^ (e - 52) := by
        rw [hpw]
        exact mul_le_mul_of_nonneg_right (le_trans h52 hnm) hu.le
      linarith [not_le.1 hse]

/-- A double at or above the exact root is at or above the computed root. -/
theorem sqrt_le {y s : ℚ} (hs0 : 0 ≤ s) (hs : round s = s) (h : y ≤ s ^ 2) : sqrt y ≤ s := by
  rcases le_or_lt y 0 with hy | hy
  · rw [sqrt_of_nonpos hy]
    exact hs0
  · obtain ⟨e, n, m, hlow, hsq, hm, hn1, _, heq, _, hn53⟩ := sqrt_form hy
    have hu : (0 : ℚ) < 2 ^ (e - 52) := two_zpow_pos _
    have hmn : (m : ℚ) ≤ (n : ℚ) + 1 := by
      rcases hm with rfl | rfl
      · linarith
      · push_cast
        exact le_refl _
    rw [hsq]
    by_cases hse : (2 : ℚ) ^ (e + 1) ≤ s
    · have h53 : ((n + 1 : ℕ) : ℚ) ≤ ((2 ^ 53 : ℕ) : ℚ) := Nat.cast_le.2 hn53
      have h53b : ((2 ^ 53 : ℕ) : ℚ) = 2 ^ 53 := by norm_num
      rw [h53b, Nat.cast_add, Nat.cast_one] at h53
      have hpw : (2 : ℚ) ^ (e + 1) = 2 ^ 53 * 2 ^ (e - 52) := by
        have : e + 1 = (e - 52) + 53 := by ring
        rw [this, zpow_add₀ (by norm_num)]
        norm_num
        ring
      have : (m : ℚ) * 2 ^ (e - 52) ≤ 2 ^ (e + 1) := by
        rw [hpw]
        exact mul_le_mul_of_nonneg_right (le_trans hmn h53) hu.le
      linarith
    · have hse2 : (2 : ℚ) ^ e ≤ s := by
        have h2e : ((2 : ℚ) ^ e) ^ 2 = 2 ^ (2 * e) := by
          rw [← zpow_natCast, ← zpow_mul]
          congr 1
          ring
        have : ((2 : ℚ) ^ e) ^ 2 ≤ s ^ 2 := by
          rw [h2e]
          exact le_trans hlow h
        exact le_of_pow_le_pow_left₀ (by norm_num) hs0 this
      obtain ⟨k, hk⟩ := multiple_of_round_eq hs (by rwa [abs_of_nonneg hs0])
      have hk0 : (0 : ℚ) ≤ k := by
        by_contra hneg
        have : (k : ℚ) * 2 ^ (e - 52) < 0 := mul_neg_of_neg_of_pos (not_le.1 hneg) hu
        rw [← hk] at this
        linarith
      have hle : (n : ℚ) ^ 2 ≤ (k : ℚ) ^ 2 := by
        have h1 : (n : ℚ) ^ 2 * (2 ^ (e - 52)) ^ 2 ≤ (k : ℚ) ^ 2 * (2 ^ (e - 52)) ^ 2 := by
          have : (k : ℚ) ^ 2 * (2 ^ (e - 52)) ^ 2 = s ^ 2 := by
            rw [hk]
            ring
          rw [this]
          exact le_trans hn1 h
        exact le_of_mul_le_mul_right h1 (by positivity)
      have hnk : (n : ℚ) ≤ k := le_of_pow_le_pow_left₀ (by norm_num) hk0 hle
      rcases hnk.lt_or_eq with hlt | heq2
      · have h3 : (n : Int) < k := by exact_mod_cast hlt
        have h4 : (n : ℚ) + 1 ≤ k := by
          have : (n : Int) + 1 ≤ k := by omega
          exact_mod_cast this
        rw [hk]
        exact mul_le_mul_of_nonneg_right (le_trans hmn h4) hu.le
      · have hy2 : y ≤ (n : ℚ) ^ 2 * (2 ^ (e - 52)) ^ 2 := by
          have : (n : ℚ) ^ 2 * (2 ^ (e - 52)) ^ 2 = s ^ 2 := by
            rw [hk, heq2]
            ring
          rw [this]
          exact h
        rw [heq hy2, hk, heq2]

theorem sub_comm_neg (a b : ℚ) : sub b a = -sub a b := by
  unfold sub
  rw [← round_neg]
  congr 1
  ring

theorem mul_neg_neg (a : ℚ) : mul (-a) (-a) = mul a a := by
  unfold mul
  congr 1
  ring

theorem add_nonneg_of {a b : ℚ} (ha : 0 ≤ a) (hb : 0 ≤ b) : 0 ≤ add a b :=
  round_nonneg (by linarith)

end Binary64
/-! ## The collision test in double arithmetic -/

theorem checkCollisionD_iff (a b : Body) :
    checkCollisionD a b = true ↔
      Binary64.sqrt (squaredDistanceD a b) < Binary64.add a.size b.size := by
  simp [checkCollisionD, squaredDistanceD]

theorem squaredDistanceD_comm (a b : Body) : squaredDistanceD a b = squaredDistanceD b a := by
  unfold squaredDistanceD
  rw [Binary64.sub_comm_neg a.x b.x, Binary64.sub_comm_neg a.y b.y, Binary64.mul_neg_neg,
    Binary64.mul_neg_neg]

theorem checkCollisionD_comm (a b : Body) : checkCollisionD a b = checkCollisionD b a := by
  have h1 := checkCollisionD_iff a b
  have h2 := checkCollisionD_iff b a
  rw [squaredDistanceD_comm b a, show Binary64.add b.size a.size = Binary64.add a.size b.size by
    unfold Binary64.add
    rw [add_comm]] at h2
  rw [Bool.eq_iff_iff, h1, h2]

/-- The computed test against the exact comparison of the computed squared
distance with the square of the computed sum of the sizes. -/
theorem checkCollisionD_sq (a b : Body) (ha : 0 ≤ a.size) (hb : 0 ≤ b.size) :
    (checkCollisionD a b = true → squaredDistanceD a b < (Binary64.add a.size b.size) ^ 2) ∧
    (squaredDistanceD a b < (Binary64.add a.size b.size) ^ 2 →
      checkCollisionD a b = true ∨
        Binary64.sqrt (squaredDistanceD a b) = Binary64.add a.size b.size) ∧
    ((Binary64.add a.size b.size) ^ 2 ≤ squaredDistanceD a b → checkCollisionD a b = false) := by
  have hs0 : 0 ≤ Binary64.add a.size b.size := Binary64.add_nonneg_of ha hb
  have hs : Binary64.round (Binary64.add a.size b.size) = Binary64.add a.size b.size :=
    Binary64.round_round _
  have hge : (Binary64.add a.size b.size) ^ 2 ≤ squaredDistanceD a b →
      checkCollisionD a b = false := by
    intro h
    have h1 := Binary64.le_sqrt hs0 hs h
    rw [← Bool.not_eq_true, checkCollisionD_iff]
    exact not_lt.2 h1
  refine ⟨?_, ?_, hge⟩
  · intro h
    by_contra hn
    rw [hge (not_lt.1 hn)] at h
    exact absurd h (by decide)
  · intro h
    have h1 := Binary64.sqrt_le hs0 hs h.le
    rcases h1.lt_or_eq with h2 | h2
    · exact Or.inl ((checkCollisionD_iff a b).2 h2)
    · exact Or.inr h2
/-! ## The asteroid factory in double arithmetic -/

namespace Binary64

/-- Some small numbers that are doubles. -/
theorem round_consts :
    round 1 = 1 ∧ round 3 = 3 ∧ round 4 = 4 ∧ round 15 = 15 ∧ round 20 = 20 ∧ round 35 = 35 ∧
    round (3 / 2) = 3 / 2 := by
  decide!

/-- Multiplying a double by 4 does not round. -/
theorem round_mul_four {x : ℚ} (hx : round x = x) : round (x * 4) = x * 4 := by
  rcases eq_or_ne x 0 with h0 | h0
  · rw [h0, zero_mul, round_zero]
  · have habs : 0 < |x| := abs_pos.2 h0
    obtain ⟨b1, b2⟩ := log_bounds habs
    have hlog : Int.log 2 |x * 4| = Int.log 2 |x| + 2 := by
      apply log_eq_of_bounds
      · rw [abs_mul, zpow_add₀ (by norm_num)]
        have : |(4 : ℚ)| = 2 ^ (2 : Int) := by norm_num
        rw [this]
        exact mul_le_mul_of_nonneg_right b1 (by positivity)
      · rw [abs_mul]
        have h4 : |(4 : ℚ)| = 2 ^ (2 : Int) := by norm_num
        have : (2 : ℚ) ^ (Int.log 2 |x| + 2 + 1) = 2 ^ (Int.log 2 |x| + 1) * 2 ^ (2 : Int) := by
          rw [← zpow_add₀ (by norm_num)]
          congr 1
          ring
        rw [h4, this]
        exact mul_lt_mul_of_pos_right b2 (by positivity)
    apply round_eq_self_of_mul (x * 4) (roundHalfEven (x / 2 ^ ulpExp x)) (ulpExp x + 2)
    · rw [ulpExp_eq, ulpExp_eq, hlog]
      have := max_le_max (le_refl (Int.log 2 |x|)) (le_refl (-1022 : Int))
      rcases max_cases (Int.log 2 |x| + 2) (-1022) with ⟨e1, _⟩ | ⟨e1, _⟩ <;>
        rcases max_cases (Int.log 2 |x|) (-1022) with ⟨e2, _⟩ | ⟨e2, _⟩ <;>
        rw [e1, e2] <;> omega
    · have hr := round_def x
      rw [hx] at hr
      rw [zpow_add₀ (by norm_num)]
      have : (2 : ℚ) ^ (2 : Int) = 4 := by norm_num
      rw [this, ← mul_assoc, ← hr]

end Binary64

/-- The index drawn for a choice among four is below 4 when the draw is a double. -/
theorem floorIndexD_lt (u : Unit01) (hu : Binary64.round u.val = u.val) :
    floorIndexD u.val 4 < 4 := by
  unfold floorIndexD Binary64.mul
  have h4 : ((4 : Nat) : ℚ) = 4 := by norm_num
  rw [h4, Binary64.round_mul_four hu]
  have h1 : u.val * 4 < 4 := by linarith [u.lt_one]
  have h2 : ⌊u.val * 4⌋ < 4 := by
    rw [Int.floor_lt]
    exact_mod_cast h1
  omega

/-- The base size lies in `[15, 35]`. -/
theorem baseSizeD_range (r : Rng) : 15 ≤ baseSizeD r ∧ baseSizeD r ≤ 35 := by
  obtain ⟨_, _, _, c15, c20, c35, _⟩ := Binary64.round_consts
  have h := random_range r 5
  have m0 : 0 ≤ Binary64.mul (r.random 5) 20 := Binary64.round_nonneg (by linarith)
  have m20 : Binary64.mul (r.random 5) 20 ≤ 20 := by
    have := Binary64.round_mono (show r.random 5 * 20 ≤ 20 by linarith)
    rwa [c20] at this
  unfold baseSizeD Binary64.add
  constructor
  · have := Binary64.round_mono (show (15 : ℚ) ≤ Binary64.mul (r.random 5) 20 + 15 by linarith)
    rwa [c15] at this
  · have := Binary64.round_mono (show Binary64.mul (r.random 5) 20 + 15 ≤ 35 by linarith)
    rwa [c35] at this

/-- The speed `Math.random() * 3 + 1` is at least 1, and so is 1.5 times a
speed of at least 1. -/
theorem inward_speed (u : Unit01) :
    1 ≤ Binary64.add (Binary64.mul u.val 3) 1 ∧
    ∀ v : ℚ, 1 ≤ v → 1 ≤ Binary64.mul v (3 / 2) ∧ Binary64.mul (-v) (3 / 2) ≤ -1 := by
  obtain ⟨c1, _, _, _, _, _, c32⟩ := Binary64.round_consts
  constructor
  · have m0 : 0 ≤ Binary64.mul u.val 3 := Binary64.round_nonneg (by linarith [u.nonneg])
    have := Binary64.round_mono (show (1 : ℚ) ≤ Binary64.mul u.val 3 + 1 by linarith)
    unfold Binary64.add
    rwa [c1] at this
  · intro v hv
    have h := Binary64.round_mono (show (3 / 2 : ℚ) ≤ v * (3 / 2) by linarith)
    rw [c32] at h
    constructor
    · unfold Binary64.mul
      linarith
    · unfold Binary64.mul
      rw [neg_mul, Binary64.round_neg]
      linarith
/-! ## Asteroid-hit scoring -/

/-- C1: resolving an asteroid hit from combo `c` sets combo to `c + 1`, adds
exactly `50 * min (c + 1) 5` to the score, sets `maxCombo` to the maximum
of its old value and `c + 1` and adds one to `destroyed`; for a new combo
of 1, 2, 5, 6, 7 the points awarded are 50, 100, 250, 250, 250. -/
theorem handleAsteroidHit_scoring (now : Int) (g : GameState) (a : Asteroid) (index : Nat)
    (hitX hitY : ℚ) (r : Rng) :
    (handleAsteroidHit now g a index hitX hitY r).1.combo = g.combo + 1 ∧
    (handleAsteroidHit now g a index hitX hitY r).1.score = g.score + 50 * min (g.combo + 1) 5 ∧
    (handleAsteroidHit now g a index hitX hitY r).1.maxCombo = max g.maxCombo (g.combo + 1) ∧
    (handleAsteroidHit now g a index hitX hitY r).1.destroyed = g.destroyed + 1 ∧
    (handleAsteroidHit now { g with combo := 0 } a index hitX hitY r).1.score = g.score + 50 ∧
    (handleAsteroidHit now { g with combo := 1 } a index hitX hitY r).1.score = g.score + 100 ∧
    (handleAsteroidHit now { g with combo := 4 } a index hitX hitY r).1.score = g.score + 250 ∧
    (handleAsteroidHit now { g with combo := 5 } a index hitX hitY r).1.score = g.score + 250 ∧
    (handleAsteroidHit now { g with combo := 6 } a index hitX hitY r).1.score = g.score + 250 := by
  refine ⟨handleAsteroidHit_combo now g a index hitX hitY r, ?_, ?_, ?_, ?_, ?_, ?_, ?_, ?_⟩
  · rw [handleAsteroidHit_score]
    by_cases h : g.combo + 1 > 1
    · rw [if_pos h]
    · rw [if_neg h]
      have h0 : g.combo = 0 := by omega
      simp [h0]
  · simp only [handleAsteroidHit, createSplitAsteroids]
    split_ifs <;> rfl
  · simp only [handleAsteroidHit, createSplitAsteroids]
    split_ifs <;> rfl
  all_goals (rw [handleAsteroidHit_score]; rfl)

/-! ## Player-hit resolution -/

/-- C2: resolving a player hit with the asteroid at `asteroidIndex` sets combo
to 0, takes exactly one life, removes exactly that asteroid (the others
stay, in order), appends exactly 10 particles coloured cyan at the position
of the player, and leaves score, destroyed, maxCombo, level and the player
as they were. -/
theorem handlePlayerHit_resolution (g : GameState) (a : Asteroid) (asteroidIndex : Nat) (r : Rng)
    (h : g.asteroids[asteroidIndex]? = some a) :
    (handlePlayerHit g a asteroidIndex r).1.combo = 0 ∧
    (handlePlayerHit g a asteroidIndex r).1.lives = g.lives - 1 ∧
    g.asteroids = g.asteroids.take asteroidIndex ++ a :: g.asteroids.drop (asteroidIndex + 1) ∧
    (handlePlayerHit g a asteroidIndex r).1.asteroids =
      g.asteroids.take asteroidIndex ++ g.asteroids.drop (asteroidIndex + 1) ∧
    (∃ ps : List Particle,
      (handlePlayerHit g a asteroidIndex r).1.particles = g.particles ++ ps ∧
      ps.length = 10 ∧
      ∀ p ∈ ps, p.color = "cyan" ∧ p.x = g.player.x ∧ p.y = g.player.y) ∧
    (handlePlayerHit g a asteroidIndex r).1.score = g.score ∧
    (handlePlayerHit g a asteroidIndex r).1.destroyed = g.destroyed ∧
    (handlePlayerHit g a asteroidIndex r).1.maxCombo = g.maxCombo ∧
    (handlePlayerHit g a asteroidIndex r).1.level = g.level ∧
    (handlePlayerHit g a asteroidIndex r).1.player = g.player := by
  have hlt : asteroidIndex < g.asteroids.length := by
    rcases List.getElem?_eq_some.1 h with ⟨hlt, _⟩
    exact hlt
  have hget : g.asteroids[asteroidIndex] = a := by
    rcases List.getElem?_eq_some.1 h with ⟨_, hget⟩
    exact hget
  have hsplit : g.asteroids =
      g.asteroids.take asteroidIndex ++ a :: g.asteroids.drop (asteroidIndex + 1) := by
    conv_lhs => rw [← List.take_append_drop asteroidIndex g.asteroids]
    rw [List.drop_eq_getElem_cons hlt, hget]
  have hparts : ∃ ps : List Particle,
      (handlePlayerHit g a asteroidIndex r).1.particles = g.particles ++ ps ∧
      ps.length = 10 ∧
      ∀ p ∈ ps, p.color = "cyan" ∧ p.x = g.player.x ∧ p.y = g.player.y := by
    refine ⟨(List.range 10).map fun j =>
      createParticle g.player.x g.player.y "cyan" none (r.drop (3 * j)), ?_, by simp, ?_⟩
    · simp only [handlePlayerHit, gameOver]
      split_ifs <;> rfl
    · intro p hp
      rcases List.mem_map.1 hp with ⟨j, _, rfl⟩
      simp [createParticle]
  refine ⟨?_, ?_, hsplit, ?_, hparts, ?_, ?_, ?_, ?_, ?_⟩
  all_goals simp only [handlePlayerHit, gameOver]
  all_goals split_ifs
  all_goals first
    | rfl
    | exact List.eraseIdx_eq_take_drop_succ g.asteroids asteroidIndex

/-- Witness for C2: the handler applied to a session whose only asteroid sits on
the player. -/
theorem handlePlayerHit_resolution_witness :
    Sample.lastLife.asteroids[0]? = some Sample.rock ∧
    (handlePlayerHit Sample.lastLife Sample.rock 0 Sample.rngZero).1.combo = 0 ∧
    (handlePlayerHit Sample.lastLife Sample.rock 0 Sample.rngZero).1.lives =
      Sample.lastLife.lives - 1 :=
  ⟨rfl, (handlePlayerHit_resolution Sample.lastLife Sample.rock 0 Sample.rngZero rfl).1,
    (handlePlayerHit_resolution Sample.lastLife Sample.rock 0 Sample.rngZero rfl).2.1⟩

/-! ## Splitting and removal -/

/-- C6: resolving a hit on the asteroid at `index` removes that asteroid,
whatever its health; when its type is splitting and its size exceeds 20,
exactly two asteroids are appended, each of size `0.6 * size`, of type
normal, at the position of the parent and with each velocity component within 2
of the parent; otherwise none is appended.  A hit on such a child
appends no asteroid. -/
theorem handleAsteroidHit_split (now : Int) (g : GameState) (a : Asteroid) (index : Nat)
    (hitX hitY : ℚ) (r : Rng) (h : g.asteroids[index]? = some a) :
    ∃ children : List Asteroid,
      g.asteroids = g.asteroids.take index ++ a :: g.asteroids.drop (index + 1) ∧
      (handleAsteroidHit now g a index hitX hitY r).1.asteroids =
        g.asteroids.take index ++ g.asteroids.drop (index + 1) ++ children ∧
      (a.type = AsteroidType.splitting ∧ a.size > 20 → children.length = 2) ∧
      (¬ (a.type = AsteroidType.splitting ∧ a.size > 20) → children = []) ∧
      ∀ c ∈ children,
        c.size = 6 / 10 * a.size ∧ c.type = AsteroidType.normal ∧
        |c.vx - a.vx| ≤ 2 ∧ |c.vy - a.vy| ≤ 2 ∧ c.x = a.x ∧ c.y = a.y ∧
        ∀ (now2 : Int) (g2 : GameState) (index2 : Nat) (hitX2 hitY2 : ℚ) (r2 : Rng),
          (handleAsteroidHit now2 g2 c index2 hitX2 hitY2 r2).1.asteroids =
            g2.asteroids.eraseIdx index2 := by
  have hlt : index < g.asteroids.length := (List.getElem?_eq_some.1 h).1
  have hget : g.asteroids[index] = a := (List.getElem?_eq_some.1 h).2
  have hsplit : g.asteroids = g.asteroids.take index ++ a :: g.asteroids.drop (index + 1) := by
    conv_lhs => rw [← List.take_append_drop index g.asteroids]
    rw [List.drop_eq_getElem_cons hlt, hget]
  refine ⟨if a.type = AsteroidType.splitting ∧ a.size > 20 then
      (createSplitAsteroids now { g with asteroids := [] } a
        (r.drop (3 * GameConfig.PARTICLE_COUNT))).asteroids
    else [], hsplit, ?_, ?_, ?_, ?_⟩
  · rw [handleAsteroidHit_asteroids, List.eraseIdx_append_of_lt_length hlt,
      List.eraseIdx_eq_take_drop_succ]
  · intro hc
    rw [if_pos hc]
    simp [createSplitAsteroids]
  · intro hc
    rw [if_neg hc]
  · intro c hc
    split_ifs at hc with hcond
    · simp only [createSplitAsteroids, List.nil_append, List.mem_map, List.mem_range] at hc
      rcases hc with ⟨i, _, rfl⟩
      refine ⟨by ring, rfl, ?_, ?_, rfl, rfl, ?_⟩
      · simpa [Rng.random] using jitter_abs_le (r.drop (3 * GameConfig.PARTICLE_COUNT) (3 * i))
      · simpa [Rng.random] using
          jitter_abs_le (r.drop (3 * GameConfig.PARTICLE_COUNT) (3 * i + 1))
      · intro now2 g2 index2 hitX2 hitY2 r2
        rw [handleAsteroidHit_asteroids]
        simp
    · simp at hc

/-- Witness for C6: a splitting asteroid of size 30 is replaced by two children. -/
theorem handleAsteroidHit_split_witness :
    Sample.withSplitter.asteroids[0]? = some Sample.splitter ∧
    ∃ children : List Asteroid,
      (handleAsteroidHit 0 Sample.withSplitter Sample.splitter 0 0 0 Sample.rngHalf).1.asteroids =
        Sample.withSplitter.asteroids.take 0 ++ Sample.withSplitter.asteroids.drop (0 + 1) ++
          children ∧
      children.length = 2 := by
  refine ⟨rfl, ?_⟩
  obtain ⟨children, _, h2, h3, _⟩ :=
    handleAsteroidHit_split 0 Sample.withSplitter Sample.splitter 0 0 0 Sample.rngHalf rfl
  exact ⟨children, h2, h3 ⟨rfl, by norm_num [Sample.splitter]⟩⟩

/-! ## Frozen ticks, pause and restart -/

/-- C8: when the session is over (`gameRunning = false`) or paused, one tick
leaves the whole simulation state unchanged, whatever the keys held in the
state and whatever the random draws; no draw is consumed either. -/
theorem gameLoop_frozen (canvas : Canvas) (now : Int) (g : GameState) (r : Rng)
    (h : g.gameRunning = false ∨ g.paused = true) :
    gameLoop canvas now (g, r) = (g, r) :=
  gameLoop_of_frozen canvas now g r h

/-- Witness for C8: a tick on a paused fresh session. -/
theorem gameLoop_frozen_witness :
    (Sample.pausedSession.gameRunning = false ∨ Sample.pausedSession.paused = true) ∧
    gameLoop Sample.canvas 0 (Sample.pausedSession, Sample.rngZero) =
      (Sample.pausedSession, Sample.rngZero) :=
  ⟨Or.inr rfl, gameLoop_frozen Sample.canvas 0 Sample.pausedSession Sample.rngZero (Or.inr rfl)⟩

/-- C9, as stated, fails: the session built by the constructor has not been
started (no frame is scheduled), yet `togglePause` changes its `paused` field. -/
theorem togglePause_not_started_counterexample :
    (Controller.new Sample.canvas).animationId = none ∧
    (Controller.new Sample.canvas).gameState.paused = false ∧
    (Controller.new Sample.canvas).togglePause.gameState.paused = true :=
  ⟨rfl, rfl, rfl⟩

/-- C9, amended: `togglePause` changes nothing when `gameRunning` is false;
whenever `gameRunning` is true (running, paused, and also the constructed
session whose loop has not started) it flips `paused`; in both cases every
other field keeps its value, and two consecutive toggles restore the state. -/
theorem togglePause_spec (g : GameState) (canvas : Canvas) :
    (togglePause g).paused = (if g.gameRunning then !g.paused else g.paused) ∧
    { togglePause g with paused := g.paused } = g ∧
    togglePause (togglePause g) = g ∧
    (Controller.new canvas).animationId = none ∧
    (Controller.new canvas).gameState.gameRunning = true ∧
    (Controller.new canvas).togglePause.gameState =
      { (Controller.new canvas).gameState with paused := true } := by
  obtain ⟨pl, ast, las, par, pow, sc, li, de, running, pa, ks, ls, lv, co, mc⟩ := g
  refine ⟨?_, ?_, ?_, rfl, rfl, rfl⟩ <;> cases running <;> simp [togglePause]

/-- C10: `reset` yields the same fixed state whatever came before: empty
asteroids, lasers, particles and power-ups; score 0, lives 3, destroyed 0,
combo 0, maxCombo 0, level 1; the player at (400, 300) with size 15 and
speed 5; running, not paused, no keys, lastShot 0.  It is idempotent, and
the state after `restartGame` does not depend on the prior state. -/
theorem reset_fresh (g g2 : GameState) (canvas : Canvas) (now : Int) (r : Rng) :
    g.reset = g2.reset ∧
    g.reset.reset = g.reset ∧
    g.reset.asteroids = [] ∧ g.reset.lasers = [] ∧ g.reset.particles = [] ∧
    g.reset.powerUps = [] ∧
    g.reset.score = 0 ∧ g.reset.lives = 3 ∧ g.reset.destroyed = 0 ∧ g.reset.combo = 0 ∧
    g.reset.maxCombo = 0 ∧ g.reset.level = 1 ∧
    g.reset.player = { x := 400, y := 300, size := 15, speed := 5 } ∧
    g.reset.gameRunning = true ∧ g.reset.paused = false ∧ g.reset.keys = [] ∧
    g.reset.lastShot = 0 ∧
    step canvas (Event.restart now r) g = step canvas (Event.restart now r) g2 :=
  ⟨rfl, rfl, rfl, rfl, rfl, rfl, rfl, rfl, rfl, rfl, rfl, rfl, rfl, rfl, rfl, rfl, rfl, rfl⟩

/-! ## Player bounds and level progression -/

/-- C4: when the player lies inside `[size, width - size] x [size, height - size]`
(the field being at least `2 * size` wide and high, the speed non-negative),
it still does after `updatePlayer`, whatever keys are held, opposite
directions included; and from `reset` on an 800 x 600 field the player, of
size 15, is inside these bounds after any sequence of ticks and inputs. -/
theorem player_bounds :
    (∀ (canvas : Canvas) (g : GameState),
      g.player.size ≤ g.player.x → g.player.x ≤ canvas.width - g.player.size →
      g.player.size ≤ g.player.y → g.player.y ≤ canvas.height - g.player.size →
      2 * g.player.size ≤ canvas.width → 2 * g.player.size ≤ canvas.height →
      0 ≤ g.player.speed →
      (updatePlayer canvas g).player.size = g.player.size ∧
      g.player.size ≤ (updatePlayer canvas g).player.x ∧
      (updatePlayer canvas g).player.x ≤ canvas.width - g.player.size ∧
      g.player.size ≤ (updatePlayer canvas g).player.y ∧
      (updatePlayer canvas g).player.y ≤ canvas.height - g.player.size) ∧
    (∀ g : GameState, Reachable ⟨800, 600⟩ g →
      g.player.size = 15 ∧ 15 ≤ g.player.x ∧ g.player.x ≤ 800 - 15 ∧
      15 ≤ g.player.y ∧ g.player.y ≤ 600 - 15) := by
  constructor
  · intro canvas g hx1 hx2 hy1 hy2 _ _ hs
    obtain ⟨h1, _, h3, h4, h5, h6⟩ := updatePlayer_inside canvas g hx1 hx2 hy1 hy2 hs
    exact ⟨h1, h3, h4, h5, h6⟩
  · intro g hg
    have hinv := reachable_playerInv ⟨800, 600⟩ (by norm_num) (by norm_num) g hg
    have h1 := hinv.x_ge
    have h2 := hinv.x_le
    have h3 := hinv.y_ge
    have h4 := hinv.y_le
    rw [hinv.size_eq] at h1 h2 h3 h4
    exact ⟨hinv.size_eq, h1, h2, h3, h4⟩

/-- Witness for C4: the player of the fresh session on the 800 x 600 field, and
the state after one frame. -/
theorem player_bounds_witness :
    ((updatePlayer Sample.canvas GameState.fresh).player.size = GameState.fresh.player.size ∧
      GameState.fresh.player.size ≤ (updatePlayer Sample.canvas GameState.fresh).player.x ∧
      (updatePlayer Sample.canvas GameState.fresh).player.x ≤
        Sample.canvas.width - GameState.fresh.player.size ∧
      GameState.fresh.player.size ≤ (updatePlayer Sample.canvas GameState.fresh).player.y ∧
      (updatePlayer Sample.canvas GameState.fresh).player.y ≤
        Sample.canvas.height - GameState.fresh.player.size) ∧
    15 ≤ (step ⟨800, 600⟩ (Event.frame 0 Sample.rngZero) GameState.fresh).player.x :=
  ⟨player_bounds.1 Sample.canvas GameState.fresh
      (by norm_num [GameState.fresh]) (by norm_num [GameState.fresh, Sample.canvas,
        GameConfig.CANVAS_WIDTH])
      (by norm_num [GameState.fresh]) (by norm_num [GameState.fresh, Sample.canvas,
        GameConfig.CANVAS_HEIGHT])
      (by norm_num [GameState.fresh, Sample.canvas, GameConfig.CANVAS_WIDTH])
      (by norm_num [GameState.fresh, Sample.canvas, GameConfig.CANVAS_HEIGHT])
      (by norm_num [GameState.fresh, GameConfig.PLAYER_SPEED]),
    (player_bounds.2 _ (reachable_step _ _ _ (reachable_fresh _))).2.1⟩

/-- C5: a tick never lowers the score or the level, in any state; and in every
state reached from `reset` the level is `floor(score / 1000) + 1`, hence at
least 1, so it is after every tick. -/
theorem level_progression (canvas : Canvas) :
    (∀ (g : GameState) (now : Int) (r : Rng),
      g.score ≤ (gameLoop canvas now (g, r)).1.score ∧
      g.level ≤ (gameLoop canvas now (g, r)).1.level) ∧
    (∀ g : GameState, Reachable canvas g →
      g.level = g.score / 1000 + 1 ∧
      (g.level : ℤ) = ⌊(g.score : ℚ) / 1000⌋ + 1 ∧
      1 ≤ g.level ∧
      ∀ (now : Int) (r : Rng),
        (gameLoop canvas now (g, r)).1.level = (gameLoop canvas now (g, r)).1.score / 1000 + 1) := by
  constructor
  · intro g now r
    exact ⟨gameLoop_score_le canvas now g r, gameLoop_level_ge canvas now g r⟩
  · intro g hg
    have hinv := reachable_sessionInv canvas g hg
    refine ⟨hinv.level_eq, ?_, ?_, ?_⟩
    · have h := Rat.floor_natCast_div_natCast g.score 1000
      rw [hinv.level_eq]
      push_cast at h ⊢
      rw [h]
    · rw [hinv.level_eq]
      exact Nat.le_add_left 1 _
    · intro now r
      exact (gameLoop_sessionInv canvas now g r hinv).level_eq

/-- Witness for C5: the level after one frame on the fresh session. -/
theorem level_progression_witness :
    (step Sample.canvas (Event.frame 0 Sample.rngZero) GameState.fresh).level =
      (step Sample.canvas (Event.frame 0 Sample.rngZero) GameState.fresh).score / 1000 + 1 :=
  ((level_progression Sample.canvas).2 _ (reachable_step _ _ _ (reachable_fresh _))).1

/-! ## The game-over scenario -/

/-- C3, as stated, fails: in each of three running, unpaused sessions with one
life left and a single asteroid overlapping the player, the tick does not end
with `lives = 0` in GameOver.  In the first the asteroid drifts out of reach
before the collision test; in the second a laser fired by the player destroys
it in the laser pass; in the third the hit ends the session but a shield
picked up in the same tick brings `lives` back to 1. -/
theorem gameOver_scenario_counterexample :
    (Sample.lastLifeDrifting.gameRunning = true ∧ Sample.lastLifeDrifting.paused = false ∧
      Sample.lastLifeDrifting.lives = 1 ∧
      Sample.lastLifeDrifting.asteroids = [Sample.drifter] ∧
      checkCollision Sample.drifter.body Sample.lastLifeDrifting.player.body = true ∧
      (gameLoop Sample.canvas 0 (Sample.lastLifeDrifting, Sample.rngHalf)).1.lives = 1 ∧
      (gameLoop Sample.canvas 0 (Sample.lastLifeDrifting, Sample.rngHalf)).1.gameRunning = true) ∧
    (Sample.lastLifeFiring.gameRunning = true ∧ Sample.lastLifeFiring.paused = false ∧
      Sample.lastLifeFiring.lives = 1 ∧
      Sample.lastLifeFiring.asteroids = [Sample.rockAhead] ∧
      checkCollision Sample.rockAhead.body Sample.lastLifeFiring.player.body = true ∧
      (gameLoop Sample.canvas 1000 (Sample.lastLifeFiring, Sample.rngHalf)).1.lives = 1 ∧
      (gameLoop Sample.canvas 1000 (Sample.lastLifeFiring, Sample.rngHalf)).1.gameRunning = true) ∧
    (Sample.lastLifeShielded.gameRunning = true ∧ Sample.lastLifeShielded.paused = false ∧
      Sample.lastLifeShielded.lives = 1 ∧
      Sample.lastLifeShielded.asteroids = [Sample.rock] ∧
      checkCollision Sample.rock.body Sample.lastLifeShielded.player.body = true ∧
      (gameLoop Sample.canvas 0 (Sample.lastLifeShielded, Sample.rngHalf)).1.lives = 1 ∧
      (gameLoop Sample.canvas 0 (Sample.lastLifeShielded, Sample.rngHalf)).1.gameRunning = false) := by
  decide!

/-- C3, amended: from a running, unpaused state with one life in which no
laser, once advanced, overlaps an asteroid, no power-up is a shield, and
exactly one asteroid, once moved by its velocity, is on screen and overlaps
the player as placed by this tick, the tick ends with `lives = 0` in GameOver
(`gameRunning = false`, `paused = false`); once the session is over, no tick
and no input other than a restart changes the score or the player; and in
every state reachable from `reset`, `lives ≤ 0` implies `gameRunning = false`. -/
theorem gameOver_scenario (canvas : Canvas) :
    (∀ (g : GameState) (now : Int) (r : Rng) (pre post : List Asteroid) (a : Asteroid),
      g.gameRunning = true → g.paused = false → g.lives = 1 →
      (∀ l ∈ g.lasers, ∀ b ∈ g.asteroids,
        checkCollision (advanceLaser l).body b.body = false) →
      (∀ p ∈ g.powerUps, p.type ≠ PowerUpType.shield) →
      g.asteroids = pre ++ a :: post →
      hitsPlayer canvas (updatePlayer canvas g).player a = true →
      (∀ b ∈ pre ++ post, hitsPlayer canvas (updatePlayer canvas g).player b = false) →
      (gameLoop canvas now (g, r)).1.lives = 0 ∧
      (gameLoop canvas now (g, r)).1.gameRunning = false ∧
      (gameLoop canvas now (g, r)).1.paused = false) ∧
    (∀ (g : GameState) (events : List Event),
      g.gameRunning = false → (∀ e ∈ events, e.isRestart = false) →
      (run canvas events g).gameRunning = false ∧
      (run canvas events g).score = g.score ∧
      (run canvas events g).player = g.player) ∧
    (∀ g : GameState, Reachable canvas g → g.lives ≤ 0 → g.gameRunning = false) := by
  refine ⟨?_, ?_, ?_⟩
  · intro g now r pre post a hr hp hl hlas hpow hast hhit hno
    exact gameLoop_last_life canvas now g r pre post a hr hp hl hlas hpow hast hhit hno
  · intro g events hover hre
    exact run_over canvas events g hover hre
  · intro g hg
    exact (reachable_sessionInv canvas g hg).lives_ok

/-- Witness for C3: the session with one life left and a resting asteroid on the
player. -/
theorem gameOver_scenario_witness :
    (Sample.lastLife.gameRunning = true ∧ Sample.lastLife.paused = false ∧
      Sample.lastLife.lives = 1 ∧ Sample.lastLife.lasers = [] ∧ Sample.lastLife.powerUps = [] ∧
      Sample.lastLife.asteroids = [] ++ Sample.rock :: [] ∧
      hitsPlayer Sample.canvas (updatePlayer Sample.canvas Sample.lastLife).player Sample.rock
        = true) ∧
    (gameLoop Sample.canvas 0 (Sample.lastLife, Sample.rngHalf)).1.lives = 0 ∧
    (gameLoop Sample.canvas 0 (Sample.lastLife, Sample.rngHalf)).1.gameRunning = false ∧
    (gameLoop Sample.canvas 0 (Sample.lastLife, Sample.rngHalf)).1.paused = false :=
  ⟨⟨rfl, rfl, rfl, rfl, rfl, rfl, by decide!⟩,
    (gameOver_scenario Sample.canvas).1 Sample.lastLife 0 Sample.rngHalf [] [] Sample.rock
      rfl rfl rfl (fun l hl => by simp [Sample.lastLife, GameState.fresh] at hl)
      (fun p hp => by simp [Sample.lastLife, GameState.fresh] at hp)
      rfl (by decide!) (fun b hb => by simp at hb)⟩

/-! ## Leaderboard invariant -/

/-- C7: starting from an empty leaderboard, after the submissions `es` (oldest
first, any scores) the leaderboard has `min N 10` entries, hence at most 10,
is sorted by descending score, and for every score its entries with that
score stand in the order in which they were submitted; `submitScore` performs
one such submission. -/
theorem leaderboard_invariant (es : List LeaderboardEntry) :
    (es.foldl submitEntry []).length = min es.length 10 ∧
    (es.foldl submitEntry []).length ≤ 10 ∧
    (es.foldl submitEntry []).Pairwise (fun a b => a.score ≥ b.score) ∧
    (∀ v : Nat, List.Sublist ((es.foldl submitEntry []).filter (fun x => decide (x.score = v)))
      (es.filter (fun x => decide (x.score = v)))) ∧
    (∀ (c : Controller) (playerName date : String),
      (submitScore c playerName date).leaderboardData =
        submitEntry c.leaderboardData (entryOf c.gameState playerName date) ∧
      (entryOf c.gameState playerName date).score = c.gameState.score) := by
  refine ⟨foldl_submitEntry_length es, ?_, foldl_submitEntry_sorted es,
    foldl_submitEntry_filter es, fun c playerName date => ⟨rfl, rfl⟩⟩
  rw [foldl_submitEntry_length]
  exact Nat.min_le_right _ _

/-! ## Circle overlap -/

/-- C11, as stated, fails in the arithmetic of the code: for the circle of
radius 5 centred at `(3, 4 - 2^-51)` and the origin, all coordinates doubles
and the sizes non-negative, the squared distance is below the square of the
sum of the sizes, yet `checkCollision` returns false: the computed square
root rounds to exactly 5. -/
theorem checkCollision_rounding_counterexample :
    (0 ≤ Sample.nearTouch.size ∧ 0 ≤ Sample.origin.size) ∧
    (∀ v ∈ [Sample.nearTouch.x, Sample.nearTouch.y, Sample.nearTouch.size, Sample.origin.x,
      Sample.origin.y, Sample.origin.size], Binary64.round v = v) ∧
    (Sample.nearTouch.x - Sample.origin.x) ^ 2 + (Sample.nearTouch.y - Sample.origin.y) ^ 2 <
      (Sample.nearTouch.size + Sample.origin.size) ^ 2 ∧
    Binary64.sqrt (squaredDistanceD Sample.nearTouch Sample.origin) = 5 ∧
    checkCollisionD Sample.nearTouch Sample.origin = false := by
  decide!

/-- C11, amended: for objects with non-negative sizes, within the range in
which no operation overflows, `checkCollision(a, b)` is true iff the distance
as computed, the double nearest to the root of the computed
`dx * dx + dy * dy`, is strictly below the computed `a.size + b.size`.  When
it is true the computed `dx * dx + dy * dy` is below the square of the
computed sum of the sizes; conversely, when that holds the test is true
unless the root rounds to exactly the computed sum.  Circles for which the
computed squared distance is at least that square, so those that exactly
touch, do not collide.  Where no operation rounds, the computed values are
`(a.x-b.x)^2 + (a.y-b.y)^2` and `a.size + b.size`; in exact arithmetic the
test is `(a.x-b.x)^2 + (a.y-b.y)^2 < (a.size+b.size)^2`.  The test is
symmetric. -/
theorem checkCollision_double (a b : Body)
    (_hfinite : ∀ v ∈ [a.x, a.y, a.size, b.x, b.y, b.size], |v| ≤ 2 ^ 500)
    (ha : 0 ≤ a.size) (hb : 0 ≤ b.size) :
    (checkCollisionD a b = true ↔
      Binary64.sqrt (squaredDistanceD a b) < Binary64.add a.size b.size) ∧
    (checkCollisionD a b = true → squaredDistanceD a b < (Binary64.add a.size b.size) ^ 2) ∧
    (squaredDistanceD a b < (Binary64.add a.size b.size) ^ 2 →
      checkCollisionD a b = true ∨
        Binary64.sqrt (squaredDistanceD a b) = Binary64.add a.size b.size) ∧
    ((Binary64.add a.size b.size) ^ 2 ≤ squaredDistanceD a b → checkCollisionD a b = false) ∧
    (Binary64.round (a.x - b.x) = a.x - b.x → Binary64.round (a.y - b.y) = a.y - b.y →
      Binary64.round ((a.x - b.x) * (a.x - b.x)) = (a.x - b.x) * (a.x - b.x) →
      Binary64.round ((a.y - b.y) * (a.y - b.y)) = (a.y - b.y) * (a.y - b.y) →
      Binary64.round ((a.x - b.x) * (a.x - b.x) + (a.y - b.y) * (a.y - b.y)) =
        (a.x - b.x) * (a.x - b.x) + (a.y - b.y) * (a.y - b.y) →
      Binary64.round (a.size + b.size) = a.size + b.size →
      squaredDistanceD a b = (a.x - b.x) ^ 2 + (a.y - b.y) ^ 2 ∧
      Binary64.add a.size b.size = a.size + b.size) ∧
    (checkCollision a b = true ↔
      (a.x - b.x) ^ 2 + (a.y - b.y) ^ 2 < (a.size + b.size) ^ 2) ∧
    checkCollisionD a b = checkCollisionD b a := by
  obtain ⟨h1, h2, h3⟩ := checkCollisionD_sq a b ha hb
  refine ⟨checkCollisionD_iff a b, h1, h2, h3, ?_, ?_, checkCollisionD_comm a b⟩
  · intro e1 e2 e3 e4 e5 e6
    constructor
    · simp only [squaredDistanceD, Binary64.sub, Binary64.mul, Binary64.add, e1, e2, e3, e4, e5]
      ring
    · simp only [Binary64.add, e6]
  · rw [checkCollision_iff_sq]
    constructor
    · exact fun h => h.2
    · intro h
      refine ⟨?_, h⟩
      rcases (add_nonneg ha hb).lt_or_eq with hpos | hzero
      · exact hpos
      · rw [← hzero] at h
        have : (0 : ℚ) ≤ (a.x - b.x) ^ 2 + (a.y - b.y) ^ 2 := by positivity
        exact absurd h (by norm_num; exact this)

/-- Witness for C11: circles of radius 20 and 15 whose centres are 33 apart. -/
theorem checkCollision_double_witness :
    ((∀ v ∈ [(433 : ℚ), 300, 20, 400, 300, 15], |v| ≤ 2 ^ 500) ∧ (0 : ℚ) ≤ 20 ∧ (0 : ℚ) ≤ 15) ∧
    checkCollisionD ⟨433, 300, 20⟩ ⟨400, 300, 15⟩ = true ∧
    squaredDistanceD ⟨433, 300, 20⟩ ⟨400, 300, 15⟩ < (Binary64.add 20 15) ^ 2 :=
  ⟨⟨by decide!, by norm_num, by norm_num⟩, by decide!,
    (checkCollision_double ⟨433, 300, 20⟩ ⟨400, 300, 15⟩ (by decide!) (by norm_num)
      (by norm_num)).2.1 (by decide!)⟩

/-! ## Power-up effects -/

/-- C15: the shield adds exactly one life and changes nothing else; the speed
boost sets the speed of the player to `min 8 (speed + 1)` and changes nothing
else; multishot changes nothing.  Hence in every state reached from `reset`
the speed lies in `[5, 8]`, no power-up lowers it, and no tick or input of
the session (anything but a restart) lowers it. -/
theorem applyPowerUp_effects (canvas : Canvas) (g : GameState) :
    applyPowerUp g PowerUpType.shield = { g with lives := g.lives + 1 } ∧
    applyPowerUp g PowerUpType.speedboost =
      { g with player := { g.player with speed := min 8 (g.player.speed + 1) } } ∧
    applyPowerUp g PowerUpType.multishot = g ∧
    (∀ g2 : GameState, Reachable canvas g2 →
      5 ≤ g2.player.speed ∧ g2.player.speed ≤ 8 ∧
      (∀ t : PowerUpType, g2.player.speed ≤ (applyPowerUp g2 t).player.speed) ∧
      (∀ e : Event, e.isRestart = false → g2.player.speed ≤ (step canvas e g2).player.speed)) := by
  refine ⟨rfl, rfl, rfl, ?_⟩
  intro g2 hg2
  have hs := reachable_speed canvas g2 hg2
  exact ⟨hs.1, hs.2, fun t => (applyPowerUp_passRel g2 t).speed_ge hs.2,
    fun e he => (step_speed canvas e g2 hs).2 he⟩

/-- Witness for C15: the speed after one frame on the fresh session. -/
theorem applyPowerUp_effects_witness :
    5 ≤ (step Sample.canvas (Event.frame 0 Sample.rngZero) GameState.fresh).player.speed ∧
    (step Sample.canvas (Event.frame 0 Sample.rngZero) GameState.fresh).player.speed ≤ 8 :=
  ⟨((applyPowerUp_effects Sample.canvas GameState.fresh).2.2.2 _
      (reachable_step _ _ _ (reachable_fresh _))).1,
    ((applyPowerUp_effects Sample.canvas GameState.fresh).2.2.2 _
      (reachable_step _ _ _ (reachable_fresh _))).2.1⟩

/-! ## Firing cooldown -/

/-- C19: with the clock value `now`, `shootLaser` appends a laser exactly when
`now - lastShot > 150` and then sets `lastShot` to `now`; otherwise it
changes nothing.  The new laser is at `(player.x, player.y - player.size)`
with speed 8, size 3 and an empty trail.  In a run of calls any two accepted
shots are more than 150 apart (the later minus the earlier), the first being
more than 150 after the initial `lastShot`; a tick does not write `lastShot`. -/
theorem shootLaser_cooldown (canvas : Canvas) (g : GameState) (now : Int) :
    (now - g.lastShot > 150 →
      shootLaser now g =
        { g with
          lasers := g.lasers ++ [({ x := g.player.x, y := g.player.y - g.player.size
                                    speed := 8, size := 3, trail := [] } : Laser)]
          lastShot := now }) ∧
    (¬ now - g.lastShot > 150 → shootLaser now g = g) ∧
    ((shootLaser now g).lasers.length = g.lasers.length + 1 ↔ now - g.lastShot > 150) ∧
    (∀ clock : List Int,
      (acceptedShots clock g).Pairwise (fun a b => b - a > 150) ∧
      ∀ t ∈ acceptedShots clock g, t - g.lastShot > 150) ∧
    (∀ (now2 : Int) (r : Rng), (gameLoop canvas now2 (g, r)).1.lastShot = g.lastShot) := by
  refine ⟨fun h => shootLaser_accept now g h, fun h => shootLaser_reject now g h, ?_,
    fun clock => acceptedShots_apart clock g, fun now2 r => gameLoop_lastShot canvas now2 g r⟩
  by_cases h : now - g.lastShot > GameConfig.LASER_COOLDOWN
  · rw [shootLaser_accept now g h]
    simpa using h
  · rw [shootLaser_reject now g h]
    simpa using h

/-- Witness for C19: on the fresh session a shot at clock value 1000 is accepted
and a second one at 1100 is not. -/
theorem shootLaser_cooldown_witness :
    (1000 - GameState.fresh.lastShot > 150 ∧
      (shootLaser 1000 GameState.fresh).lastShot = 1000) ∧
    acceptedShots [1000, 1100, 1151] GameState.fresh = [1000, 1151] :=
  ⟨⟨by decide, by
      rw [(shootLaser_cooldown Sample.canvas GameState.fresh 1000).1 (by decide)]⟩,
    by decide!⟩

/-! ## The asteroid factory -/

/-- C18, as stated, fails in the arithmetic of the code: with the largest double
below 1 as the size draw, a normal asteroid gets the size 35, outside
`[15, 35)`: `20 * draw` rounds to `20 - 2^-48`, and adding 15 rounds to 35. -/
theorem createAsteroid_size_counterexample :
    (∀ k, 0 ≤ Sample.largestSizeDraws.random k ∧ Sample.largestSizeDraws.random k < 1) ∧
    Binary64.round (Sample.largestSizeDraws.random 5) = Sample.largestSizeDraws.random 5 ∧
    baseSizeD Sample.largestSizeDraws = 35 ∧
    (createAsteroidD Sample.canvas 0 Sample.largestSizeDraws).type = AsteroidType.normal ∧
    (createAsteroidD Sample.canvas 0 Sample.largestSizeDraws).size = 35 :=
  ⟨fun k => random_range _ k, by decide!, by decide!, by decide!, by decide!⟩

/-- C18, amended: for draws that are doubles in `[0, 1)` and a canvas whose sides
plus 50 are doubles, with the base size `b = draw * 20 + 15` as computed, which
lies in `[15, 35]`, and the base velocity `(vx, vy)` drawn for the chosen edge
(`draw * 3 + 1` towards the field, `(draw - 0.5) * 4` along the edge),
`createAsteroid` returns size `b`, velocity `(vx, vy)`, health 1 for normal;
size `b * 0.8`, velocity `(vx * 1.5, vy * 1.5)`, health 1 for fast; size
`b * 1.5`, the base velocity, health 2 for large; size `b * 0.9`, the base
velocity, health 1 for splitting, each product rounded to the nearest double.
The asteroid lies exactly 50 outside the chosen edge, and the velocity
component normal to that edge points into the field with magnitude at least 1. -/
theorem createAsteroid_double (canvas : Canvas) (now : Int) (r : Rng)
    (hdraw : ∀ k, Binary64.round (r.random k) = r.random k)
    (hw : Binary64.round (canvas.width + 50) = canvas.width + 50)
    (hh : Binary64.round (canvas.height + 50) = canvas.height + 50) :
    (15 ≤ baseSizeD r ∧ baseSizeD r ≤ 35) ∧
    (floorIndexD (r.random 0) 4 < 4 ∧ floorIndexD (r.random 4) 4 < 4) ∧
    (floorIndexD (r.random 0) 4 = 0 →
      spawnEdgeD canvas r =
        { x := Binary64.mul (r.random 1) canvas.width, y := -50
          vx := Binary64.mul (Binary64.sub (r.random 2) (1 / 2)) 4
          vy := Binary64.add (Binary64.mul (r.random 3) 3) 1 } ∧
      1 ≤ (spawnEdgeD canvas r).vy ∧ 1 ≤ (createAsteroidD canvas now r).vy) ∧
    (floorIndexD (r.random 0) 4 = 1 →
      spawnEdgeD canvas r =
        { x := canvas.width + 50, y := Binary64.mul (r.random 1) canvas.height
          vx := -(Binary64.add (Binary64.mul (r.random 2) 3) 1)
          vy := Binary64.mul (Binary64.sub (r.random 3) (1 / 2)) 4 } ∧
      (spawnEdgeD canvas r).vx ≤ -1 ∧ (createAsteroidD canvas now r).vx ≤ -1) ∧
    (floorIndexD (r.random 0) 4 = 2 →
      spawnEdgeD canvas r =
        { x := Binary64.mul (r.random 1) canvas.width, y := canvas.height + 50
          vx := Binary64.mul (Binary64.sub (r.random 2) (1 / 2)) 4
          vy := -(Binary64.add (Binary64.mul (r.random 3) 3) 1) } ∧
      (spawnEdgeD canvas r).vy ≤ -1 ∧ (createAsteroidD canvas now r).vy ≤ -1) ∧
    (floorIndexD (r.random 0) 4 = 3 →
      spawnEdgeD canvas r =
        { x := -50, y := Binary64.mul (r.random 1) canvas.height
          vx := Binary64.add (Binary64.mul (r.random 2) 3) 1
          vy := Binary64.mul (Binary64.sub (r.random 3) (1 / 2)) 4 } ∧
      1 ≤ (spawnEdgeD canvas r).vx ∧ 1 ≤ (createAsteroidD canvas now r).vx) ∧
    ((createAsteroidD canvas now r).x = (spawnEdgeD canvas r).x ∧
      (createAsteroidD canvas now r).y = (spawnEdgeD canvas r).y ∧
      (createAsteroidD canvas now r).type = asteroidTypeD r) ∧
    (asteroidTypeD r = AsteroidType.normal →
      (createAsteroidD canvas now r).size = baseSizeD r ∧
      (createAsteroidD canvas now r).vx = (spawnEdgeD canvas r).vx ∧
      (createAsteroidD canvas now r).vy = (spawnEdgeD canvas r).vy ∧
      (createAsteroidD canvas now r).health = 1) ∧
    (asteroidTypeD r = AsteroidType.fast →
      (createAsteroidD canvas now r).size =
        Binary64.mul (baseSizeD r) (Binary64.round (8 / 10)) ∧
      (createAsteroidD canvas now r).vx = Binary64.mul (spawnEdgeD canvas r).vx (3 / 2) ∧
      (createAsteroidD canvas now r).vy = Binary64.mul (spawnEdgeD canvas r).vy (3 / 2) ∧
      (createAsteroidD canvas now r).health = 1) ∧
    (asteroidTypeD r = AsteroidType.large →
      (createAsteroidD canvas now r).size = Binary64.mul (baseSizeD r) (3 / 2) ∧
      (createAsteroidD canvas now r).vx = (spawnEdgeD canvas r).vx ∧
      (createAsteroidD canvas now r).vy = (spawnEdgeD canvas r).vy ∧
      (createAsteroidD canvas now r).health = 2) ∧
    (asteroidTypeD r = AsteroidType.splitting →
      (createAsteroidD canvas now r).size =
        Binary64.mul (baseSizeD r) (Binary64.round (9 / 10)) ∧
      (createAsteroidD canvas now r).vx = (spawnEdgeD canvas r).vx ∧
      (createAsteroidD canvas now r).vy = (spawnEdgeD canvas r).vy ∧
      (createAsteroidD canvas now r).health = 1) := by
  have s2 := (inward_speed (r 2)).1
  have s3 := (inward_speed (r 3)).1
  have hvy : ∀ e : EdgeSpawn, spawnEdgeD canvas r = e →
      (1 ≤ e.vy → 1 ≤ (createAsteroidD canvas now r).vy) ∧
      (e.vy ≤ -1 → (createAsteroidD canvas now r).vy ≤ -1) ∧
      (1 ≤ e.vx → 1 ≤ (createAsteroidD canvas now r).vx) ∧
      (e.vx ≤ -1 → (createAsteroidD canvas now r).vx ≤ -1) := by
    intro e he
    simp only [createAsteroidD, he]
    refine ⟨?_, ?_, ?_, ?_⟩ <;> intro h <;> cases asteroidTypeD r <;> simp only
    all_goals first
      | exact h
      | exact ((inward_speed (r 0)).2 _ h).1
      | (have h2 := ((inward_speed (r 0)).2 (-e.vy) (by linarith)).2
         rw [neg_neg] at h2
         exact h2)
      | (have h2 := ((inward_speed (r 0)).2 (-e.vx) (by linarith)).2
         rw [neg_neg] at h2
         exact h2)
  refine ⟨baseSizeD_range r, ⟨floorIndexD_lt (r 0) (hdraw 0), floorIndexD_lt (r 4) (hdraw 4)⟩,
    ?_, ?_, ?_, ?_, ?_, ?_, ?_, ?_, ?_⟩
  · intro hs
    have he : spawnEdgeD canvas r =
        { x := Binary64.mul (r.random 1) canvas.width, y := -50
          vx := Binary64.mul (Binary64.sub (r.random 2) (1 / 2)) 4
          vy := Binary64.add (Binary64.mul (r.random 3) 3) 1 } := by
      simp only [spawnEdgeD, hs]
    exact ⟨he, by rw [he]; exact s3, (hvy _ he).1 s3⟩
  · intro hs
    have he : spawnEdgeD canvas r =
        { x := canvas.width + 50, y := Binary64.mul (r.random 1) canvas.height
          vx := -(Binary64.add (Binary64.mul (r.random 2) 3) 1)
          vy := Binary64.mul (Binary64.sub (r.random 3) (1 / 2)) 4 } := by
      simp only [spawnEdgeD, hs]
      rw [show Binary64.add canvas.width 50 = canvas.width + 50 from hw]
    have hneg : -(Binary64.add (Binary64.mul (r.random 2) 3) 1) ≤ -1 := by
      have : 1 ≤ Binary64.add (Binary64.mul (r.random 2) 3) 1 := s2
      linarith
    exact ⟨he, by rw [he]; exact hneg, (hvy _ he).2.2.2 hneg⟩
  · intro hs
    have he : spawnEdgeD canvas r =
        { x := Binary64.mul (r.random 1) canvas.width, y := canvas.height + 50
          vx := Binary64.mul (Binary64.sub (r.random 2) (1 / 2)) 4
          vy := -(Binary64.add (Binary64.mul (r.random 3) 3) 1) } := by
      simp only [spawnEdgeD, hs]
      rw [show Binary64.add canvas.height 50 = canvas.height + 50 from hh]
    have hneg : -(Binary64.add (Binary64.mul (r.random 3) 3) 1) ≤ -1 := by
      have : 1 ≤ Binary64.add (Binary64.mul (r.random 3) 3) 1 := s3
      linarith
    exact ⟨he, by rw [he]; exact hneg, (hvy _ he).2.1 hneg⟩
  · intro hs
    have he : spawnEdgeD canvas r =
        { x := -50, y := Binary64.mul (r.random 1) canvas.height
          vx := Binary64.add (Binary64.mul (r.random 2) 3) 1
          vy := Binary64.mul (Binary64.sub (r.random 3) (1 / 2)) 4 } := by
      simp only [spawnEdgeD, hs]
    exact ⟨he, by rw [he]; exact s2, (hvy _ he).2.2.1 s2⟩
  · simp only [createAsteroidD]
    cases asteroidTypeD r <;> exact ⟨rfl, rfl, rfl⟩
  · intro ht
    simp [createAsteroidD, ht]
  · intro ht
    simp [createAsteroidD, ht]
  · intro ht
    simp [createAsteroidD, ht]
  · intro ht
    simp [createAsteroidD, ht]

/-- Witness for C18: on the 800 by 600 canvas with every draw `1/2` the asteroid
comes from the bottom edge and is large. -/
theorem createAsteroid_double_witness :
    ((∀ k, Binary64.round (Sample.rngHalf.random k) = Sample.rngHalf.random k) ∧
      Binary64.round (Sample.canvas.width + 50) = Sample.canvas.width + 50 ∧
      Binary64.round (Sample.canvas.height + 50) = Sample.canvas.height + 50) ∧
    (floorIndexD (Sample.rngHalf.random 0) 4 = 2 ∧
      asteroidTypeD Sample.rngHalf = AsteroidType.large) ∧
    (createAsteroidD Sample.canvas 0 Sample.rngHalf).y = 650 ∧
    (createAsteroidD Sample.canvas 0 Sample.rngHalf).vy ≤ -1 ∧
    (createAsteroidD Sample.canvas 0 Sample.rngHalf).size = 75 / 2 ∧
    (createAsteroidD Sample.canvas 0 Sample.rngHalf).health = 2 := by
  have hd : ∀ k, Binary64.round (Sample.rngHalf.random k) = Sample.rngHalf.random k :=
    fun _ => (by decide! : Binary64.round (1 / 2) = 1 / 2)
  have hw : Binary64.round (Sample.canvas.width + 50) = Sample.canvas.width + 50 := by decide!
  have hh : Binary64.round (Sample.canvas.height + 50) = Sample.canvas.height + 50 := by decide!
  have hs : floorIndexD (Sample.rngHalf.random 0) 4 = 2 := by decide!
  have ht : asteroidTypeD Sample.rngHalf = AsteroidType.large := by decide!
  have h := createAsteroid_double Sample.canvas 0 Sample.rngHalf hd hw hh
  refine ⟨⟨hd, hw, hh⟩, ⟨hs, ht⟩, by decide!, (h.2.2.2.2.1 hs).2.2, by decide!,
    (h.2.2.2.2.2.2.2.2.2.1 ht).2.2.2⟩

/-! ## The idle tick -/

/-- C14, as stated, fails: on the fresh session with no key pressed, a tick
whose spawn draw is 0 ends with an asteroid in the collection. -/
theorem idle_tick_counterexample :
    GameState.fresh.keys = [] ∧ GameState.fresh.asteroids = [] ∧
    (gameLoop Sample.canvas 0 (GameState.fresh, Sample.rngZero)).1.asteroids ≠ [] := by
  decide!

/-- C14, amended: on the freshly started session (no asteroids, lasers,
particles or power-ups; score 0, lives 3) with no key pressed, a running,
unpaused tick whose spawn draw is not below 0.02 leaves the simulation state
unchanged; when the draw is below 0.02 it appends exactly one new asteroid
and changes nothing else. -/
theorem idle_tick (canvas : Canvas) (now : Int) (r : Rng) (ks : List (String × Bool))
    (hks : ∀ name, keyDown ks name = false) :
    (¬ r.random 0 < 2 / 100 →
      (gameLoop canvas now ({ GameState.fresh with keys := ks }, r)).1 =
        { GameState.fresh with keys := ks }) ∧
    (r.random 0 < 2 / 100 →
      (gameLoop canvas now ({ GameState.fresh with keys := ks }, r)).1 =
        { GameState.fresh with
          keys := ks, asteroids := [createAsteroid canvas now (r.drop 1)] }) ∧
    (gameLoop canvas now ({ GameState.fresh with keys := ks }, r)).1.player =
      GameState.fresh.player ∧
    (gameLoop canvas now ({ GameState.fresh with keys := ks }, r)).1.score = 0 ∧
    (gameLoop canvas now ({ GameState.fresh with keys := ks }, r)).1.lives = 3 ∧
    (gameLoop canvas now ({ GameState.fresh with keys := ks }, r)).1.lasers = [] ∧
    (gameLoop canvas now ({ GameState.fresh with keys := ks }, r)).1.particles = [] ∧
    (gameLoop canvas now ({ GameState.fresh with keys := ks }, r)).1.powerUps = [] := by
  rw [gameLoop_idle canvas now r ks hks]
  refine ⟨fun h => by rw [if_neg h], fun h => by rw [if_pos h], ?_, ?_, ?_, ?_, ?_, ?_⟩ <;>
    split_ifs <;> rfl

/-- Witness for C14: the fresh session, no key in the dictionary, every draw 1/2. -/
theorem idle_tick_witness :
    (∀ name, keyDown [] name = false) ∧ ¬ Sample.rngHalf.random 0 < 2 / 100 ∧
    (gameLoop Sample.canvas 0 ({ GameState.fresh with keys := [] }, Sample.rngHalf)).1 =
      { GameState.fresh with keys := [] } :=
  ⟨fun _ => rfl, by norm_num [Sample.rngHalf, Rng.random],
    (idle_tick Sample.canvas 0 Sample.rngHalf [] (fun _ => rfl)).1
      (by norm_num [Sample.rngHalf, Rng.random])⟩

/-! ## The spawn decision -/

/-- C17, as stated, fails: in the tick in which the last life is lost the
session is no longer running when the spawn decision is taken
(`gameRunning = false` after the five passes), yet a draw of 0 appends an
asteroid. -/
theorem spawn_decision_counterexample :
    (updatePasses Sample.canvas 0 (Sample.lastLife, Sample.rngZero)).1.gameRunning = false ∧
    (updatePasses Sample.canvas 0 (Sample.lastLife, Sample.rngZero)).1.asteroids = [] ∧
    (gameLoop Sample.canvas 0 (Sample.lastLife, Sample.rngZero)).1.asteroids.length = 1 := by
  decide!

/-- C17, amended: a tick appends a new asteroid only when the session was
running when the tick began and is not paused at the spawn decision; it then
appends exactly one asteroid iff the draw is below `0.02 + score * 0.00001`,
the score being that after the updates of this tick, and none otherwise.  The
threshold is non-decreasing in the score and at most one asteroid is spawned
per tick. -/
theorem spawn_decision (canvas : Canvas) (now : Int) (g : GameState) (r : Rng) :
    (g.gameRunning = false → (gameLoop canvas now (g, r)).1.asteroids = g.asteroids) ∧
    (g.gameRunning = true →
      (updatePasses canvas now (g, r)).1.paused = g.paused ∧
      (gameLoop canvas now (g, r)).1.score = (updatePasses canvas now (g, r)).1.score ∧
      (gameLoop canvas now (g, r)).1.asteroids =
        (updatePasses canvas now (g, r)).1.asteroids ++
          (if (updatePasses canvas now (g, r)).1.paused = false ∧
              (updatePasses canvas now (g, r)).2.random 0 <
                2 / 100 + ((updatePasses canvas now (g, r)).1.score : ℚ) * (1 / 100000) then
            [createAsteroid canvas now ((updatePasses canvas now (g, r)).2.drop 1)]
          else [])) ∧
    (∀ s1 s2 : Nat, s1 ≤ s2 →
      (2 / 100 + (s1 : ℚ) * (1 / 100000) : ℚ) ≤ 2 / 100 + (s2 : ℚ) * (1 / 100000)) ∧
    (gameLoop canvas now (g, r)).1.asteroids.length ≤
      (if g.gameRunning then (updatePasses canvas now (g, r)).1.asteroids.length
        else g.asteroids.length) + 1 := by
  have hrate : ∀ s : Nat, spawnRate s = 2 / 100 + (s : ℚ) * (1 / 100000) := fun s => rfl
  refine ⟨?_, ?_, ?_, ?_⟩
  · intro h
    rw [gameLoop_eq_passes]
    simp [h]
  · intro h
    refine ⟨updatePasses_paused canvas now g r, ?_, ?_⟩
    · rw [gameLoop_eq_passes]
      simp only [h, if_true]
      split_ifs <;> rfl
    · rw [gameLoop_eq_passes]
      simp only [h, if_true, ← hrate]
      cases hp : (updatePasses canvas now (g, r)).1.paused
      · simp
      · simp [hp]
  · intro s1 s2 h12
    rw [← hrate, ← hrate]
    exact spawnRate_mono s1 s2 h12
  · rw [gameLoop_eq_passes]
    cases h : g.gameRunning
    · simp
    · simp only [if_true]
      split_ifs <;> simp

/-- Witness for C17: the fresh session is running, and the tick with every draw
1/2 appends nothing to the asteroids left by the passes. -/
theorem spawn_decision_witness :
    GameState.fresh.gameRunning = true ∧
    (gameLoop Sample.canvas 0 (GameState.fresh, Sample.rngHalf)).1.score =
      (updatePasses Sample.canvas 0 (GameState.fresh, Sample.rngHalf)).1.score :=
  ⟨rfl, ((spawn_decision Sample.canvas 0 GameState.fresh Sample.rngHalf).2.1 rfl).2.1⟩

/-! ## One kill per laser -/

/-- C13, as stated, fails in its scenario: a single laser at the height of an
asteroid, with overlapping radii, need not trigger a hit.  In the first
session the laser has moved out of reach when the collision is tested; in the
second it has passed the top bound and is removed without a hit. -/
theorem one_kill_per_laser_counterexample :
    (Sample.sessionGrazing.paused = false ∧
      Sample.sessionGrazing.lasers = [Sample.grazingLaser] ∧
      Sample.sessionGrazing.asteroids = [Sample.rock] ∧
      Sample.grazingLaser.y = Sample.rock.y ∧
      checkCollision Sample.grazingLaser.body Sample.rock.body = true ∧
      (updateLasers 0 (Sample.sessionGrazing, Sample.rngHalf)).1.destroyed = 0 ∧
      (updateLasers 0 (Sample.sessionGrazing, Sample.rngHalf)).1.lasers.length = 1 ∧
      (updateLasers 0 (Sample.sessionGrazing, Sample.rngHalf)).1.asteroids = [Sample.rock] ∧
      (updateLasers 0 (Sample.sessionGrazing, Sample.rngHalf)).1.score = 0) ∧
    (Sample.sessionAtTop.paused = false ∧
      Sample.sessionAtTop.lasers = [Sample.topLaser] ∧
      Sample.sessionAtTop.asteroids = [Sample.rockAtTop] ∧
      Sample.topLaser.y = Sample.rockAtTop.y ∧
      checkCollision Sample.topLaser.body Sample.rockAtTop.body = true ∧
      (updateLasers 0 (Sample.sessionAtTop, Sample.rngHalf)).1.destroyed = 0 ∧
      (updateLasers 0 (Sample.sessionAtTop, Sample.rngHalf)).1.lasers = [] ∧
      (updateLasers 0 (Sample.sessionAtTop, Sample.rngHalf)).1.asteroids = [Sample.rockAtTop] ∧
      (updateLasers 0 (Sample.sessionAtTop, Sample.rngHalf)).1.score = 0) := by
  decide!

/-- C13, amended: in one `updateLasers` pass `destroyed` grows by at most the
number of lasers present at the start, and on an unpaused state by exactly
the number of lasers removed other than past the top bound, each laser
resolving at most one hit and being removed when it does.  For a single
laser that, once advanced by its speed, is not past the top bound and
overlaps an asteroid (the last such one in the collection), exactly one hit
resolution fires: the laser is removed, the asteroid is removed or replaced
by its two split children, and the score grows by `50 * min combo 5` for the
incremented combo. -/
theorem one_kill_per_laser (now : Int) (g : GameState) (r : Rng) :
    g.destroyed ≤ (updateLasers now (g, r)).1.destroyed ∧
    (updateLasers now (g, r)).1.destroyed ≤ g.destroyed + g.lasers.length ∧
    (g.paused = true → updateLasers now (g, r) = (g, r)) ∧
    (g.paused = false →
      (updateLasers now (g, r)).1.destroyed + (updateLasers now (g, r)).1.lasers.length +
        (g.lasers.filter (fun l => decide ((advanceLaser l).y < -10))).length =
        g.destroyed + g.lasers.length) ∧
    (∀ (l : Laser) (pre post : List Asteroid) (a : Asteroid),
      g.paused = false → g.lasers = [l] → ¬ (advanceLaser l).y < -10 →
      g.asteroids = pre ++ a :: post →
      checkCollision (advanceLaser l).body a.body = true →
      (∀ b ∈ post, checkCollision (advanceLaser l).body b.body = false) →
      (updateLasers now (g, r)).1.lasers = [] ∧
      (updateLasers now (g, r)).1.destroyed = g.destroyed + 1 ∧
      (updateLasers now (g, r)).1.combo = g.combo + 1 ∧
      (updateLasers now (g, r)).1.score = g.score + 50 * min (g.combo + 1) 5 ∧
      ∃ children : List Asteroid,
        (updateLasers now (g, r)).1.asteroids = pre ++ post ++ children ∧
        (children = [] ∨
          children.length = 2 ∧ a.type = AsteroidType.splitting ∧ a.size > 20)) := by
  obtain ⟨c1, c2, c3, c4⟩ := updateLasers_count now g r
  refine ⟨c1, c2, c3, fun hp => (c4 hp).2, ?_⟩
  intro l pre post a hp hl htop hast hc hno
  rw [updateLasers_single now g r l pre post a hp hl htop hast hc hno]
  refine ⟨rfl, ?_, ?_, ?_, ?_⟩
  · exact (handleAsteroidHit_lasers now _ a pre.length (advanceLaser l).x (advanceLaser l).y r).2.1
  · exact handleAsteroidHit_combo now _ a pre.length (advanceLaser l).x (advanceLaser l).y r
  · exact handleAsteroidHit_points now _ a pre.length (advanceLaser l).x (advanceLaser l).y r
  · refine ⟨if a.type = AsteroidType.splitting ∧ a.size > 20 then
        (createSplitAsteroids now { g with asteroids := [], lasers := [advanceLaser l] } a
          (r.drop (3 * GameConfig.PARTICLE_COUNT))).asteroids
      else [], ?_, ?_⟩
    · show (handleAsteroidHit now { g with lasers := [advanceLaser l] } a pre.length
        (advanceLaser l).x (advanceLaser l).y r).1.asteroids = _
      rw [handleAsteroidHit_asteroids]
      show ((g.asteroids ++ _).eraseIdx pre.length) = _
      rw [hast, List.append_assoc, List.cons_append, eraseIdx_mid, List.append_assoc]
    · by_cases hs : a.type = AsteroidType.splitting ∧ a.size > 20
      · right
        rw [if_pos hs]
        exact ⟨by simp [createSplitAsteroids], hs.1, hs.2⟩
      · left
        rw [if_neg hs]

/-- Witness for C13: a laser at the centre of a resting asteroid of size 20. -/
theorem one_kill_per_laser_witness :
    (Sample.sessionCentred.paused = false ∧
      Sample.sessionCentred.lasers = [Sample.centredLaser] ∧
      ¬ (advanceLaser Sample.centredLaser).y < -10 ∧
      Sample.sessionCentred.asteroids = [] ++ Sample.rock :: [] ∧
      checkCollision (advanceLaser Sample.centredLaser).body Sample.rock.body = true) ∧
    (updateLasers 0 (Sample.sessionCentred, Sample.rngHalf)).1.lasers = [] ∧
    (updateLasers 0 (Sample.sessionCentred, Sample.rngHalf)).1.destroyed =
      Sample.sessionCentred.destroyed + 1 :=
  ⟨⟨rfl, rfl, by decide!, rfl, by decide!⟩,
    ((one_kill_per_laser 0 Sample.sessionCentred Sample.rngHalf).2.2.2.2
      Sample.centredLaser [] [] Sample.rock rfl rfl (by decide!) rfl (by decide!)
      (fun b hb => by simp at hb)).1,
    ((one_kill_per_laser 0 Sample.sessionCentred Sample.rngHalf).2.2.2.2
      Sample.centredLaser [] [] Sample.rock rfl rfl (by decide!) rfl (by decide!)
      (fun b hb => by simp at hb)).2.1⟩

/-! ## Asteroid health and size -/

/-- C12: in every state reachable from `reset`, every asteroid of the
collection has health at least 1 and a positive size; so do the asteroids the
factory creates, and moving an asteroid writes neither its health nor its
size.  Hence no asteroid with health 0 is in the collection after any tick. -/
theorem asteroid_invariant (canvas : Canvas) :
    (∀ g : GameState, Reachable canvas g → ∀ a ∈ g.asteroids, 1 ≤ a.health ∧ 0 < a.size) ∧
    (∀ (now : Int) (r : Rng),
      1 ≤ (createAsteroid canvas now r).health ∧ 0 < (createAsteroid canvas now r).size) ∧
    (∀ a : Asteroid,
      (advanceAsteroid a).health = a.health ∧ (advanceAsteroid a).size = a.size) ∧
    (∀ g : GameState, Reachable canvas g → ∀ (now : Int) (r : Rng),
      ∀ a ∈ (gameLoop canvas now (g, r)).1.asteroids, a.health ≠ 0) := by
  refine ⟨fun g hg => (reachable_entityInv canvas g hg).asteroid_ok,
    fun now r => createAsteroid_ok canvas now r, fun a => ⟨rfl, rfl⟩, ?_⟩
  intro g hg now r a ha
  have h := (gameLoop_entityInv canvas now g r (reachable_entityInv canvas g hg)).asteroid_ok a ha
  omega

/-- Witness for C12: the asteroids after one frame on the fresh session in which
the spawn draw is 0. -/
theorem asteroid_invariant_witness :
    (step Sample.canvas (Event.frame 0 Sample.rngZero) GameState.fresh).asteroids.length = 1 ∧
    ∀ a ∈ (step Sample.canvas (Event.frame 0 Sample.rngZero) GameState.fresh).asteroids,
      1 ≤ a.health ∧ 0 < a.size :=
  ⟨by decide!, (asteroid_invariant Sample.canvas).1 _ (reachable_step _ _ _ (reachable_fresh _))⟩

/-! ## Laser motion and trail -/

/-- C20: in one `updateLasers` pass on an unpaused state whose lasers have
trails of at most 5 points (as they do in every state reachable from
`reset`), the surviving lasers are, in order, advanced lasers of the state:
each has its position before the move as the newest trail point, a trail of
at most 5 points, oldest first, the oldest dropped when a sixth is added, `y`
lowered by exactly its speed, `x` unchanged, and `y ≥ -10`.  A laser whose new
`y` is below -10 is removed and nothing but the laser list is written. -/
theorem laser_motion (canvas : Canvas) (now : Int) (g : GameState) (r : Rng) :
    (g.paused = false → (∀ l ∈ g.lasers, l.trail.length ≤ 5) →
      List.Sublist (updateLasers now (g, r)).1.lasers
        ((g.lasers.map advanceLaser).filter (fun l => decide (-10 ≤ l.y))) ∧
      ∀ l2 ∈ (updateLasers now (g, r)).1.lasers, ∃ l ∈ g.lasers,
        l2 = advanceLaser l ∧ l2.x = l.x ∧ l2.y = l.y - l.speed ∧ -10 ≤ l2.y ∧
        l2.trail =
          (if l.trail.length < 5 then l.trail ++ [⟨l.x, l.y⟩]
            else l.trail.tail ++ [⟨l.x, l.y⟩]) ∧
        l2.trail.length ≤ 5 ∧ l2.trail.getLast? = some ⟨l.x, l.y⟩) ∧
    (∀ (pre back : List Laser) (l : Laser) (s : GameState × Rng),
      s.1.lasers = pre ++ l :: back → (advanceLaser l).y < -10 →
      updateLasersBody now pre.length s = ({ s.1 with lasers := pre ++ back }, s.2)) ∧
    (∀ g2 : GameState, Reachable canvas g2 → ∀ l ∈ g2.lasers, l.trail.length ≤ 5) := by
  refine ⟨?_, ?_, fun g2 hg2 => (reachable_entityInv canvas g2 hg2).trail_le⟩
  · intro hp htrail
    have hsub := ((updateLasers_count now g r).2.2.2 hp).1
    refine ⟨hsub, ?_⟩
    intro l2 hl2
    have hmem := hsub.subset hl2
    simp only [List.mem_filter, List.mem_map, decide_eq_true_eq] at hmem
    obtain ⟨⟨l, hl, rfl⟩, hy⟩ := hmem
    obtain ⟨f1, f2, _, _, f5, f6, f7⟩ := advanceLaser_facts l (htrail l hl)
    exact ⟨l, hl, rfl, f1, f2, hy, f5, f6, f7⟩
  · intro pre back l s hs hoff
    rcases updateLasersBody_cases now pre back l s hs with
      ⟨_, hb⟩ | ⟨hn, _⟩ | ⟨hn, _⟩
    · exact hb
    · exact absurd hoff hn
    · exact absurd hoff hn

/-- Witness for C20: a single laser that stays in the field. -/
theorem laser_motion_witness :
    (Sample.sessionGrazing.paused = false ∧
      ∀ l ∈ Sample.sessionGrazing.lasers, l.trail.length ≤ 5) ∧
    List.Sublist (updateLasers 0 (Sample.sessionGrazing, Sample.rngHalf)).1.lasers
      ((Sample.sessionGrazing.lasers.map advanceLaser).filter (fun l => decide (-10 ≤ l.y))) :=
  ⟨⟨rfl, by decide⟩,
    ((laser_motion Sample.canvas 0 Sample.sessionGrazing Sample.rngHalf).1 rfl (by decide)).1⟩

/-! ## Survival bonus -/

/-- C16: in one `updateAsteroids` pass on an unpaused state, every asteroid that
is off screen after its move (`x < -100`, `x > width + 100`, `y < -100` or
`y > height + 100`) is removed and adds exactly 10 to the score; that
iteration writes the asteroid list and the score only, so neither combo,
lives nor `destroyed`.  When no asteroid, after its move, is on the player,
the pass writes only the asteroid list and the score, so combo and lives are
unchanged and the score grows by exactly 10 times the number of asteroids
removed. -/
theorem survival_bonus (canvas : Canvas) (g : GameState) (r : Rng) :
    (∀ b : Body, isOffScreen canvas b 100 = true ↔
      b.x < -100 ∨ b.x > canvas.width + 100 ∨ b.y < -100 ∨ b.y > canvas.height + 100) ∧
    (g.paused = false →
      (updateAsteroids canvas (g, r)).1.score =
        g.score + 10 * (g.asteroids.filter
          (fun a => isOffScreen canvas (advanceAsteroid a).body 100)).length ∧
      (updateAsteroids canvas (g, r)).1.destroyed = g.destroyed ∧
      ∀ a ∈ (updateAsteroids canvas (g, r)).1.asteroids, isOffScreen canvas a.body 100 = false) ∧
    (∀ (pre back : List Asteroid) (b : Asteroid) (s : GameState × Rng),
      s.1.asteroids = pre ++ b :: back → isOffScreen canvas (advanceAsteroid b).body 100 = true →
      updateAsteroidsBody canvas pre.length s =
        ({ s.1 with asteroids := pre ++ back, score := s.1.score + 10 }, s.2)) ∧
    (g.paused = false → (∀ a ∈ g.asteroids, hitsPlayer canvas g.player a = false) →
      updateAsteroids canvas (g, r) =
        ({ g with
            asteroids := (g.asteroids.map advanceAsteroid).filter
              (fun a => !isOffScreen canvas a.body 100)
            score := g.score + 10 * (g.asteroids.filter
              (fun a => isOffScreen canvas (advanceAsteroid a).body 100)).length }, r) ∧
      (updateAsteroids canvas (g, r)).1.combo = g.combo ∧
      (updateAsteroids canvas (g, r)).1.lives = g.lives ∧
      (updateAsteroids canvas (g, r)).1.score =
        g.score + 10 * (g.asteroids.length - (updateAsteroids canvas (g, r)).1.asteroids.length)) := by
  refine ⟨?_, ?_, ?_, ?_⟩
  · intro b
    simp [isOffScreen, or_assoc]
  · intro hp
    obtain ⟨_, h2, h3, h4⟩ := updateAsteroids_pass canvas g r hp
    refine ⟨h3, h2, ?_⟩
    intro a ha
    rw [h4] at ha
    have := (List.mem_filter.1 ha).2
    simp only [Bool.and_eq_true, Bool.not_eq_eq_eq_not, Bool.not_true] at this
    exact this.1
  · intro pre back b s hs hoff
    rw [updateAsteroidsBody_at canvas pre back b s hs, if_pos hoff]
  · intro hp hno
    have he := updateAsteroids_bonus canvas g r hp hno
    refine ⟨he, by rw [he], by rw [he], ?_⟩
    rw [he]
    have hsplit := filter_length_split
      (fun a : Asteroid => isOffScreen canvas (advanceAsteroid a).body 100) g.asteroids
    have hmap : ((g.asteroids.map advanceAsteroid).filter
        (fun a => !isOffScreen canvas a.body 100)).length =
        (g.asteroids.filter
          (fun a => !isOffScreen canvas (advanceAsteroid a).body 100)).length := by
      rw [List.filter_map, List.length_map]
      rfl
    show g.score + 10 * _ = g.score + 10 * (g.asteroids.length - _)
    rw [hmap]
    congr 2
    omega

/-- Witness for C16: a single asteroid leaving the field on the left. -/
theorem survival_bonus_witness :
    (Sample.sessionLeaving.paused = false ∧
      ∀ a ∈ Sample.sessionLeaving.asteroids,
        hitsPlayer Sample.canvas Sample.sessionLeaving.player a = false) ∧
    (updateAsteroids Sample.canvas (Sample.sessionLeaving, Sample.rngHalf)).1.combo = 3 ∧
    (updateAsteroids Sample.canvas (Sample.sessionLeaving, Sample.rngHalf)).1.score = 10 ∧
    (updateAsteroids Sample.canvas (Sample.sessionLeaving, Sample.rngHalf)).1.asteroids = [] := by
  have hno : ∀ a ∈ Sample.sessionLeaving.asteroids,
      hitsPlayer Sample.canvas Sample.sessionLeaving.player a = false := by decide!
  have h := (survival_bonus Sample.canvas Sample.sessionLeaving Sample.rngHalf).2.2.2 rfl hno
  exact ⟨⟨rfl, hno⟩, h.2.1, by decide!, by decide!⟩

/-! ## Power-up lifetime and pickup -/

/-- C21: in one `updatePowerUps` pass on an unpaused state the life of each
power-up is lowered by 1; a power-up whose life is then `≤ 0` is removed
without its effect, overlapping the player or not; otherwise, if it overlaps
the player its effect is applied once and it is removed; otherwise it stays,
aged.  So the pass applies the effects of the power-ups alive and on the
player, once each, last first, and keeps those alive and not on the player,
each of which has life at least 1.  A power-up is created with life 300;
after `k` passes in which it is not picked up it is still there, with life
`life - k`, exactly when `k` is below its life, so one with life 300 is removed
by the 300th pass and by none before. -/
theorem powerUp_lifetime (g : GameState) :
    (∀ (pre back : List PowerUp) (p : PowerUp) (s : GameState),
      s.powerUps = pre ++ p :: back →
      (agePowerUp p).life = p.life - 1 ∧
      ((agePowerUp p).life ≤ 0 →
        updatePowerUpsBody pre.length s = { s with powerUps := pre ++ back }) ∧
      (0 < (agePowerUp p).life → checkCollision (agePowerUp p).body s.player.body = true →
        updatePowerUpsBody pre.length s =
          { applyPowerUp s p.type with powerUps := pre ++ back }) ∧
      (0 < (agePowerUp p).life → checkCollision (agePowerUp p).body s.player.body = false →
        updatePowerUpsBody pre.length s = { s with powerUps := pre ++ agePowerUp p :: back })) ∧
    (g.paused = false →
      updatePowerUps g =
        { applyPicked g ((g.powerUps.map agePowerUp).filter
            (fun q => decide (0 < q.life) && checkCollision q.body g.player.body)) with
          powerUps := (g.powerUps.map agePowerUp).filter
            (fun q => decide (0 < q.life) && !checkCollision q.body g.player.body) } ∧
      ∀ q ∈ (updatePowerUps g).powerUps, 1 ≤ q.life) ∧
    (∀ (x y : ℚ) (r : Rng), (createPowerUp x y r).life = 300) ∧
    (∀ (p : PowerUp) (k : Nat), (agePowerUp^[k] p).life = p.life - k) ∧
    (∀ (gs : Nat → GameState) (n : Nat),
      (∀ j < n, (gs j).paused = false) →
      (∀ j < n, (gs (j + 1)).powerUps = (updatePowerUps (gs j)).powerUps) →
      (∀ j < n, ∀ q ∈ (gs j).powerUps, checkCollision q.body (gs j).player.body = false) →
      (∀ q ∈ (gs 0).powerUps, 0 < q.life) →
      ∀ k ≤ n, (gs k).powerUps =
        ((gs 0).powerUps.filter (fun q => decide ((k : Int) < q.life))).map (agePowerUp^[k])) := by
  refine ⟨?_, ?_, fun _ _ _ => rfl, fun p k => (agePowerUp_iterate p k).1,
    fun gs n hp hstep hno hlife => powerUps_unpicked gs n hp hstep hno hlife⟩
  · intro pre back p s hs
    refine ⟨rfl, ?_, ?_, ?_⟩
    · intro hl
      rw [updatePowerUpsBody_at pre back p s hs, if_pos hl]
      rfl
    · intro hl hc
      rw [updatePowerUpsBody_at pre back p s hs, if_neg (not_le.2 hl), if_pos hc]
      rfl
    · intro hl hc
      rw [updatePowerUpsBody_at pre back p s hs, if_neg (not_le.2 hl), if_neg (by simp [hc])]
      rfl
  · intro hp
    have h := updatePowerUps_pass g hp
    refine ⟨h, ?_⟩
    intro q hq
    rw [h] at hq
    have hq2 := (List.mem_filter.1 hq).2
    simp only [Bool.and_eq_true, decide_eq_true_eq] at hq2
    omega

/-- Witness for C21: a pass over a shield on the player, an expiring shield on
the player and a new power-up out of reach; and two passes over the new
power-up alone. -/
theorem powerUp_lifetime_witness :
    (Sample.sessionPowerUps.paused = false ∧
      (updatePowerUps Sample.sessionPowerUps).lives = 4 ∧
      (updatePowerUps Sample.sessionPowerUps).powerUps = [agePowerUp Sample.farPowerUp]) ∧
    ((∀ j < 2, (Sample.agingSession j).paused = false) ∧
      (Sample.agingSession 2).powerUps = [agePowerUp (agePowerUp Sample.farPowerUp)]) := by
  have h1 := ((powerUp_lifetime Sample.sessionPowerUps).2.1 rfl).1
  have hp : ∀ j < 2, (Sample.agingSession j).paused = false := by decide!
  have h2 := (powerUp_lifetime GameState.fresh).2.2.2.2 Sample.agingSession 2 hp
    (fun j _ => by simp only [Sample.agingSession, Function.iterate_succ_apply'])
    (by decide!) (by decide!) 2 (le_refl 2)
  refine ⟨⟨rfl, ?_, ?_⟩, hp, ?_⟩
  · rw [h1]
    decide!
  · rw [h1]
    decide!
  · rw [h2]
    decide!
/-! ## Lives below zero -/

/-- C22, as stated, fails: sixty ticks from `reset`, with no other event, end
with `lives = -1`.  Four asteroids spawned in the first four ticks reach the
player in the same tick; before that tick the session runs with 3 lives, and
the asteroid pass of that tick resolves all four hits. -/
theorem lives_nonneg_counterexample :
    Reachable Sample.canvas
      (run Sample.canvas (Sample.barrageDraws.map (Event.frame 0)) GameState.fresh) ∧
    (run Sample.canvas ((Sample.barrageDraws.take 59).map (Event.frame 0)) GameState.fresh).lives
      = 3 ∧
    (run Sample.canvas (Sample.barrageDraws.map (Event.frame 0)) GameState.fresh).lives = -1 :=
  ⟨⟨_, rfl⟩, by decide!, by decide!⟩

/-- C22, amended: in every state reachable from `reset`, lives are at least 1
while the session is running, so `lives ≤ 0` only when it is over.  An
asteroid pass on an unpaused state resolves a player hit for every asteroid
that, once moved, is on screen and on the player, also after a hit of the
same pass has brought lives to 0: lives after the pass are lives before minus
the number of such asteroids, and are non-negative exactly when that number
is at most lives before. -/
theorem lives_floor (canvas : Canvas) (g : GameState) (r : Rng) :
    (∀ g2 : GameState, Reachable canvas g2 → g2.gameRunning = true → 1 ≤ g2.lives) ∧
    (g.paused = false →
      (updateAsteroids canvas (g, r)).1.lives =
        g.lives - ((g.asteroids.filter (hitsPlayer canvas g.player)).length : Int) ∧
      (0 ≤ (updateAsteroids canvas (g, r)).1.lives ↔
        ((g.asteroids.filter (hitsPlayer canvas g.player)).length : Int) ≤ g.lives)) ∧
    (∀ (pre back : List Asteroid) (b : Asteroid) (s : GameState × Rng),
      s.1.asteroids = pre ++ b :: back → hitsPlayer canvas s.1.player b = true →
      (updateAsteroidsBody canvas pre.length s).1.lives = s.1.lives - 1 ∧
      (s.1.lives ≤ 1 → (updateAsteroidsBody canvas pre.length s).1.gameRunning = false)) := by
  refine ⟨?_, ?_, ?_⟩
  · intro g2 hg2 hrun
    by_contra hl
    have := (reachable_sessionInv canvas g2 hg2).lives_ok (by omega)
    rw [hrun] at this
    exact absurd this (by decide)
  · intro hp
    have h := updateAsteroids_lives_pass canvas g r hp
    refine ⟨h, ?_⟩
    rw [h]
    omega
  · intro pre back b s hs hb
    obtain ⟨h1, h2⟩ := updateAsteroidsBody_lives canvas pre back b s hs
    rw [hb] at h1
    exact ⟨by simpa using h1, h2 hb⟩

/-- Witness for C22: one life left and two asteroids on the player. -/
theorem lives_floor_witness :
    Sample.lastLifeTwoRocks.paused = false ∧
    (updateAsteroids Sample.canvas (Sample.lastLifeTwoRocks, Sample.rngHalf)).1.lives = -1 := by
  refine ⟨rfl, ?_⟩
  rw [((lives_floor Sample.canvas Sample.lastLifeTwoRocks Sample.rngHalf).2.1 rfl).1]
  decide!
/-! ## High-score prompt and submission -/

/-- C23: for a leaderboard sorted by descending score with at most 10 entries
and an entry `e` pushed by `submitScore`, the sort puts `e` behind the entries
with at least its score and in front of those with a lower score, and the
test `isHighScore` of `gameOver` (length below 10, or the score above that of
the last entry) is true exactly when `e` then stands among the first 10, that
is when it is still in the leaderboard after the cut.  When the test is
false the leaderboard is left as it was; in particular a score equal to that
of the 10th entry of a full leaderboard is not retained. -/
theorem highScore_prompt (lb : List LeaderboardEntry) (e : LeaderboardEntry)
    (hs : lb.Pairwise (fun a b => a.score ≥ b.score)) (hl : lb.length ≤ 10) :
    (∃ hi lo : List LeaderboardEntry, lb = hi ++ lo ∧ (∀ x ∈ hi, e.score ≤ x.score) ∧
      (∀ x ∈ lo, x.score < e.score) ∧
      (lb ++ [e]).insertionSort scoreOrder = hi ++ e :: lo ∧
      (isHighScore lb e.score = true ↔ hi.length < 10) ∧
      (isHighScore lb e.score = true →
        submitEntry lb e = hi ++ e :: lo.take (9 - hi.length))) ∧
    (isHighScore lb e.score = false → submitEntry lb e = lb) ∧
    (isHighScore lb e.score = true → e ∈ submitEntry lb e) ∧
    (e ∉ lb → (isHighScore lb e.score = true ↔ e ∈ submitEntry lb e)) ∧
    (isHighScore lb e.score = true ↔
      lb.length < 10 ∨ ∃ last, lb.getLast? = some last ∧ last.score < e.score) ∧
    (lb.length = 10 → ∀ last, lb.getLast? = some last → e.score = last.score →
      isHighScore lb e.score = false ∧ submitEntry lb e = lb) ∧
    (∀ (c : Controller) (playerName date : String),
      (submitScore c playerName date).leaderboardData =
        submitEntry c.leaderboardData (entryOf c.gameState playerName date) ∧
      (entryOf c.gameState playerName date).score = c.gameState.score) := by
  obtain ⟨hi, lo, hlb, hhi, hlo, hsort, hiff, hin, hout⟩ := submitEntry_split e lb hs hl
  have hmem : isHighScore lb e.score = true → e ∈ submitEntry lb e := by
    intro h
    rw [hin h]
    simp
  refine ⟨⟨hi, lo, hlb, hhi, hlo, hsort, hiff, hin⟩, hout, hmem, ?_, isHighScore_iff lb e.score,
    ?_, fun c playerName date => ⟨rfl, rfl⟩⟩
  · intro hnot
    refine ⟨hmem, ?_⟩
    intro he
    by_contra h
    rw [Bool.not_eq_true] at h
    rw [hout h] at he
    exact hnot he
  · intro hlen last hlast heq
    have hf : isHighScore lb e.score = false := by
      rw [← Bool.not_eq_true, isHighScore_iff]
      rintro (h | ⟨last2, hlast2, hlt⟩)
      · omega
      · rw [hlast] at hlast2
        cases hlast2
        omega
    exact ⟨hf, hout hf⟩

/-- Witness for C23: a full leaderboard with the scores 100 down to 10 and an
entry with score 10. -/
theorem highScore_prompt_witness :
    (Sample.board.Pairwise (fun a b => a.score ≥ b.score) ∧ Sample.board.length ≤ 10) ∧
    isHighScore Sample.board Sample.tie.score = false ∧
    submitEntry Sample.board Sample.tie = Sample.board :=
  ⟨⟨by decide, by decide⟩, by decide,
    (highScore_prompt Sample.board Sample.tie (by decide) (by decide)).2.1 (by decide)⟩
end AsteroidDodger
